import Mathlib

/-! MentraAI agent panel (`app/web/static/js/agent.js`).

A shallow embedding of the conversational controller of the agent panel:
the bounded session memory, the prompt composer, the request lifecycle, the
completion tracker, the start-day listener and the rendering of assistant
text, and of the pager of the leaderboard (`leaderboard.js`), followed by the
properties proved about them.

JavaScript strings are sequences of UTF-16 code units; they are modelled as
lists of natural numbers, so that `length`, `slice` and `trim` act on code
units exactly as they do in the source.
-/

namespace Mentra

/-! ## Strings -/

/-- A UTF-16 code unit. -/
abbrev CodeUnit := Nat

/-- A JavaScript string: its sequence of UTF-16 code units. -/
abbrev JSString := List CodeUnit

/-- UTF-16 encoding of one Unicode scalar value. -/
def encodeChar (c : Char) : List CodeUnit :=
  if c.toNat < 65536 then [c.toNat]
  else [55296 + (c.toNat - 65536) / 1024, 56320 + (c.toNat - 65536) % 1024]

/-- The JavaScript string denoted by a literal of the source. -/
def str (s : String) : JSString :=
  s.toList.flatMap encodeChar

/-- Code units removed by `String.prototype.trim` and matched by `\s`:
the WhiteSpace and LineTerminator code points of ECMAScript. -/
def isWhiteSpace (c : CodeUnit) : Bool :=
  c == 9 || c == 10 || c == 11 || c == 12 || c == 13 || c == 32 || c == 160 ||
  c == 5760 || (8192 ≤ c && c ≤ 8202) || c == 8232 || c == 8233 || c == 8239 ||
  c == 8287 || c == 12288 || c == 65279

/-- Model of `String.prototype.trim`. -/
def trim (s : JSString) : JSString :=
  (s.dropWhile isWhiteSpace).rdropWhile isWhiteSpace

/-- Model of `Array.prototype.slice(-k)` and of `slice(length - k)` for
`k ≤ length`: the last `k` elements. -/
def sliceLast {α : Type} (k : Nat) (xs : List α) : List α :=
  xs.drop (xs.length - k)

/-- Model of `Array.prototype.join`. -/
def join (sep : JSString) : List JSString → JSString
  | [] => []
  | [x] => x
  | x :: y :: rest => x ++ sep ++ join sep (y :: rest)

/-- Decimal rendering of a non-negative integer, as in a template literal. -/
def natToString (n : Nat) : JSString :=
  (Nat.toDigits 10 n).map Char.toNat

/-! ## Session memory -/

/-- One remembered turn `{ role, content }`. -/
structure Turn where
  role : JSString
  content : JSString
deriving DecidableEq, Repr

/-- The constant `MAX_TURNS`. -/
def MAX_TURNS : Nat := 12

/-- The constant `MAX_CHARS_EACH`. -/
def MAX_CHARS_EACH : Nat := 12000

/-- The truncation marker and empty-reply placeholder `"…"` (U+2026). -/
def ellipsis : JSString := [8230]

/-- The function `clamp(s, n)`: trim, then cut to `n` code units and append
the marker when the trimmed text is longer. -/
def clamp (s : JSString) (n : Nat) : JSString :=
  let t := trim s
  if t.length > n then t.take n ++ ellipsis else t

/-- A pending request: the continuation of one `doSendChat` call suspended at
its `await`, with the values it captured. -/
structure Request where
  token : Nat
  msg : JSString
  thinkingId : Nat
  message : JSString
deriving DecidableEq, Repr

/-- The module-level state of `agent.js` together with the parts of the page
and of the browser it reads and writes. -/
structure State where
  chatController : Option Nat
  busy : Bool
  tasksCompleted : Bool
  currentTaskIndex : Nat
  dayTasks : List JSString
  memory : List Turn
  pinnedContext : JSString
  inputValue : JSString
  inputDisabled : Bool
  inputPlaceholder : JSString
  sendDisabled : Bool
  sendHidden : Bool
  stopHidden : Bool
  panelShown : Bool
  transcript : List (JSString × JSString)
  thinking : List Nat
  storage : Option (List Turn)
  nextId : Nat
  abortedTokens : List Nat
  pending : List Request
deriving DecidableEq, Repr

/-- The function `saveMemory`: the entry `MEM_KEY` of `sessionStorage` receives
the serialised turns. -/
def saveMemory (s : State) : State :=
  { s with storage := some s.memory }

/-- The function `clearMemory`. -/
def clearMemory (s : State) : State :=
  { s with memory := [], pinnedContext := [], storage := none }

/-- The function `hardResetChatMemory`. -/
def hardResetChatMemory (s : State) : State :=
  { s with storage := none, memory := [], pinnedContext := [] }

/-- The function `pushMem(role, content)`. -/
def pushMem (s : State) (role content : JSString) : State :=
  let item : Turn := { role := role, content := clamp content MAX_CHARS_EACH }
  let memory := s.memory ++ [item]
  let memory :=
    if memory.length > MAX_TURNS then sliceLast MAX_TURNS memory else memory
  saveMemory { s with memory := memory }

/-- The line rendered for one remembered turn inside `buildPrompt`. -/
def turnLine (m : Turn) : JSString :=
  (if m.role = str "user" then str "User" else str "Assistant") ++ str ": " ++ m.content

/-- The array `lines` of `buildPrompt` just before it is joined. -/
def buildPromptLines (s : State) (latestUserMsg : JSString) : List JSString :=
  let lines : List JSString := []
  let lines :=
    if s.pinnedContext ≠ [] then
      lines ++ [str "CONTEXT (pinned):"] ++ [s.pinnedContext] ++ [str ""]
    else lines
  let lines :=
    if s.memory.length ≠ 0 then
      let lines := lines ++ [str "CHAT HISTORY:"]
      let recent := sliceLast 4 s.memory
      let lines := recent.foldl (fun acc m => acc ++ [turnLine m]) lines
      lines ++ [str ""]
    else lines
  let lines := lines ++ [str "User: " ++ latestUserMsg]
  lines ++ [str "Assistant:"]

/-- The function `buildPrompt(latestUserMsg)`. -/
def buildPrompt (s : State) (latestUserMsg : JSString) : JSString :=
  join (str "\n") (buildPromptLines s latestUserMsg)

/-! ## Page helpers -/

/-- The constant `NORMAL_PLACEHOLDER`. -/
def NORMAL_PLACEHOLDER : JSString := str "Type a message..."

/-- The function `setBusy(isBusy)`. -/
def setBusy (s : State) (isBusy : Bool) : State :=
  let s := { s with busy := isBusy }
  let s := { s with inputDisabled := s.busy }
  if s.busy then { s with sendHidden := true, stopHidden := false }
  else { s with stopHidden := true, sendHidden := false }

/-- The function `lockChatAfterCompletion`. -/
def lockChatAfterCompletion (s : State) : State :=
  { s with tasksCompleted := true, inputDisabled := true, sendDisabled := true }

/-- The function `resetAfterCompletion`. -/
def resetAfterCompletion (s : State) : State :=
  { s with
    tasksCompleted := true
    currentTaskIndex := 0
    dayTasks := []
    memory := []
    pinnedContext := []
    storage := none
    inputPlaceholder := NORMAL_PLACEHOLDER }

/-- The function `makeThinkingBubble`: a bubble with a fresh id is added to the
body and its id returned. -/
def makeThinkingBubble (s : State) : State × Nat :=
  ({ s with thinking := s.thinking ++ [s.nextId], nextId := s.nextId + 1 }, s.nextId)

/-- The function `removeThinking(id)`. -/
def removeThinking (s : State) (id : Nat) : State :=
  { s with thinking := s.thinking.erase id }

/-- The function `append(role, text)`: one more entry in the transcript. The
entry records the role and the text handed to `append`. -/
def append (s : State) (role text : JSString) : State :=
  { s with transcript := s.transcript ++ [(role, text)] }

/-- The function `resetInputBox`. -/
def resetInputBox (s : State) : State :=
  { s with inputValue := [] }

/-! ## Completion phrases

The two regular expressions tested on a reply, `/tasks?\s+completed/i` and
`/day\s+\d+\s+completed/i`, as patterns for a small backtracking matcher. -/

/-- One character matcher of a pattern. -/
inductive Atom where
  | lit (c : CodeUnit)
  | space
  | digit
deriving DecidableEq, Repr

/-- Upper-casing of the ASCII letters. Under the `i` flag without the `u` flag a
pattern letter of the ASCII range matches exactly its two ASCII case variants. -/
def asciiUpper (c : CodeUnit) : CodeUnit :=
  if 97 ≤ c ∧ c ≤ 122 then c - 32 else c

/-- Whether a code unit is matched by an atom (case-insensitively). -/
def Atom.matches : Atom → CodeUnit → Bool
  | .lit p, c => asciiUpper c == asciiUpper p
  | .space, c => isWhiteSpace c
  | .digit, c => 48 ≤ c && c ≤ 57

/-- An atom with its quantifier. -/
inductive Piece where
  | one (a : Atom)
  | opt (a : Atom)
  | plus (a : Atom)
deriving DecidableEq, Repr

/-- The loop of `a+` followed by the rest of the pattern `k`. -/
def plusLoop (a : Atom) (k : JSString → Bool) : JSString → Bool
  | [] => false
  | c :: cs => a.matches c && (k cs || plusLoop a k cs)

/-- Whether a pattern matches at the start of the text. -/
def matchHere : List Piece → JSString → Bool
  | [], _ => true
  | .one a :: ps, s =>
    match s with
    | [] => false
    | c :: cs => a.matches c && matchHere ps cs
  | .opt a :: ps, s =>
    (match s with
     | [] => false
     | c :: cs => a.matches c && matchHere ps cs) || matchHere ps s
  | .plus a :: ps, s => plusLoop a (matchHere ps) s

/-- Model of `RegExp.prototype.test`: the pattern matches somewhere. -/
def regexTest (p : List Piece) (s : JSString) : Bool :=
  s.tails.any (matchHere p)

/-- The literal characters of a word, as pattern pieces. -/
def word (w : String) : List Piece :=
  (str w).map (fun c => Piece.one (Atom.lit c))

/-- The pattern `/tasks?\s+completed/i`. -/
def reTasksCompleted : List Piece :=
  word "task" ++ [Piece.opt (Atom.lit 115), Piece.plus Atom.space] ++ word "completed"

/-- The pattern `/day\s+\d+\s+completed/i`. -/
def reDayCompleted : List Piece :=
  word "day" ++ [Piece.plus Atom.space, Piece.plus Atom.digit, Piece.plus Atom.space] ++
    word "completed"

/-- The condition under which a reply locks the chat. -/
def completionPhrase (reply : JSString) : Bool :=
  regexTest reTasksCompleted reply || regexTest reDayCompleted reply

/-! ## Sending a message -/

/-- The parsed body of a response; a body that cannot be parsed is `{}`. -/
structure ResponseData where
  reply : Option JSString
  error : Option JSString
deriving DecidableEq, Repr

/-- How the awaited part of `doSendChat` ends: a response arrived (with its
status and body), the fetch was aborted, or it failed otherwise. -/
inductive Outcome where
  | response (status : Nat) (data : ResponseData)
  | abortError
  | networkError
deriving DecidableEq, Repr

/-- The property `r.ok` of a response. -/
def responseOk (status : Nat) : Bool :=
  200 ≤ status && status ≤ 299

/-- The test `isConfirmation` on the trimmed, lower-cased message. -/
def isConfirmation (text : JSString) : Bool :=
  text == str "ok" || text == str "done" || text == str "yes" || text == str "y" ||
  text == str "ok done"

/-- The check made after the index was incremented: the Completed transition. -/
def completionCheck (s : State) : State :=
  if s.currentTaskIndex ≥ s.dayTasks.length then
    resetAfterCompletion (append s (str "assistant") (str "Good. Day tasks completed."))
  else s

/-- The completion detection of the success branch. The platform function
`String.prototype.toLowerCase` is the parameter `lower`. -/
def tracker (lower : JSString → JSString) (s : State) (msg : JSString) : State :=
  if !s.tasksCompleted && s.dayTasks.length ≠ 0 then
    let text := lower (trim msg)
    if isConfirmation text then
      completionCheck { s with currentTaskIndex := s.currentTaskIndex + 1 }
    else s
  else s

/-- The text shown and remembered for a reply: `reply || "…"`. -/
def orEllipsis (reply : JSString) : JSString :=
  if reply ≠ [] then reply else ellipsis

/-- The success branch of `doSendChat` (response ok). -/
def handleSuccess (lower : JSString → JSString) (s : State) (msg : JSString)
    (data : ResponseData) : State :=
  let reply := trim (data.reply.getD [])
  let s := append s (str "assistant") (orEllipsis reply)
  let s := if completionPhrase reply then lockChatAfterCompletion s else s
  let s := pushMem s (str "user") msg
  let s := pushMem s (str "assistant") (orEllipsis reply)
  tracker lower s msg

/-- The failure branch of `doSendChat` (response not ok). -/
def handleFailure (s : State) (status : Nat) (data : ResponseData) : State :=
  let err := data.error.getD []
  append s (str "assistant")
    (if err ≠ [] then err else str "Error (" ++ natToString status ++ str ")")

/-- The synchronous first part of `doSendChat(messageOverride, opts)`, up to the
`await` of the fetch. It returns the request issued, if any. -/
def doSendChatStart (s : State) (messageOverride : Option JSString) (raw : Bool) :
    State × Option Request :=
  let msg := trim (messageOverride.getD s.inputValue)
  if msg = [] ∨ s.busy = true then (s, none) else
  let s :=
    if s.tasksCompleted then
      { s with
        memory := []
        pinnedContext := []
        dayTasks := []
        currentTaskIndex := 0
        tasksCompleted := false }
    else s
  let s := append s (str "user") msg
  let s := resetInputBox s
  let s := setBusy s true
  let s :=
    match s.chatController with
    | some c => { s with abortedTokens := s.abortedTokens ++ [c] }
    | none => s
  let token := s.nextId
  let s := { s with chatController := some token, nextId := s.nextId + 1 }
  let (s, thinkingId) := makeThinkingBubble s
  let composed := if raw then msg else buildPrompt s msg
  let rq : Request :=
    { token := token, msg := msg, thinkingId := thinkingId, message := composed }
  ({ s with pending := s.pending ++ [rq] }, some rq)

/-- The rest of `doSendChat`, run when the awaited fetch of request `rq` ends
with outcome `o`: the `try` body after the `await`, the `catch` and the
`finally`. -/
def doSendChatResume (lower : JSString → JSString) (s : State) (rq : Request)
    (o : Outcome) : State :=
  let s := { s with pending := s.pending.erase rq }
  let s := removeThinking s rq.thinkingId
  let s :=
    match o with
    | .response status data =>
      if !responseOk status then handleFailure s status data
      else handleSuccess lower s rq.msg data
    | .abortError => append s (str "assistant") (str "Stopped.")
    | .networkError => append s (str "assistant") (str "Network error. Try again.")
  let s := { s with chatController := none }
  setBusy s false

/-- One whole `doSendChat` call whose request ends with outcome `o` before
anything else happens. -/
def doSendChat (lower : JSString → JSString) (s : State)
    (messageOverride : Option JSString) (raw : Bool) (o : Outcome) : State :=
  match doSendChatStart s messageOverride raw with
  | (s, none) => s
  | (s, some rq) => doSendChatResume lower s rq o

/-- The function `doStop`. -/
def doStop (s : State) : State :=
  let s :=
    match s.chatController with
    | some c => { s with abortedTokens := s.abortedTokens ++ [c], chatController := none }
    | none => s
  setBusy s false

/-- The function `openPanel`. -/
def openPanel (s : State) : State :=
  { s with panelShown := true, inputPlaceholder := NORMAL_PLACEHOLDER }

/-- The function `closePanel`. -/
def closePanel (s : State) : State :=
  let s := { s with panelShown := false }
  let s := doStop s
  let s := hardResetChatMemory s
  { s with transcript := [], thinking := [] }

/-! ## The start-day signal -/

/-- One entry of `plan.days`. A `tasks` field that is not an array is `none`;
a missing `goal` is the empty string. -/
structure DayEntry where
  day : Int
  goal : JSString
  tasks : Option (List JSString)
deriving DecidableEq, Repr

/-- The `detail` of a `mentrascan:startDay` event, with the shape the external
interface gives it: an integer day, an intent (empty when absent) and the list
`plan.days` (`none` when the plan or its days are missing). -/
structure Detail where
  day : Int
  intent : JSString
  days : Option (List DayEntry)
deriving DecidableEq, Repr

/-- Decimal rendering of an integer, as in a template literal. -/
def intToString (i : Int) : JSString :=
  if i < 0 then str "-" ++ natToString i.natAbs else natToString i.natAbs

/-- The lookup `plan?.days?.find?.((x) => Number(x.day) === day) || null`. -/
def findDay (detail : Option Detail) (day : Int) : Option DayEntry :=
  match detail with
  | none => none
  | some dt =>
    match dt.days with
    | none => none
    | some days => days.find? (fun x => x.day == day)

/-- The day number `Number(detail?.day || 0)`. -/
def detailDay (detail : Option Detail) : Int :=
  match detail with
  | none => 0
  | some dt => dt.day

/-- The intent `String(detail?.intent || "")`. -/
def detailIntent (detail : Option Detail) : JSString :=
  match detail with
  | none => []
  | some dt => dt.intent

/-- The function `buildStartDayMessage(detail)`. -/
def buildStartDayMessage (detail : Option Detail) : JSString :=
  let day := detailDay detail
  let intent := detailIntent detail
  match findDay detail day with
  | none => str "Start Day " ++ (if day ≠ 0 then intToString day else str "") ++ str "."
  | some d =>
    if day = 0 then str "Start Day " ++ str "" ++ str "." else
    let goal := trim d.goal
    let tasks := d.tasks.getD []
    let taskLines := join (str "\n") (tasks.map (fun t => str "- " ++ trim t))
    if intent = str "help_overview" then
      join (str "\n") (List.filter (fun l => decide (l ≠ []))
        [ str "HELP_OVERVIEW",
          str "Day: " ++ intToString day,
          if goal ≠ [] then str "Goal: " ++ goal else str "",
          if tasks.length ≠ 0 then str "Tasks:\n" ++ taskLines else str "",
          str "",
          str "INSTRUCTION:",
          str "Explain ALL tasks together in ONE coherent answer.",
          str "Give: overview of how they connect + steps for each + common pitfalls + quick checklist.",
          str "Keep it concise and practical. Do not end with a question." ])
    else
      join (str "\n") (List.filter (fun l => decide (l ≠ []))
        [ str "START_DAY",
          str "Day: " ++ intToString day,
          if goal ≠ [] then str "Goal: " ++ goal else str "",
          if tasks.length ≠ 0 then str "Tasks:\n" ++ taskLines else str "" ])

/-- The `try` body of the `mentrascan:startDay` listener. With a `detail` of
the shape above nothing in it throws. -/
def startDay (s : State) (detail : Option Detail) : State :=
  let s := openPanel s
  let s :=
    { s with
      tasksCompleted := false
      inputDisabled := false
      sendDisabled := false
      inputPlaceholder := NORMAL_PLACEHOLDER }
  let s := hardResetChatMemory s
  let day := detailDay detail
  let d := findDay detail day
  let s :=
    { s with
      dayTasks :=
        match d with
        | some e => e.tasks.getD []
        | none => []
      currentTaskIndex := 0 }
  let msg := buildStartDayMessage detail
  let s := { s with pinnedContext := msg }
  (doSendChatStart s (some msg) true).1

/-! ## The controller as a transition system -/

/-- The module-level variables at their initial values, after `loadMemory` has
read what the tab had stored; no request is outstanding. -/
def Initial (s : State) : Prop :=
  s.chatController = none ∧ s.busy = false ∧ s.tasksCompleted = false ∧
  s.currentTaskIndex = 0 ∧ s.dayTasks = [] ∧ s.pinnedContext = [] ∧
  s.memory = s.storage.getD [] ∧ s.pending = [] ∧ s.transcript = [] ∧ s.thinking = []

/-- One event handled by the controller. Each handler runs to completion (or
to its `await`) before the next event is taken. -/
inductive Step (lower : JSString → JSString) : State → State → Prop
  | typeText (s : State) (v : JSString) : Step lower s { s with inputValue := v }
  | send (s : State) (messageOverride : Option JSString) (raw : Bool) :
      Step lower s (doSendChatStart s messageOverride raw).1
  | resolve (s : State) (rq : Request) (o : Outcome) :
      rq ∈ s.pending → (o = Outcome.abortError → rq.token ∈ s.abortedTokens) →
      Step lower s (doSendChatResume lower s rq o)
  | stop (s : State) : Step lower s (doStop s)
  | openPanel (s : State) : Step lower s (openPanel s)
  | closePanel (s : State) : Step lower s (closePanel s)
  | startDay (s : State) (detail : Option Detail) : Step lower s (startDay s detail)

/-- States reachable from an initial state. -/
inductive Reachable (lower : JSString → JSString) : State → Prop
  | init (s : State) : Initial s → Reachable lower s
  | step (s t : State) : Reachable lower s → Step lower s t → Reachable lower t

/-! ## Runs and sample inputs -/

/-- The turn `pushMem` builds from the arguments of one call. -/
def clampedTurn (p : JSString × JSString) : Turn :=
  { role := p.1, content := clamp p.2 MAX_CHARS_EACH }

/-- A sequence of calls `pushMem(role, content)`, in order. -/
def pushAll (s : State) (ps : List (JSString × JSString)) : State :=
  ps.foldl (fun st p => pushMem st p.1 p.2) s

/-- Lower-casing of the ASCII letters, the action of `toLowerCase` on ASCII
text; used to run the controller on ASCII inputs. -/
def asciiLower (s : JSString) : JSString :=
  s.map (fun c => if 65 ≤ c ∧ c ≤ 90 then c + 32 else c)

/-- A freshly loaded page with nothing stored. -/
def emptyState : State :=
  { chatController := none
    busy := false
    tasksCompleted := false
    currentTaskIndex := 0
    dayTasks := []
    memory := []
    pinnedContext := []
    inputValue := []
    inputDisabled := false
    inputPlaceholder := NORMAL_PLACEHOLDER
    sendDisabled := false
    sendHidden := false
    stopHidden := true
    panelShown := false
    transcript := []
    thinking := []
    storage := none
    nextId := 0
    abortedTokens := []
    pending := [] }

/-- Thirteen pushes with the contents `a`, `b`, ..., `m`. -/
def thirteenPushes : List (JSString × JSString) :=
  (List.range 13).map (fun i => (str "user", [97 + i]))

/-- A memory of six turns with the contents `1` to `6`, roles alternating. -/
def sixTurns : State :=
  { emptyState with
    memory := (List.range 6).map (fun i =>
      ({ role := if i % 2 = 0 then str "user" else str "assistant", content := [49 + i] } : Turn)) }

/-- A content of 12002 code units: one space, then `a` 12001 times. -/
def paddedLong : JSString := 32 :: List.replicate 12001 97

/-- A day in progress with the two tasks `Read ch.1` and `Do ex.1`. -/
def twoTasks : State :=
  { emptyState with dayTasks := [str "Read ch.1", str "Do ex.1"] }

/-- The success outcome with reply `r`. -/
def okReply (r : JSString) : Outcome :=
  Outcome.response 200 { reply := some r, error := none }

/-- The state handed to the branch of the outcome: the request is no longer
pending and its thinking bubble is gone. -/
def resumed (s : State) (rq : Request) : State :=
  removeThinking { s with pending := s.pending.erase rq } rq.thinkingId

/-- The state just before the tracker runs in the success branch. -/
def beforeTracker (s : State) (msg : JSString) (data : ResponseData) : State :=
  pushMem
    (pushMem
      (if completionPhrase (trim (data.reply.getD [])) then
        lockChatAfterCompletion
          (append s (str "assistant") (orEllipsis (trim (data.reply.getD []))))
       else append s (str "assistant") (orEllipsis (trim (data.reply.getD []))))
      (str "user") msg)
    (str "assistant") (orEllipsis (trim (data.reply.getD [])))

/-- The condition under which the success branch, started in state `s` for the
message `msg`, reaches the Completed transition: the tracker runs, the message
is a confirmation and the incremented index reaches the number of tasks. -/
def CompletedFires (lower : JSString → JSString) (s : State) (msg : JSString)
    (data : ResponseData) : Prop :=
  s.tasksCompleted = false ∧ completionPhrase (trim (data.reply.getD [])) = false ∧
  s.dayTasks ≠ [] ∧ isConfirmation (lower (trim msg)) = true ∧
  s.dayTasks.length ≤ s.currentTaskIndex + 1

/-- The condition is decidable. -/
instance (lower : JSString → JSString) (s : State) (msg : JSString) (data : ResponseData) :
    Decidable (CompletedFires lower s msg data) := by
  unfold CompletedFires
  exact inferInstance

/-- The transcript line of the Completed transition. -/
def completionLine : JSString × JSString :=
  (str "assistant", str "Good. Day tasks completed.")

/-- A run of messages typed and sent one after the other, each answered by a
successful reply before the next is sent. -/
def confirmRun (lower : JSString → JSString) (s : State) : List (JSString × JSString) → State
  | [] => s
  | p :: rest =>
    confirmRun lower (doSendChat lower { s with inputValue := p.1 } none false (okReply p.2)) rest

/-- The transcript lines of a run of successful exchanges: the trimmed message
of the user and the reply shown. -/
def exchangeLines (pairs : List (JSString × JSString)) : List (JSString × JSString) :=
  pairs.flatMap (fun p => [(str "user", trim p.1), (str "assistant", orEllipsis (trim p.2))])

/-- Three confirmations `ok`, each answered by a plain reply. -/
def threeOks : List (JSString × JSString) :=
  [(str "ok", str "Sure."), (str " OK ", str "Great."), (str "ok", str "Again?")]

/-- A start-day signal for day 2 of a plan whose day 2 has two tasks. -/
def dayTwoDetail : Detail :=
  { day := 2
    intent := str ""
    days := some
      [ { day := 1, goal := str "Warm up", tasks := some [str "Intro"] },
        { day := 2, goal := str "Basics", tasks := some [str "Read ch.1", str "Do ex.1"] } ] }

/-- The request issued by the start-day signal `dayTwoDetail` on a fresh page. -/
def dayTwoRequest : Request :=
  { token := 0
    msg := buildStartDayMessage (some dayTwoDetail)
    thinkingId := 1
    message := buildStartDayMessage (some dayTwoDetail) }

/-- The request issued by sending `ok` once the start-day request is answered. -/
def okRequest : Request :=
  { token := 2
    msg := str "ok"
    thinkingId := 3
    message := buildPrompt
      (doSendChatStart
        (doSendChatResume asciiLower (startDay emptyState (some dayTwoDetail)) dayTwoRequest
          (okReply (str "Let us begin."))) (some (str "ok")) false).1 (str "ok") }

/-- The controller after the start-day signal, its answer, the message `ok` and
its answer. -/
def afterFirstOk : State :=
  doSendChatResume asciiLower
    (doSendChatStart
      (doSendChatResume asciiLower (startDay emptyState (some dayTwoDetail)) dayTwoRequest
        (okReply (str "Let us begin."))) (some (str "ok")) false).1
    okRequest (okReply (str "Next one."))

/-- How the reading of a response body by `r.json()` ends. -/
inductive BodyRead where
  | parsed (data : ResponseData)
  | unparseable
  | abortedReading
deriving DecidableEq, Repr

/-- What happens on the wire to one request: the fetch is aborted before a
response arrives, it fails otherwise, or a response with a status arrives and
its body is read. -/
inductive Wire where
  | abortedWaiting
  | failed
  | responded (status : Nat) (body : BodyRead)
deriving DecidableEq, Repr

/-- What the continuation of `doSendChat` sees: `await fetch(...)` rejects when
the fetch is aborted or fails, and `await r.json().catch(() => ({}))` turns every
rejection of the body read, an abort included, into the empty object. -/
def outcomeOf : Wire → Outcome
  | .abortedWaiting => Outcome.abortError
  | .failed => Outcome.networkError
  | .responded status (.parsed data) => Outcome.response status data
  | .responded status .unparseable => Outcome.response status { reply := none, error := none }
  | .responded status .abortedReading =>
    Outcome.response status { reply := none, error := none }

/-- The request issued by sending `hello` on a fresh page. -/
def helloRequest : Request :=
  { token := 0
    msg := str "hello"
    thinkingId := 1
    message := buildPrompt emptyState (str "hello") }

/-- The controller after `hello` was sent on a fresh page and Stop was pressed. -/
def helloStopped : State :=
  doStop (doSendChatStart emptyState (some (str "hello")) false).1

/-- The request issued by sending `first` on a fresh page. -/
def firstRequest : Request :=
  { token := 0
    msg := str "first"
    thinkingId := 1
    message := buildPrompt emptyState (str "first") }

/-- The request issued by sending `second` after `first` was stopped. -/
def secondRequest : Request :=
  { token := 2
    msg := str "second"
    thinkingId := 3
    message := buildPrompt emptyState (str "second") }

/-- The controller after `first` was sent on a fresh page, Stop was pressed and
`second` was sent: `first` is superseded and its outcome not yet handled. -/
def superseded : State :=
  (doSendChatStart (doStop (doSendChatStart emptyState (some (str "first")) false).1)
    (some (str "second")) false).1

/-- The controller after `hello` was answered by `Day 3 completed` on a fresh
page: the chat is locked by the reply and two turns are remembered. -/
def lockedByReply : State :=
  doSendChat asciiLower emptyState (some (str "hello")) false (okReply (str "Day 3 completed"))

/-- A start-day signal for day 0 of a plan that has an entry for day 0. -/
def dayZeroDetail : Detail :=
  { day := 0
    intent := str ""
    days := some [ { day := 0, goal := str "Setup", tasks := some [str "Install"] } ] }

/-- A start-day signal for day 2 whose last task is blank. -/
def blankTaskDetail : Detail :=
  { day := 2
    intent := str ""
    days := some [ { day := 2, goal := str "Basics", tasks := some [str "Read ch.1", str " "] } ] }

/-- A JSON value as `JSON.parse` returns it (numbers kept as integers). -/
inductive Json where
  | null
  | bool (b : Bool)
  | number (n : Int)
  | string (s : JSString)
  | array (items : List Json)
  | object (fields : List (JSString × Json))

/-- The function `loadMemory`, as a function from the stored entry to the new
value of `memory`. The entry `raw` is `none` when `getItem` returns null; `parsed`
is the result of `JSON.parse(raw)`, `none` when it throws; `memory` is the value
the variable has when the function is called, the empty array. -/
def loadMemory (memory : List Json) (raw : Option JSString) (parsed : Option Json) :
    List Json :=
  let arr : Option Json :=
    match raw with
    | none => some (Json.array [])
    | some r => if r ≠ [] then parsed else some (Json.array [])
  match arr with
  | some (Json.array items) => items
  | _ => memory

/-- Whether a JSON value is a turn record: an object whose `role` and `content`
are strings. -/
def isTurnRecord : Json → Bool
  | .object fields =>
    (match fields.lookup (str "role") with
     | some (Json.string _) => true
     | _ => false) &&
    (match fields.lookup (str "content") with
     | some (Json.string _) => true
     | _ => false)
  | _ => false

/-- One `li` added to the pager by `add(label, p, disabled, active, dots)`. -/
structure PagerItem where
  label : JSString
  page : Int
  disabled : Bool
  active : Bool
  dots : Bool
deriving DecidableEq, Repr

/-- The helper `clamp(x, a, b)` of `setPager`: `Math.max(a, Math.min(b, x))`. -/
def clampPage (x a b : Int) : Int :=
  max a (min b x)

/-- The entry `add("…", 0, true, false, true)`. -/
def dotsItem : PagerItem :=
  { label := str "…", page := 0, disabled := true, active := false, dots := true }

/-- The entries added by the loop `for (let p = start; p <= end; p++)`. -/
def windowItems (start stop cur : Int) : List PagerItem :=
  (List.range (stop + 1 - start).toNat).map (fun (i : Nat) =>
    { label := intToString (start + (i : Int)), page := start + (i : Int), disabled := false,
      active := decide (start + (i : Int) = cur), dots := false })

/-- The function `setPager(cur, totalPages)` of the leaderboard, as the list of
entries it appends to the pager, for integer arguments. -/
def setPager (cur totalPages : Int) : List PagerItem :=
  let last := max 1 (if totalPages ≠ 0 then totalPages else 1)
  let cur := clampPage (if cur ≠ 0 then cur else 1) 1 last
  let items : List PagerItem :=
    [{ label := str "‹", page := clampPage (cur - 1) 1 last, disabled := decide (cur = 1),
       active := false, dots := false }]
  let items := items ++
    [{ label := str "1", page := 1, disabled := false, active := decide (cur = 1),
       dots := false }]
  let items :=
    if last ≥ 2 then
      let start := clampPage (cur - 2) 2 (last - 1)
      let stop := clampPage (cur + 2) 2 (last - 1)
      let items := if start > 2 then items ++ [dotsItem] else items
      let items := items ++ windowItems start stop cur
      let items := if stop < last - 1 then items ++ [dotsItem] else items
      if last ≠ 1 then
        items ++ [{ label := intToString last, page := last, disabled := false,
                    active := decide (cur = last), dots := false }]
      else items
    else items
  items ++
    [{ label := str "›", page := clampPage (cur + 1) 1 last, disabled := decide (cur = last),
       active := false, dots := false }]

/-- The page-number entries of a pager: what stands between the two arrows,
without the dots. -/
def pageEntries (items : List PagerItem) : List PagerItem :=
  (items.drop 1).dropLast.filter (fun it => !it.dots)

/-- Model of `s.replace(/c/g, r)` for a pattern that is one literal character. -/
def replaceChar (c : CodeUnit) (r : JSString) (s : JSString) : JSString :=
  s.flatMap (fun x => if x = c then r else [x])

/-- The function `escapeHtml(s)`: five replacements, `&` first. -/
def escapeHtml (s : JSString) : JSString :=
  replaceChar 39 (str "&#039;")
    (replaceChar 34 (str "&quot;")
      (replaceChar 62 (str "&gt;")
        (replaceChar 60 (str "&lt;")
          (replaceChar 38 (str "&amp;") s))))

/-- The line terminators, the code units `.` does not match. -/
def isLineTerminator (c : CodeUnit) : Bool :=
  c == 10 || c == 13 || c == 8232 || c == 8233

/-- Whether, after the first character of the group of `/\*\*(.+?)\*\*/`, the
closing `**` can be reached through characters matched by `.`. -/
def closes : JSString → Bool
  | [] => false
  | y :: ys => (y == 42 && ys.head? == some 42) || (!isLineTerminator y && closes ys)

/-- Whether a match of `/\*\*(.+?)\*\*/` starts at a `*` that is followed by
`rest`: a second `*`, a character matched by `.`, and a closing `**` within reach. -/
def opens (rest : JSString) : Bool :=
  match rest with
  | c2 :: x :: xs => c2 == 42 && !isLineTerminator x && closes xs
  | _ => false

/-- Where the scan of `/\*\*(.+?)\*\*/g` stands: outside a match, on the second
`*` of an opening `**`, on the first character of the group, further inside the
group, or on the second `*` of a closing `**`. -/
inductive Scan where
  | outside
  | openStar
  | first
  | inside
  | closeStar
deriving DecidableEq, Repr

/-- Model of `t.replace(/\*\*(.+?)\*\*/g, "<strong>$1</strong>")` as a scan from
left to right. Outside a match a `*` at which a match starts is replaced, with
the `*` after it, by `<strong>`; any other character is copied. The group is
lazy and has at least one character: after its first character it ends at the
first `**`, which is replaced by `</strong>`. -/
def boldScan : Scan → JSString → JSString
  | _, [] => []
  | .outside, c :: rest =>
    if c = 42 ∧ opens rest = true then str "<strong>" ++ boldScan .openStar rest
    else c :: boldScan .outside rest
  | .openStar, _ :: rest => boldScan .first rest
  | .first, c :: rest => c :: boldScan .inside rest
  | .inside, c :: rest =>
    if c = 42 ∧ rest.head? = some 42 then str "</strong>" ++ boldScan .closeStar rest
    else c :: boldScan .inside rest
  | .closeStar, _ :: rest => boldScan .outside rest

/-- The function `renderMiniMarkdown(text)`. -/
def renderMiniMarkdown (text : JSString) : JSString :=
  replaceChar 10 (str "<br>") (boldScan Scan.outside (escapeHtml (trim text)))

/-- The five entities written by `escapeHtml`. -/
def entities : List JSString :=
  [str "&amp;", str "&lt;", str "&gt;", str "&quot;", str "&#039;"]

/-- The three tags written by `renderMiniMarkdown`. -/
def insertedTags : List JSString :=
  [str "<strong>", str "</strong>", str "<br>"]

/-- A character that is none of `&`, `<`, `>`, `"`, `'`. -/
def isPlain (c : CodeUnit) : Bool :=
  c != 38 && c != 60 && c != 62 && c != 34 && c != 39

/-- The HTML entity of a character, or the character itself when it is plain. -/
def escapeChar (c : CodeUnit) : JSString :=
  if c = 38 then str "&amp;"
  else if c = 60 then str "&lt;"
  else if c = 62 then str "&gt;"
  else if c = 34 then str "&quot;"
  else if c = 39 then str "&#039;"
  else [c]

/-- Text made of plain characters, entities and inserted tags only. -/
inductive Safe : JSString → Prop
  | nil : Safe []
  | plain (c : CodeUnit) (r : JSString) : isPlain c = true → Safe r → Safe (c :: r)
  | entity (e r : JSString) : e ∈ entities → Safe r → Safe (e ++ r)
  | tag (t r : JSString) : t ∈ insertedTags → Safe r → Safe (t ++ r)

/-- A tab reloaded with six turns stored: `loadMemory` has restored them. -/
def sixStored : State :=
  { sixTurns with storage := some sixTurns.memory }

/-- The request issued by sending `hello` from `sixStored`. -/
def sixHelloRequest : Request :=
  { token := 0
    msg := str "hello"
    thinkingId := 1
    message := buildPrompt sixStored (str "hello") }

/-- The controller after `hello` was sent from `sixStored` and, before the
reply has arrived, the start-day signal `dayTwoDetail` was handled. -/
def startDayWhilePending : State :=
  startDay (doSendChatStart sixStored (some (str "hello")) false).1 (some dayTwoDetail)

/-! ## The start-day listener with its fallback -/

/-- The `detail` of a `mentrascan:startDay` event as the listener may receive
it: like `Detail`, but an entry of `plan.days` may be `null` (`none`). -/
structure Signal where
  day : Int
  intent : JSString
  days : Option (List (Option DayEntry))

/-- Whether `days.find((x) => Number(x.day) === day)` throws: `find` calls the
callback on the entries in order and stops at the first match, and the
callback throws a `TypeError` when it reads `x.day` on a `null` entry. -/
def findThrows (day : Int) : List (Option DayEntry) → Bool
  | [] => false
  | none :: _ => true
  | some x :: rest => if x.day == day then false else findThrows day rest

/-- Whether the `try` body of the listener throws: the lookup of line 428 is
the only statement of it that can, and it does on a `null` entry. -/
def tryThrows (signal : Option Signal) : Bool :=
  match signal with
  | none => false
  | some sig =>
    match sig.days with
    | none => false
    | some days => findThrows sig.day days

/-- The signal as the `try` body reads it when the lookup does not throw: the
entries the lookup compares are objects, the entries behind the match are not
read. -/
def signalDetail (signal : Option Signal) : Option Detail :=
  signal.map (fun sig =>
    { day := sig.day, intent := sig.intent, days := sig.days.map (fun l => l.filterMap id) })

/-- What a run of the listener leaves: the state of the controller, and whether
an error left the listener. -/
structure Handled where
  state : State
  raised : Bool

/-- The `catch` block of the `mentrascan:startDay` listener, run in the state
the `try` body left. Its last statement reads `detail`, a `const` declared in
the `try` block and not in scope here: evaluating it throws a `ReferenceError`,
which leaves the listener, and the assignment `pinnedContext = ""` is not
reached. -/
def startDayCatch (s : State) : Handled :=
  let s := openPanel s
  let s :=
    { s with
      tasksCompleted := false
      inputDisabled := false
      sendDisabled := false
      inputPlaceholder := NORMAL_PLACEHOLDER }
  let s := hardResetChatMemory s
  let s := { s with pinnedContext := str "Start day." }
  let s := (doSendChatStart s (some (str "Start day.")) true).1
  { state := s, raised := true }

/-- The `mentrascan:startDay` listener. The `try` body throws in the lookup of
the day, after the panel was opened, the flags were reset and the memory was
emptied; the `catch` block then runs. Otherwise the `try` body runs to its end
and no error leaves the listener. -/
def startDayListener (s : State) (signal : Option Signal) : Handled :=
  if tryThrows signal then
    let s := openPanel s
    let s :=
      { s with
        tasksCompleted := false
        inputDisabled := false
        sendDisabled := false
        inputPlaceholder := NORMAL_PLACEHOLDER }
    startDayCatch (hardResetChatMemory s)
  else { state := startDay s (signalDetail signal), raised := false }

/-- A start-day signal for day 3 with the overview intent and no plan. -/
def noPlanSignal : Signal :=
  { day := 3, intent := str "help_overview", days := none }

/-- A start-day signal for day 3 of a plan that has the days 1 and 2 only. -/
def dayThreeSignal : Signal :=
  { day := 3
    intent := str ""
    days := some
      [ some { day := 1, goal := str "Warm up", tasks := some [str "Intro"] },
        some { day := 2, goal := str "Basics", tasks := some [str "Read ch.1", str "Do ex.1"] } ] }

/-- A start-day signal for day 3 of a plan whose only entry is `null`. -/
def nullEntrySignal : Signal :=
  { day := 3, intent := str "help_overview", days := some [none] }

/-! ## Properties of the session memory -/

theorem sliceLast_length {α : Type} (k : Nat) (xs : List α) :
    (sliceLast k xs).length = min xs.length k := by
  unfold sliceLast
  rw [List.length_drop]
  omega

theorem sliceLast_sliceLast_append {α : Type} (k : Nat) (xs ys : List α) :
    sliceLast k (sliceLast k xs ++ ys) = sliceLast k (xs ++ ys) := by
  unfold sliceLast
  rw [← List.drop_append_of_le_length (by omega : xs.length - k ≤ xs.length)]
  rw [List.drop_drop]
  congr 1
  simp only [List.length_drop, List.length_append]
  omega

theorem pushMem_memory (s : State) (role content : JSString) :
    (pushMem s role content).memory =
      sliceLast MAX_TURNS (s.memory ++ [clampedTurn (role, content)]) := by
  unfold pushMem saveMemory clampedTurn
  simp only
  split
  · rfl
  · rename_i h
    unfold sliceLast
    have h0 : (s.memory ++
        [({ role := role, content := clamp content MAX_CHARS_EACH } : Turn)]).length -
          MAX_TURNS = 0 := by omega
    rw [h0, List.drop_zero]

theorem pushAll_memory (ps : List (JSString × JSString)) (s : State)
    (hs : s.memory.length ≤ MAX_TURNS) :
    (pushAll s ps).memory = sliceLast MAX_TURNS (s.memory ++ ps.map clampedTurn) := by
  induction ps using List.reverseRecOn with
  | nil =>
    simp only [pushAll, List.foldl_nil, List.map_nil, List.append_nil, sliceLast]
    rw [Nat.sub_eq_zero_of_le hs, List.drop_zero]
  | append_singleton ps p ih =>
    unfold pushAll at *
    rw [List.foldl_append, List.foldl_cons, List.foldl_nil, pushMem_memory, ih,
      List.map_append, ← List.append_assoc, sliceLast_sliceLast_append]
    rfl

/-- C1: after any sequence of `k ≥ 1` calls to `pushMem` from an empty memory, the
turns held are the clamped turns of the most recent `min k 12` calls, in the
order of the calls (the oldest ones are dropped from the front), so there are
`min k 12` of them and never more than 12. -/
theorem pushMem_sequence_keeps_most_recent_twelve (s : State)
    (ps : List (JSString × JSString)) (hs : s.memory = []) (hk : 1 ≤ ps.length) :
    (pushAll s ps).memory = (ps.map clampedTurn).drop (ps.length - min ps.length 12) ∧
    (pushAll s ps).memory.length = min ps.length 12 ∧
    (pushAll s ps).memory.length ≤ 12 := by
  have hm : (pushAll s ps).memory = sliceLast MAX_TURNS (ps.map clampedTurn) := by
    rw [pushAll_memory ps s (by simp [hs]), hs, List.nil_append]
  have hl : (pushAll s ps).memory.length = min ps.length 12 := by
    rw [hm, sliceLast_length, List.length_map]; rfl
  refine ⟨?_, hl, by omega⟩
  rw [hm]
  unfold sliceLast
  congr 1
  simp only [List.length_map, MAX_TURNS]
  omega

/-- Thirteen pushes from the empty memory: the first turn is evicted. -/
theorem pushMem_sequence_keeps_most_recent_twelve_witness :
    emptyState.memory = [] ∧ 1 ≤ thirteenPushes.length ∧
    ((pushAll emptyState thirteenPushes).memory =
        (thirteenPushes.map clampedTurn).drop
          (thirteenPushes.length - min thirteenPushes.length 12) ∧
      (pushAll emptyState thirteenPushes).memory.length = min thirteenPushes.length 12 ∧
      (pushAll emptyState thirteenPushes).memory.length ≤ 12) :=
  ⟨rfl, by decide,
    pushMem_sequence_keeps_most_recent_twelve emptyState thirteenPushes rfl (by decide)⟩

/-! ## Properties of the prompt composer -/
theorem join_cons_cons (sep x : JSString) (ys : List JSString) (h : ys ≠ []) :
    join sep (x :: ys) = x ++ sep ++ join sep ys := by
  cases ys with
  | nil => exact absurd rfl h
  | cons y rest => rfl

theorem join_append (sep : JSString) (xs ys : List JSString) (hx : xs ≠ []) (hy : ys ≠ []) :
    join sep (xs ++ ys) = join sep xs ++ sep ++ join sep ys := by
  induction xs with
  | nil => exact absurd rfl hx
  | cons x rest ih =>
    cases rest with
    | nil => 
      simp only [List.singleton_append, join]
      rw [join_cons_cons sep x ys hy]
    | cons y rest2 =>
      have h2 := ih (by simp)
      have h3 : join sep (x :: (y :: rest2 ++ ys)) = x ++ sep ++ join sep (y :: rest2 ++ ys) :=
        join_cons_cons sep x _ (by simp)
      have h4 : join sep (x :: y :: rest2) = x ++ sep ++ join sep (y :: rest2) :=
        join_cons_cons sep x _ (by simp)
      rw [List.cons_append, h3, h2, h4]
      simp only [List.append_assoc]

theorem foldl_push_eq_map {α : Type} (f : α → JSString) (xs : List α) (acc : List JSString) :
    xs.foldl (fun acc m => acc ++ [f m]) acc = acc ++ xs.map f := by
  induction xs generalizing acc with
  | nil => simp
  | cons x rest ih => simp [ih]

theorem buildPromptLines_eq (s : State) (msg : JSString) :
    buildPromptLines s msg =
      (if s.pinnedContext ≠ [] then [str "CONTEXT (pinned):", s.pinnedContext, str ""] else []) ++
      (if s.memory ≠ [] then
        [str "CHAT HISTORY:"] ++ (sliceLast 4 s.memory).map turnLine ++ [str ""] else []) ++
      [str "User: " ++ msg, str "Assistant:"] := by
  unfold buildPromptLines
  simp only [foldl_push_eq_map, List.nil_append]
  by_cases hp : s.pinnedContext = [] <;> by_cases hm : s.memory = [] <;>
    simp [hp, hm]



theorem sliceLast_ne_nil {α : Type} (k : Nat) (xs : List α) (hk : 0 < k) (h : xs ≠ []) :
    sliceLast k xs ≠ [] := by
  intro h0
  have hl := sliceLast_length k xs
  rw [h0] at hl
  have : 0 < xs.length := List.length_pos.mpr h
  simp only [List.length_nil] at hl
  omega

theorem sliceLast_eq_drop_min {α : Type} (k : Nat) (xs : List α) :
    sliceLast k xs = xs.drop (xs.length - min xs.length k) := by
  unfold sliceLast
  congr 1
  omega

theorem buildPrompt_with_history (s : State) (msg : JSString) (h : s.memory ≠ []) :
    buildPrompt s msg =
      (if s.pinnedContext = [] then []
        else str "CONTEXT (pinned):\n" ++ s.pinnedContext ++ str "\n\n") ++
      (str "CHAT HISTORY:\n" ++ join (str "\n") ((sliceLast 4 s.memory).map turnLine) ++
        str "\n\n") ++
      (str "User: " ++ msg ++ str "\nAssistant:") := by
  have e1 : str "CONTEXT (pinned):\n" = str "CONTEXT (pinned):" ++ str "\n" := by decide
  have e2 : str "\n\n" = str "\n" ++ str "\n" := by decide
  have e3 : str "CHAT HISTORY:\n" = str "CHAT HISTORY:" ++ str "\n" := by decide
  have e4 : str "\nAssistant:" = str "\n" ++ str "Assistant:" := by decide
  have e5 : str "" = [] := by decide
  have tail : ∀ u : JSString, join (str "\n") [u, str "Assistant:"] =
      u ++ str "\n" ++ str "Assistant:" := fun u => rfl
  have hL : (sliceLast 4 s.memory).map turnLine ≠ [] := by
    simpa using sliceLast_ne_nil 4 s.memory (by decide) h
  have hist : join (str "\n")
      ([str "CHAT HISTORY:"] ++ (sliceLast 4 s.memory).map turnLine ++ [str ""]) =
        str "CHAT HISTORY:" ++ str "\n" ++
          join (str "\n") ((sliceLast 4 s.memory).map turnLine) ++ str "\n" := by
    rw [List.append_assoc, List.singleton_append, join_cons_cons _ _ _ (by simp),
      join_append _ _ _ hL (by simp)]
    simp [join, e5]
  have pin : join (str "\n") [str "CONTEXT (pinned):", s.pinnedContext, str ""] =
      str "CONTEXT (pinned):" ++ str "\n" ++ s.pinnedContext ++ str "\n" := by
    simp [join, e5]
  unfold buildPrompt
  rw [buildPromptLines_eq]
  by_cases hp : s.pinnedContext = []
  · simp only [hp, h, ne_eq, not_true_eq_false, not_false_eq_true, if_false, if_true,
      List.nil_append]
    rw [join_append _ _ _ (by simp) (by simp), hist, tail, e2, e3, e4]
    simp only [List.append_assoc]
  · simp only [hp, h, ne_eq, not_true_eq_false, not_false_eq_true, if_false, if_true]
    rw [join_append _ _ _ (by simp) (by simp), join_append _ _ _ (by simp) (by simp),
      pin, hist, tail, e1, e2, e3, e4]
    simp only [List.append_assoc]

/-- C2: with a non-empty memory the output of `buildPrompt` is the pinned block
(if any), then the history block, then the `User:` line and the `Assistant:`
cue, where the history block is the heading `CHAT HISTORY:`, then the turn
lines of the last `min (length memory) 4` turns, oldest first, joined by
newlines, then an empty line; the array of lines the output is joined from
holds those turn lines between the heading and the empty line; there are
exactly `min (length memory) 4` turn lines; a turn line is `User: <content>`
for the role `user` and `Assistant: <content>` for any other role; and the
output depends on the memory only through its last four turns. -/
theorem buildPrompt_history_is_last_four (s : State) (msg : JSString) (h : s.memory ≠ []) :
    buildPrompt s msg =
      (if s.pinnedContext = [] then []
        else str "CONTEXT (pinned):\n" ++ s.pinnedContext ++ str "\n\n") ++
      (str "CHAT HISTORY:\n" ++
        join (str "\n")
          ((s.memory.drop (s.memory.length - min s.memory.length 4)).map turnLine) ++
        str "\n\n") ++
      (str "User: " ++ msg ++ str "\nAssistant:") ∧
    buildPromptLines s msg =
      (if s.pinnedContext ≠ [] then [str "CONTEXT (pinned):", s.pinnedContext, str ""]
        else []) ++
      [str "CHAT HISTORY:"] ++
      (s.memory.drop (s.memory.length - min s.memory.length 4)).map turnLine ++
      [str "", str "User: " ++ msg, str "Assistant:"] ∧
    ((s.memory.drop (s.memory.length - min s.memory.length 4)).map turnLine).length =
      min s.memory.length 4 ∧
    (∀ m : Turn, turnLine m =
      if m.role = str "user" then str "User: " ++ m.content
      else str "Assistant: " ++ m.content) ∧
    (∀ t : State, t.pinnedContext = s.pinnedContext →
      t.memory.drop (t.memory.length - min t.memory.length 4) =
        s.memory.drop (s.memory.length - min s.memory.length 4) →
      buildPrompt t msg = buildPrompt s msg) := by
  refine ⟨?_, ?_, ?_, ?_, ?_⟩
  · rw [buildPrompt_with_history s msg h, sliceLast_eq_drop_min]
  · rw [buildPromptLines_eq, if_pos h, sliceLast_eq_drop_min]
    simp only [List.append_assoc, List.singleton_append, List.cons_append, List.nil_append]
  · rw [List.length_map, List.length_drop]
    omega
  · intro m
    unfold turnLine
    split
    · rfl
    · rfl
  · intro t hp hm
    rw [← sliceLast_eq_drop_min, ← sliceLast_eq_drop_min] at hm
    have ht : t.memory ≠ [] := by
      intro h0
      have h1 : sliceLast 4 s.memory = [] := by rw [← hm, h0]; rfl
      exact sliceLast_ne_nil 4 s.memory (by decide) h h1
    unfold buildPrompt
    rw [buildPromptLines_eq, buildPromptLines_eq, if_pos h, if_pos ht, hp, hm]

/-- A memory of six turns with the contents `1` to `6`: the output for the
message `hi` holds the lines of the turns 3 to 6 only. -/
theorem buildPrompt_history_is_last_four_witness :
    sixTurns.memory ≠ [] ∧
    buildPrompt sixTurns (str "hi") =
      str "CHAT HISTORY:\nUser: 3\nAssistant: 4\nUser: 5\nAssistant: 6\n\nUser: hi\nAssistant:" ∧
    (buildPrompt sixTurns (str "hi") =
      (if sixTurns.pinnedContext = [] then []
        else str "CONTEXT (pinned):\n" ++ sixTurns.pinnedContext ++ str "\n\n") ++
      (str "CHAT HISTORY:\n" ++
        join (str "\n")
          ((sixTurns.memory.drop (sixTurns.memory.length - min sixTurns.memory.length 4)).map
            turnLine) ++
        str "\n\n") ++
      (str "User: " ++ str "hi" ++ str "\nAssistant:") ∧
    buildPromptLines sixTurns (str "hi") =
      (if sixTurns.pinnedContext ≠ [] then
        [str "CONTEXT (pinned):", sixTurns.pinnedContext, str ""] else []) ++
      [str "CHAT HISTORY:"] ++
      (sixTurns.memory.drop (sixTurns.memory.length - min sixTurns.memory.length 4)).map
        turnLine ++
      [str "", str "User: " ++ str "hi", str "Assistant:"] ∧
    ((sixTurns.memory.drop (sixTurns.memory.length - min sixTurns.memory.length 4)).map
      turnLine).length = min sixTurns.memory.length 4 ∧
    (∀ m : Turn, turnLine m =
      if m.role = str "user" then str "User: " ++ m.content
      else str "Assistant: " ++ m.content) ∧
    (∀ t : State, t.pinnedContext = sixTurns.pinnedContext →
      t.memory.drop (t.memory.length - min t.memory.length 4) =
        sixTurns.memory.drop (sixTurns.memory.length - min sixTurns.memory.length 4) →
      buildPrompt t (str "hi") = buildPrompt sixTurns (str "hi"))) :=
  have h := buildPrompt_history_is_last_four sixTurns (str "hi") (by decide)
  ⟨by decide, h.1.trans (by decide), h⟩

/-- C3: the prompt is the pinned block (empty when nothing is pinned), then the
history block (empty when the memory is empty), then the `User:` line and the
`Assistant:` cue; with nothing pinned and an empty memory it is exactly
`User: <msg>` followed by the cue. -/
theorem buildPrompt_layout (s : State) (msg : JSString) :
    buildPrompt s msg =
      (if s.pinnedContext = [] then []
        else str "CONTEXT (pinned):\n" ++ s.pinnedContext ++ str "\n\n") ++
      (if s.memory = [] then []
        else str "CHAT HISTORY:\n" ++ join (str "\n") ((sliceLast 4 s.memory).map turnLine) ++
          str "\n\n") ++
      (str "User: " ++ msg ++ str "\nAssistant:") ∧
    buildPrompt { s with pinnedContext := [], memory := [] } msg =
      str "User: " ++ msg ++ str "\nAssistant:" := by
  have e1 : str "CONTEXT (pinned):\n" = str "CONTEXT (pinned):" ++ str "\n" := by decide
  have e2 : str "\n\n" = str "\n" ++ str "\n" := by decide
  have e3 : str "CHAT HISTORY:\n" = str "CHAT HISTORY:" ++ str "\n" := by decide
  have e4 : str "\nAssistant:" = str "\n" ++ str "Assistant:" := by decide
  have e5 : str "" = [] := by decide
  have tail : ∀ u : JSString, join (str "\n") [u, str "Assistant:"] =
      u ++ str "\n" ++ str "Assistant:" := fun u => rfl
  have hist : ∀ L : List JSString, L ≠ [] →
      join (str "\n") ([str "CHAT HISTORY:"] ++ L ++ [str ""]) =
        str "CHAT HISTORY:" ++ str "\n" ++ join (str "\n") L ++ str "\n" := by
    intro L hL
    rw [List.append_assoc, List.singleton_append, join_cons_cons _ _ _ (by simp),
      join_append _ _ _ hL (by simp)]
    simp [join, e5]
  have pin : ∀ p : JSString,
      join (str "\n") [str "CONTEXT (pinned):", p, str ""] =
        str "CONTEXT (pinned):" ++ str "\n" ++ p ++ str "\n" := by
    intro p
    simp [join, e5]
  constructor
  · unfold buildPrompt
    rw [buildPromptLines_eq]
    by_cases hp : s.pinnedContext = [] <;> by_cases hm : s.memory = []
    · simp only [hp, hm, ne_eq, not_true_eq_false, if_false, if_true, List.nil_append, tail, e4,
        List.append_assoc]
    · have hL : (sliceLast 4 s.memory).map turnLine ≠ [] := by
        simpa using sliceLast_ne_nil 4 s.memory (by decide) hm
      simp only [hp, hm, ne_eq, not_true_eq_false, not_false_eq_true, if_false, if_true,
        List.nil_append]
      rw [join_append _ _ _ (by simp) (by simp), hist _ hL, tail, e2, e3, e4]
      simp only [List.append_assoc]
    · simp only [hp, hm, ne_eq, not_true_eq_false, not_false_eq_true, if_false, if_true,
        List.nil_append, List.append_nil]
      rw [join_append _ _ _ (by simp) (by simp), pin, tail, e1, e2, e4]
      simp only [List.append_assoc]
    · have hL : (sliceLast 4 s.memory).map turnLine ≠ [] := by
        simpa using sliceLast_ne_nil 4 s.memory (by decide) hm
      simp only [hp, hm, ne_eq, not_true_eq_false, not_false_eq_true, if_false, if_true]
      rw [join_append _ _ _ (by simp) (by simp), join_append _ _ _ (by simp) (by simp),
        pin, hist _ hL, tail, e1, e2, e3, e4]
      simp only [List.append_assoc]
  · unfold buildPrompt
    rw [buildPromptLines_eq]
    simp only [ne_eq, not_true_eq_false, if_false, List.nil_append, tail, e4, List.append_assoc]

/-! ## Properties of the truncation -/

theorem trim_length_le (s : JSString) : (trim s).length ≤ s.length := by
  unfold trim
  exact Nat.le_trans (List.rdropWhile_prefix _ _).length_le (List.dropWhile_suffix _).length_le

theorem pushMem_last (s : State) (role content : JSString) :
    (pushMem s role content).memory.getLast? = some (clampedTurn (role, content)) := by
  rw [pushMem_memory]
  unfold sliceLast
  rw [List.getLast?_drop]
  simp only [List.length_append, List.length_singleton, MAX_TURNS, List.getLast?_append,
    List.getLast?_singleton]
  rw [if_neg (by omega)]
  rfl

theorem clamp_length_le (c : JSString) (n : Nat) : (clamp c n).length ≤ n + 1 := by
  unfold clamp
  simp only
  split
  · simp only [List.length_append, List.length_take, ellipsis, List.length_singleton]
    omega
  · omega

theorem trim_paddedLong : trim paddedLong = List.replicate 12001 97 := by
  unfold trim paddedLong
  have h1 : List.dropWhile isWhiteSpace (32 :: List.replicate 12001 97) = List.replicate 12001 97 := by
    rw [List.dropWhile_cons_of_pos (by decide)]
    rw [show List.replicate 12001 97 = 97 :: List.replicate 12000 97 from rfl]
    rw [List.dropWhile_cons_of_neg (by decide)]
  rw [h1]
  rw [List.rdropWhile_eq_self_iff]
  intro _
  rw [List.getLast_replicate]
  decide

/-- C4, as stated, fails: for the content made of one space followed by 12001
letters `a` the stored content was cut and carries the marker, yet it is not
the first 12000 code units of the content followed by the marker, because
`clamp` trims before it cuts. -/
theorem pushMem_cut_is_not_prefix_of_content :
    (pushMem emptyState (str "user") paddedLong).memory.getLast?.map Turn.content =
      some (List.replicate 12000 97 ++ ellipsis) ∧
    List.replicate 12000 97 ++ ellipsis ≠ paddedLong.take 12000 ++ ellipsis := by
  constructor
  · rw [pushMem_last]
    have hmin : min 12000 12001 = 12000 := by decide
    simp only [Option.map_some', clampedTurn, clamp, trim_paddedLong, MAX_CHARS_EACH,
      List.length_replicate, List.take_replicate, hmin]
    rw [if_pos (by decide)]
  · intro h
    have h2 := congrArg List.head? h
    rw [show List.replicate 12000 97 = 97 :: List.replicate 11999 97 from rfl] at h2
    rw [show paddedLong.take 12000 = 32 :: (List.replicate 12001 97).take 11999 from rfl] at h2
    simp only [List.cons_append, List.head?_cons, Option.some.injEq] at h2
    exact absurd h2 (by decide)

/-- C4, amended: the content stored by `pushMem` has at most 12001 code units;
when the trimmed content is longer than 12000 it is the first 12000 code units
of the trimmed content followed by the marker `…`; otherwise (in particular for
every content of at most 12000 code units) it is the trimmed content, with no
marker appended. -/
theorem pushMem_stores_clamped_trimmed_content (s : State) (role content : JSString) :
    ∃ stored : JSString,
      (pushMem s role content).memory.getLast? = some { role := role, content := stored } ∧
      stored.length ≤ 12001 ∧
      (12000 < (trim content).length →
        stored = (trim content).take 12000 ++ str "…" ∧ stored.length = 12001) ∧
      ((trim content).length ≤ 12000 → stored = trim content) ∧
      (content.length ≤ 12000 → stored = trim content) := by
  refine ⟨clamp content MAX_CHARS_EACH, pushMem_last s role content, ?_, ?_, ?_, ?_⟩
  · exact clamp_length_le content 12000
  · intro h
    have e : str "…" = ellipsis := by decide
    unfold clamp MAX_CHARS_EACH
    simp only [gt_iff_lt, h, if_true, e, true_and]
    simp only [List.length_append, List.length_take, ellipsis, List.length_singleton]
    omega
  · intro h
    unfold clamp MAX_CHARS_EACH
    simp only [gt_iff_lt, Nat.not_lt.mpr h, if_false]
  · intro h
    have := trim_length_le content
    unfold clamp MAX_CHARS_EACH
    rw [if_neg (by omega)]

/-! ## Properties of the completion tracker -/

/-- The state in which the success branch runs the tracker. -/
theorem handleSuccess_eq (lower : JSString → JSString) (s : State) (msg : JSString)
    (data : ResponseData) :
    ∃ s2 : State, handleSuccess lower s msg data = tracker lower s2 msg ∧
      s2.dayTasks = s.dayTasks ∧ s2.currentTaskIndex = s.currentTaskIndex ∧
      s2.tasksCompleted = (s.tasksCompleted || completionPhrase (trim (data.reply.getD []))) := by
  refine ⟨_, rfl, ?_, ?_, ?_⟩
  · simp only [pushMem, saveMemory, append, lockChatAfterCompletion]
    split <;> rfl
  · simp only [pushMem, saveMemory, append, lockChatAfterCompletion]
    split <;> rfl
  · simp only [pushMem, saveMemory, append, lockChatAfterCompletion]
    split
    · rename_i h; simp [h]
    · rename_i h; simp [h]

theorem tracker_of_confirmed (lower : JSString → JSString) (s : State) (msg : JSString)
    (h1 : s.tasksCompleted = false) (h3 : s.dayTasks ≠ [])
    (h4 : isConfirmation (lower (trim msg)) = true) :
    tracker lower s msg =
      completionCheck { s with currentTaskIndex := s.currentTaskIndex + 1 } := by
  have hlen : s.dayTasks.length ≠ 0 := fun h0 => h3 (List.length_eq_zero.mp h0)
  unfold tracker
  rw [if_pos (by simp [h1, hlen]), if_pos h4]

theorem tracker_of_not_confirmed (lower : JSString → JSString) (s : State) (msg : JSString)
    (h : ¬ (s.tasksCompleted = false ∧ s.dayTasks ≠ [] ∧
      isConfirmation (lower (trim msg)) = true)) :
    tracker lower s msg = s := by
  unfold tracker
  by_cases hc : (!s.tasksCompleted && decide (s.dayTasks.length ≠ 0)) = true
  · rw [if_pos hc]
    by_cases h4 : isConfirmation (lower (trim msg)) = true
    · exfalso
      apply h
      simp only [Bool.and_eq_true, Bool.not_eq_true', decide_eq_true_eq] at hc
      exact ⟨hc.1, fun h0 => hc.2 (by rw [h0]; rfl), h4⟩
    · rw [if_neg h4]
  · rw [if_neg hc]

/-- C5, as stated, fails: with `tasksCompleted` false, two day tasks and the
confirmation `ok`, a reply that contains `Tasks completed` leaves
`currentTaskIndex` where it was, because the reply locks the chat before the
tracker looks at `tasksCompleted`. -/
theorem confirmation_with_completion_phrase_does_not_advance :
    twoTasks.tasksCompleted = false ∧ twoTasks.dayTasks ≠ [] ∧
    isConfirmation (asciiLower (trim (str "ok"))) = true ∧
    (handleSuccess asciiLower twoTasks (str "ok")
      { reply := some (str "Tasks completed"), error := none }).currentTaskIndex =
        twoTasks.currentTaskIndex := by
  decide

/-- C5, amended: the success handler increments `currentTaskIndex` by one exactly
when `tasksCompleted` is false, the reply holds no completion phrase, `dayTasks`
is non-empty and the trimmed, lower-cased message is one of `ok`, `done`, `yes`,
`y`, `ok done`; the incremented index is kept when it is below the number of
tasks and is reset to 0 by the Completed transition when it reaches it; in
every other case the index is unchanged. The messages `okay` and `Done.` are
not confirmations. -/
theorem handleSuccess_advances_iff (lower : JSString → JSString) (s : State)
    (msg : JSString) (data : ResponseData) :
    ((s.tasksCompleted = false ∧ completionPhrase (trim (data.reply.getD [])) = false ∧
        s.dayTasks ≠ [] ∧ isConfirmation (lower (trim msg)) = true) →
      (s.currentTaskIndex + 1 < s.dayTasks.length →
        (handleSuccess lower s msg data).currentTaskIndex = s.currentTaskIndex + 1) ∧
      (s.dayTasks.length ≤ s.currentTaskIndex + 1 →
        (handleSuccess lower s msg data).currentTaskIndex = 0 ∧
        (handleSuccess lower s msg data).dayTasks = [] ∧
        (handleSuccess lower s msg data).tasksCompleted = true)) ∧
    (¬ (s.tasksCompleted = false ∧ completionPhrase (trim (data.reply.getD [])) = false ∧
        s.dayTasks ≠ [] ∧ isConfirmation (lower (trim msg)) = true) →
      (handleSuccess lower s msg data).currentTaskIndex = s.currentTaskIndex) ∧
    (∀ text : JSString, isConfirmation text = true ↔
      text = str "ok" ∨ text = str "done" ∨ text = str "yes" ∨ text = str "y" ∨
        text = str "ok done") ∧
    isConfirmation (asciiLower (trim (str "okay"))) = false ∧
    isConfirmation (asciiLower (trim (str "Done."))) = false := by
  obtain ⟨s2, he, hd, hi, ht⟩ := handleSuccess_eq lower s msg data
  refine ⟨?_, ?_, ?_, by decide, by decide⟩
  · rintro ⟨h1, h2, h3, h4⟩
    have htc : s2.tasksCompleted = false := by rw [ht, h1, h2]; rfl
    rw [he, tracker_of_confirmed lower s2 msg htc (by rw [hd]; exact h3) h4]
    unfold completionCheck
    constructor
    · intro hlt
      rw [if_neg (by simp only [hd, hi]; omega)]
      exact congrArg (fun n => n + 1) hi
    · intro hge
      rw [if_pos (by simp only [hd, hi]; omega)]
      exact ⟨rfl, rfl, rfl⟩
  · intro hn
    rw [he, tracker_of_not_confirmed lower s2 msg, hi]
    rintro ⟨h1, h3, h4⟩
    apply hn
    rw [ht] at h1
    simp only [Bool.or_eq_false_iff] at h1
    exact ⟨h1.1, h1.2, by rw [← hd]; exact h3, h4⟩
  · intro text
    unfold isConfirmation
    simp only [Bool.or_eq_true, beq_iff_eq, or_assoc]

/-! ## Properties of the request lifecycle -/

theorem doSendChatStart_issue (s : State) (o : Option JSString) (raw : Bool)
    (hmsg : trim (o.getD s.inputValue) ≠ []) (hb : s.busy = false) :
    ∃ rq : Request, (doSendChatStart s o raw).2 = some rq ∧
      rq.msg = trim (o.getD s.inputValue) ∧
      rq.message = (if raw then trim (o.getD s.inputValue)
        else buildPrompt (doSendChatStart s o raw).1 (trim (o.getD s.inputValue))) ∧
      (doSendChatStart s o raw).1.pending = s.pending ++ [rq] ∧
      (doSendChatStart s o raw).1.chatController = some rq.token ∧
      (doSendChatStart s o raw).1.busy = true ∧
      (doSendChatStart s o raw).1.tasksCompleted = false ∧
      (doSendChatStart s o raw).1.dayTasks = (if s.tasksCompleted then [] else s.dayTasks) ∧
      (doSendChatStart s o raw).1.currentTaskIndex =
        (if s.tasksCompleted then 0 else s.currentTaskIndex) ∧
      (doSendChatStart s o raw).1.memory = (if s.tasksCompleted then [] else s.memory) ∧
      (doSendChatStart s o raw).1.pinnedContext =
        (if s.tasksCompleted then [] else s.pinnedContext) ∧
      (doSendChatStart s o raw).1.transcript =
        s.transcript ++ [(str "user", trim (o.getD s.inputValue))] ∧
      (doSendChatStart s o raw).1.storage = s.storage := by
  unfold doSendChatStart
  simp only [hmsg, hb, Bool.false_eq_true, or_self, if_false]
  cases htc : s.tasksCompleted <;> cases hc : s.chatController <;>
    simp [htc, hc, append, resetInputBox, setBusy, makeThinkingBubble, buildPrompt,
      buildPromptLines]

theorem doSendChatResume_ok (lower : JSString → JSString) (s : State) (rq : Request)
    (status : Nat) (data : ResponseData) (hok : responseOk status = true) :
    doSendChatResume lower s rq (Outcome.response status data) =
      setBusy { handleSuccess lower (resumed s rq) rq.msg data with chatController := none }
        false := by
  unfold doSendChatResume resumed
  simp only [hok, Bool.not_true, Bool.false_eq_true, if_false]

theorem setBusy_false_fields (s : State) :
    (setBusy s false).busy = false ∧ (setBusy s false).inputDisabled = false ∧
    (setBusy s false).memory = s.memory ∧ (setBusy s false).pinnedContext = s.pinnedContext ∧
    (setBusy s false).tasksCompleted = s.tasksCompleted ∧
    (setBusy s false).dayTasks = s.dayTasks ∧
    (setBusy s false).currentTaskIndex = s.currentTaskIndex ∧
    (setBusy s false).transcript = s.transcript ∧
    (setBusy s false).chatController = s.chatController ∧
    (setBusy s false).sendDisabled = s.sendDisabled ∧
    (setBusy s false).storage = s.storage := by
  simp [setBusy]

theorem handleSuccess_eq_tracker (lower : JSString → JSString) (s : State) (msg : JSString)
    (data : ResponseData) :
    handleSuccess lower s msg data = tracker lower (beforeTracker s msg data) msg := rfl

theorem beforeTracker_fields (s : State) (msg : JSString) (data : ResponseData) :
    (beforeTracker s msg data).dayTasks = s.dayTasks ∧
    (beforeTracker s msg data).currentTaskIndex = s.currentTaskIndex ∧
    (beforeTracker s msg data).tasksCompleted =
      (s.tasksCompleted || completionPhrase (trim (data.reply.getD []))) ∧
    (beforeTracker s msg data).pinnedContext = s.pinnedContext ∧
    (beforeTracker s msg data).transcript =
      s.transcript ++ [(str "assistant", orEllipsis (trim (data.reply.getD [])))] ∧
    (beforeTracker s msg data).memory =
      (pushMem (pushMem s (str "user") msg) (str "assistant")
        (orEllipsis (trim (data.reply.getD [])))).memory ∧
    (beforeTracker s msg data).busy = s.busy ∧
    (beforeTracker s msg data).chatController = s.chatController ∧
    (beforeTracker s msg data).sendDisabled =
      (s.sendDisabled || completionPhrase (trim (data.reply.getD []))) := by
  unfold beforeTracker
  cases completionPhrase (trim (data.reply.getD [])) <;>
    simp [pushMem, saveMemory, append, lockChatAfterCompletion]

theorem handleSuccess_fires (lower : JSString → JSString) (s : State) (msg : JSString)
    (data : ResponseData) (h : CompletedFires lower s msg data) :
    handleSuccess lower s msg data =
      resetAfterCompletion (append
        { beforeTracker s msg data with currentTaskIndex := s.currentTaskIndex + 1 }
        (str "assistant") (str "Good. Day tasks completed.")) := by
  obtain ⟨h1, h2, h3, h4, h5⟩ := h
  obtain ⟨hd, hi, ht, -⟩ := beforeTracker_fields s msg data
  rw [handleSuccess_eq_tracker, tracker_of_confirmed lower _ msg (by rw [ht, h1, h2]; rfl)
    (by rw [hd]; exact h3) h4]
  unfold completionCheck
  rw [if_pos (by simp only [hd, hi]; omega), hi]

theorem tracker_not_reaching (lower : JSString → JSString) (t : State) (msg : JSString)
    (h : ¬ (t.tasksCompleted = false ∧ t.dayTasks ≠ [] ∧
      isConfirmation (lower (trim msg)) = true ∧ t.dayTasks.length ≤ t.currentTaskIndex + 1)) :
    (tracker lower t msg).memory = t.memory ∧
    (tracker lower t msg).pinnedContext = t.pinnedContext ∧
    (tracker lower t msg).transcript = t.transcript ∧
    (tracker lower t msg).dayTasks = t.dayTasks ∧
    (tracker lower t msg).tasksCompleted = t.tasksCompleted ∧
    (tracker lower t msg).busy = t.busy ∧
    (tracker lower t msg).storage = t.storage := by
  by_cases hc : t.tasksCompleted = false ∧ t.dayTasks ≠ [] ∧
      isConfirmation (lower (trim msg)) = true
  · obtain ⟨c1, c2, c3⟩ := hc
    rw [tracker_of_confirmed lower _ msg c1 c2 c3]
    unfold completionCheck
    have hlt : ¬ (t.dayTasks.length ≤ t.currentTaskIndex + 1) := fun hle =>
      h ⟨c1, c2, c3, hle⟩
    rw [if_neg (by simp only; omega)]
    exact ⟨rfl, rfl, rfl, rfl, rfl, rfl, rfl⟩
  · rw [tracker_of_not_confirmed lower _ msg hc]
    exact ⟨rfl, rfl, rfl, rfl, rfl, rfl, rfl⟩

theorem handleSuccess_not_fires (lower : JSString → JSString) (s : State) (msg : JSString)
    (data : ResponseData) (h : ¬ CompletedFires lower s msg data) :
    (handleSuccess lower s msg data).memory = (beforeTracker s msg data).memory ∧
    (handleSuccess lower s msg data).pinnedContext = s.pinnedContext ∧
    (handleSuccess lower s msg data).transcript = (beforeTracker s msg data).transcript ∧
    (handleSuccess lower s msg data).dayTasks = s.dayTasks ∧
    (handleSuccess lower s msg data).tasksCompleted = (beforeTracker s msg data).tasksCompleted ∧
    (handleSuccess lower s msg data).busy = s.busy := by
  obtain ⟨hd, hi, ht, hp, -, -, hbz, -⟩ := beforeTracker_fields s msg data
  rw [handleSuccess_eq_tracker]
  have hn : ¬ ((beforeTracker s msg data).tasksCompleted = false ∧
      (beforeTracker s msg data).dayTasks ≠ [] ∧ isConfirmation (lower (trim msg)) = true ∧
      (beforeTracker s msg data).dayTasks.length ≤
        (beforeTracker s msg data).currentTaskIndex + 1) := by
    rintro ⟨c1, c2, c3, c4⟩
    apply h
    rw [ht] at c1
    simp only [Bool.or_eq_false_iff] at c1
    rw [hd] at c2 c4
    rw [hi] at c4
    exact ⟨c1.1, c1.2, c2, c3, c4⟩
  obtain ⟨t1, t2, t3, t4, t5, t6, -⟩ := tracker_not_reaching lower _ msg hn
  exact ⟨t1, t2.trans hp, t3, t4.trans hd, t5, t6.trans hbz⟩

/-- A send that is issued and answered with an ok response before any other
event is handled, and does not reach the Completed transition: the memory is
the memory at request start with the two turns pushed, the pinned context is
the one at request start. -/
theorem doSendChat_ok_pushes (lower : JSString → JSString) (s : State)
    (o : Option JSString) (raw : Bool) (status : Nat) (data : ResponseData)
    (hmsg : trim (o.getD s.inputValue) ≠ []) (hb : s.busy = false)
    (hok : responseOk status = true)
    (hno : ¬ CompletedFires lower (doSendChatStart s o raw).1 (trim (o.getD s.inputValue)) data) :
    (doSendChat lower s o raw (Outcome.response status data)).memory =
      (pushMem (pushMem (doSendChatStart s o raw).1 (str "user") (trim (o.getD s.inputValue)))
        (str "assistant")
        (if trim (data.reply.getD []) ≠ [] then trim (data.reply.getD []) else str "…")).memory ∧
    (doSendChat lower s o raw (Outcome.response status data)).pinnedContext =
      (doSendChatStart s o raw).1.pinnedContext := by
  obtain ⟨rq, h2, hm, -⟩ := doSendChatStart_issue s o raw hmsg hb
  have hs : doSendChatStart s o raw = ((doSendChatStart s o raw).1, some rq) := by
    rw [← h2]
  have hno2 : ¬ CompletedFires lower (resumed (doSendChatStart s o raw).1 rq) rq.msg data := by
    rw [hm]; exact hno
  obtain ⟨hmem, hpin, -⟩ := handleSuccess_not_fires lower _ _ data hno2
  obtain ⟨-, -, -, -, -, hbm, -⟩ := beforeTracker_fields (resumed (doSendChatStart s o raw).1 rq)
    rq.msg data
  unfold doSendChat
  rw [hs]
  simp only
  rw [doSendChatResume_ok lower _ rq status data hok]
  refine ⟨?_, ?_⟩
  · rw [(setBusy_false_fields _).2.2.1]
    show (handleSuccess lower (resumed (doSendChatStart s o raw).1 rq) rq.msg data).memory = _
    rw [hmem, hbm, hm]
    rfl
  · rw [(setBusy_false_fields _).2.2.2.1]
    show (handleSuccess lower (resumed (doSendChatStart s o raw).1 rq) rq.msg data).pinnedContext
      = _
    rw [hpin]
    rfl

theorem doSendChatResume_fail_fields (lower : JSString → JSString) (s : State) (rq : Request)
    (line : JSString) (o : Outcome)
    (ho : (∃ status data, o = Outcome.response status data ∧ responseOk status = false ∧
          line = (if data.error.getD [] ≠ [] then data.error.getD []
            else str "Error (" ++ natToString status ++ str ")")) ∨
        (o = Outcome.networkError ∧ line = str "Network error. Try again.") ∨
        (o = Outcome.abortError ∧ line = str "Stopped.")) :
    (doSendChatResume lower s rq o).memory = s.memory ∧
    (doSendChatResume lower s rq o).pinnedContext = s.pinnedContext ∧
    (doSendChatResume lower s rq o).currentTaskIndex = s.currentTaskIndex ∧
    (doSendChatResume lower s rq o).dayTasks = s.dayTasks ∧
    (doSendChatResume lower s rq o).tasksCompleted = s.tasksCompleted ∧
    (doSendChatResume lower s rq o).storage = s.storage ∧
    (doSendChatResume lower s rq o).transcript = s.transcript ++ [(str "assistant", line)] ∧
    (doSendChatResume lower s rq o).busy = false ∧
    (doSendChatResume lower s rq o).chatController = none := by
  rcases ho with ⟨status, data, rfl, hok, rfl⟩ | ⟨rfl, rfl⟩ | ⟨rfl, rfl⟩
  · unfold doSendChatResume
    simp [hok, handleFailure, append, removeThinking, setBusy]
  · simp [doSendChatResume, append, removeThinking, setBusy]
  · simp [doSendChatResume, append, removeThinking, setBusy]

/-- A send that is issued and ends, before any other event is handled, with a
response that is not ok or with a failed network call: the fields are those at
request start and one assistant line is added. -/
theorem doSendChat_fail_fields (lower : JSString → JSString) (s : State)
    (o : Option JSString) (raw : Bool) (out : Outcome) (line : JSString)
    (hmsg : trim (o.getD s.inputValue) ≠ []) (hb : s.busy = false)
    (hout : (∃ status data, out = Outcome.response status data ∧ responseOk status = false ∧
          line = (if data.error.getD [] ≠ [] then data.error.getD []
            else str "Error (" ++ natToString status ++ str ")")) ∨
        (out = Outcome.networkError ∧ line = str "Network error. Try again.")) :
    (doSendChat lower s o raw out).memory = (doSendChatStart s o raw).1.memory ∧
    (doSendChat lower s o raw out).pinnedContext = (doSendChatStart s o raw).1.pinnedContext ∧
    (doSendChat lower s o raw out).currentTaskIndex =
      (doSendChatStart s o raw).1.currentTaskIndex ∧
    (doSendChat lower s o raw out).dayTasks = (doSendChatStart s o raw).1.dayTasks ∧
    (doSendChat lower s o raw out).storage = (doSendChatStart s o raw).1.storage ∧
    (doSendChat lower s o raw out).transcript =
      (doSendChatStart s o raw).1.transcript ++ [(str "assistant", line)] ∧
    (doSendChat lower s o raw out).busy = false ∧
    (doSendChat lower s o raw out).chatController = none := by
  obtain ⟨rq, h2, -⟩ := doSendChatStart_issue s o raw hmsg hb
  have hs : doSendChatStart s o raw = ((doSendChatStart s o raw).1, some rq) := by
    rw [← h2]
  have hf := doSendChatResume_fail_fields lower (doSendChatStart s o raw).1 rq line out
    (by rcases hout with h | h
        · exact Or.inl h
        · exact Or.inr (Or.inl h))
  unfold doSendChat
  rw [hs]
  simp only
  exact ⟨hf.1, hf.2.1, hf.2.2.1, hf.2.2.2.1, hf.2.2.2.2.2.1, hf.2.2.2.2.2.2.1,
    hf.2.2.2.2.2.2.2.1, hf.2.2.2.2.2.2.2.2⟩

/-! ## Replies handled after other events -/

theorem sixStored_initial : Initial sixStored :=
  ⟨rfl, rfl, rfl, rfl, rfl, rfl, rfl, rfl, rfl, rfl⟩

theorem startDayWhilePending_reachable (lower : JSString → JSString) :
    Reachable lower startDayWhilePending :=
  Reachable.step _ _
    (Reachable.step _ _ (Reachable.init _ sixStored_initial)
      (Step.send sixStored (some (str "hello")) false))
    (Step.startDay _ (some dayTwoDetail))

/-- C9, as stated, fails: `hello` is sent with six turns remembered, a
start-day signal is handled before the reply arrives (it empties the turns and
pins its own message; being busy it sends nothing), and the ok reply `hi` is
then handled. The state is reachable and the resolution is a step of the
controller; the Completed transition is not triggered; the memory afterwards
holds the two turns `hello` and `hi` only, not the six turns of request start
followed by them, and the pinned context is the start-day message. -/
theorem reply_after_startDay_pushes_onto_emptied_memory :
    (doSendChatStart sixStored (some (str "hello")) false).2 = some sixHelloRequest ∧
    (doSendChatStart sixStored (some (str "hello")) false).1.memory = sixTurns.memory ∧
    (doSendChatStart sixStored (some (str "hello")) false).1.pinnedContext = [] ∧
    Reachable asciiLower startDayWhilePending ∧
    Step asciiLower startDayWhilePending
      (doSendChatResume asciiLower startDayWhilePending sixHelloRequest (okReply (str "hi"))) ∧
    startDayWhilePending.pending = [sixHelloRequest] ∧
    ¬ CompletedFires asciiLower startDayWhilePending (str "hello")
      { reply := some (str "hi"), error := none } ∧
    ¬ CompletedFires asciiLower (doSendChatStart sixStored (some (str "hello")) false).1
      (str "hello") { reply := some (str "hi"), error := none } ∧
    (doSendChatResume asciiLower startDayWhilePending sixHelloRequest
      (okReply (str "hi"))).memory =
      [{ role := str "user", content := str "hello" },
        { role := str "assistant", content := str "hi" }] ∧
    (pushMem (pushMem (doSendChatStart sixStored (some (str "hello")) false).1 (str "user")
        (str "hello")) (str "assistant") (str "hi")).memory =
      sixTurns.memory ++ [{ role := str "user", content := str "hello" },
        { role := str "assistant", content := str "hi" }] ∧
    (doSendChatResume asciiLower startDayWhilePending sixHelloRequest
      (okReply (str "hi"))).memory ≠
      (pushMem (pushMem (doSendChatStart sixStored (some (str "hello")) false).1 (str "user")
        (str "hello")) (str "assistant") (str "hi")).memory ∧
    (doSendChatResume asciiLower startDayWhilePending sixHelloRequest
      (okReply (str "hi"))).pinnedContext =
      str "START_DAY\nDay: 2\nGoal: Basics\nTasks:\n- Read ch.1\n- Do ex.1" :=
  ⟨by decide, by decide, by decide, startDayWhilePending_reachable asciiLower,
    Step.resolve startDayWhilePending sixHelloRequest (okReply (str "hi")) (by decide)
      (fun h => nomatch h),
    by decide, by decide, by decide, by decide, by decide, by decide, by decide⟩

/-- C9, amended: an ok reply that is handled without reaching the Completed
transition leaves as memory the memory at the moment the reply is handled with
two turns pushed through `pushMem`: first a `user` turn with the message the
request captured, then an `assistant` turn with the trimmed reply, or with `…`
when the reply is empty; the pinned context is left as it is. The message a
request captures is the user's own trimmed message of request start, not the
composed prompt. When the reply is handled before any other event, the memory
the turns are pushed onto is the memory at request start. -/
theorem ok_reply_pushes_user_then_reply (lower : JSString → JSString) (s : State)
    (rq : Request) (status : Nat) (data : ResponseData)
    (hok : responseOk status = true) (hno : ¬ CompletedFires lower s rq.msg data) :
    (doSendChatResume lower s rq (Outcome.response status data)).memory =
      (pushMem (pushMem s (str "user") rq.msg) (str "assistant")
        (if trim (data.reply.getD []) ≠ [] then trim (data.reply.getD []) else str "…")).memory ∧
    (doSendChatResume lower s rq (Outcome.response status data)).pinnedContext =
      s.pinnedContext ∧
    (∀ (s0 : State) (o : Option JSString) (raw : Bool),
      (doSendChatStart s0 o raw).2 = some rq → rq.msg = trim (o.getD s0.inputValue)) ∧
    (∀ (s0 : State) (o : Option JSString) (raw : Bool),
      trim (o.getD s0.inputValue) ≠ [] → s0.busy = false →
      ¬ CompletedFires lower (doSendChatStart s0 o raw).1 (trim (o.getD s0.inputValue)) data →
      (doSendChat lower s0 o raw (Outcome.response status data)).memory =
        (pushMem (pushMem (doSendChatStart s0 o raw).1 (str "user")
            (trim (o.getD s0.inputValue)))
          (str "assistant")
          (if trim (data.reply.getD []) ≠ [] then trim (data.reply.getD [])
            else str "…")).memory ∧
      (doSendChat lower s0 o raw (Outcome.response status data)).pinnedContext =
        (doSendChatStart s0 o raw).1.pinnedContext) := by
  have hno2 : ¬ CompletedFires lower (resumed s rq) rq.msg data := hno
  obtain ⟨hmem, hpin, -⟩ := handleSuccess_not_fires lower _ _ data hno2
  obtain ⟨-, -, -, -, -, hbm, -⟩ := beforeTracker_fields (resumed s rq) rq.msg data
  refine ⟨?_, ?_, ?_, ?_⟩
  · rw [doSendChatResume_ok lower _ rq status data hok, (setBusy_false_fields _).2.2.1]
    show (handleSuccess lower (resumed s rq) rq.msg data).memory = _
    rw [hmem, hbm]
    rfl
  · rw [doSendChatResume_ok lower _ rq status data hok, (setBusy_false_fields _).2.2.2.1]
    show (handleSuccess lower (resumed s rq) rq.msg data).pinnedContext = _
    rw [hpin]
    rfl
  · intro s0 o raw h
    by_cases hc : trim (o.getD s0.inputValue) = [] ∨ s0.busy = true
    · unfold doSendChatStart at h
      simp only [hc, if_true] at h
      exact absurd h (by simp)
    · have hmsg : trim (o.getD s0.inputValue) ≠ [] := fun h0 => hc (Or.inl h0)
      have hb : s0.busy = false := by
        cases hbz : s0.busy
        · rfl
        · exact absurd (Or.inr hbz) hc
      obtain ⟨rq2, h2, hm, -⟩ := doSendChatStart_issue s0 o raw hmsg hb
      rw [h2] at h
      cases h
      exact hm
  · intro s0 o raw hmsg hb hn
    exact doSendChat_ok_pushes lower s0 o raw status data hmsg hb hok hn

/-- The reply ` hi ` handled after a start-day signal came in between. -/
theorem ok_reply_pushes_user_then_reply_witness :
    responseOk 200 = true ∧
    ¬ CompletedFires asciiLower startDayWhilePending sixHelloRequest.msg
      { reply := some (str " hi "), error := none } ∧
    (doSendChatResume asciiLower startDayWhilePending sixHelloRequest
      (Outcome.response 200 { reply := some (str " hi "), error := none })).memory =
      [{ role := str "user", content := str "hello" },
        { role := str "assistant", content := str "hi" }] ∧
    (doSendChatResume asciiLower startDayWhilePending sixHelloRequest
      (Outcome.response 200 { reply := some (str " hi "), error := none })).pinnedContext =
      startDayWhilePending.pinnedContext :=
  have h := ok_reply_pushes_user_then_reply asciiLower startDayWhilePending sixHelloRequest 200
    { reply := some (str " hi "), error := none } (by decide) (by decide)
  ⟨by decide, by decide, h.1.trans (by decide), h.2.1⟩

/-- C10, as stated, fails: `hello` is sent with six turns remembered, nothing
pinned and no day tasks; a start-day signal is handled before the response
arrives; the response then has status 500. The resolution is a step of the
controller from a reachable state; after it the turns are empty, the pinned
context is the start-day message and `dayTasks` holds the two tasks of the
day: none of them is as it was when the request was issued. -/
theorem failed_reply_after_startDay_differs_from_issue_time :
    (doSendChatStart sixStored (some (str "hello")) false).2 = some sixHelloRequest ∧
    (doSendChatStart sixStored (some (str "hello")) false).1.memory = sixTurns.memory ∧
    (doSendChatStart sixStored (some (str "hello")) false).1.pinnedContext = [] ∧
    (doSendChatStart sixStored (some (str "hello")) false).1.dayTasks = [] ∧
    Reachable asciiLower startDayWhilePending ∧
    Step asciiLower startDayWhilePending
      (doSendChatResume asciiLower startDayWhilePending sixHelloRequest
        (Outcome.response 500 { reply := none, error := none })) ∧
    responseOk 500 = false ∧
    (doSendChatResume asciiLower startDayWhilePending sixHelloRequest
      (Outcome.response 500 { reply := none, error := none })).memory = [] ∧
    (doSendChatResume asciiLower startDayWhilePending sixHelloRequest
      (Outcome.response 500 { reply := none, error := none })).memory ≠
      (doSendChatStart sixStored (some (str "hello")) false).1.memory ∧
    (doSendChatResume asciiLower startDayWhilePending sixHelloRequest
      (Outcome.response 500 { reply := none, error := none })).pinnedContext =
      str "START_DAY\nDay: 2\nGoal: Basics\nTasks:\n- Read ch.1\n- Do ex.1" ∧
    (doSendChatResume asciiLower startDayWhilePending sixHelloRequest
      (Outcome.response 500 { reply := none, error := none })).dayTasks =
      [str "Read ch.1", str "Do ex.1"] :=
  ⟨by decide, by decide, by decide, by decide, startDayWhilePending_reachable asciiLower,
    Step.resolve startDayWhilePending sixHelloRequest
      (Outcome.response 500 { reply := none, error := none }) (by decide) (fun h => nomatch h),
    by decide, by decide, by decide, by decide, by decide⟩

/-- C10, amended: handling a response that is not ok, or a failed network call,
leaves the turns, the pinned context, `currentTaskIndex`, `dayTasks`,
`tasksCompleted` and the stored snapshot as they are at the moment the outcome
is handled (no turn is pushed, the tracker does not run), adds exactly one
assistant line to the transcript (the error text of the server, else
`Error (<status>)`, or the network-error notice) and ends not busy with no
live controller. When the outcome is handled before any other event, these
fields are the ones of the moment the request was issued. -/
theorem failed_reply_leaves_memory_and_tracker (lower : JSString → JSString) (s : State)
    (rq : Request) (out : Outcome) (line : JSString)
    (hout : (∃ status data, out = Outcome.response status data ∧ responseOk status = false ∧
          line = (if data.error.getD [] ≠ [] then data.error.getD []
            else str "Error (" ++ natToString status ++ str ")")) ∨
        (out = Outcome.networkError ∧ line = str "Network error. Try again.")) :
    (doSendChatResume lower s rq out).memory = s.memory ∧
    (doSendChatResume lower s rq out).pinnedContext = s.pinnedContext ∧
    (doSendChatResume lower s rq out).currentTaskIndex = s.currentTaskIndex ∧
    (doSendChatResume lower s rq out).dayTasks = s.dayTasks ∧
    (doSendChatResume lower s rq out).tasksCompleted = s.tasksCompleted ∧
    (doSendChatResume lower s rq out).storage = s.storage ∧
    (doSendChatResume lower s rq out).transcript = s.transcript ++ [(str "assistant", line)] ∧
    (doSendChatResume lower s rq out).busy = false ∧
    (doSendChatResume lower s rq out).chatController = none ∧
    (∀ (s0 : State) (o : Option JSString) (raw : Bool),
      trim (o.getD s0.inputValue) ≠ [] → s0.busy = false →
      (doSendChat lower s0 o raw out).memory = (doSendChatStart s0 o raw).1.memory ∧
      (doSendChat lower s0 o raw out).pinnedContext =
        (doSendChatStart s0 o raw).1.pinnedContext ∧
      (doSendChat lower s0 o raw out).currentTaskIndex =
        (doSendChatStart s0 o raw).1.currentTaskIndex ∧
      (doSendChat lower s0 o raw out).dayTasks = (doSendChatStart s0 o raw).1.dayTasks ∧
      (doSendChat lower s0 o raw out).storage = (doSendChatStart s0 o raw).1.storage ∧
      (doSendChat lower s0 o raw out).transcript =
        (doSendChatStart s0 o raw).1.transcript ++ [(str "assistant", line)] ∧
      (doSendChat lower s0 o raw out).busy = false ∧
      (doSendChat lower s0 o raw out).chatController = none) := by
  have hf := doSendChatResume_fail_fields lower s rq line out
    (by rcases hout with h | h
        · exact Or.inl h
        · exact Or.inr (Or.inl h))
  obtain ⟨f1, f2, f3, f4, f5, f6, f7, f8, f9⟩ := hf
  exact ⟨f1, f2, f3, f4, f5, f6, f7, f8, f9,
    fun s0 o raw hmsg hb => doSendChat_fail_fields lower s0 o raw out line hmsg hb hout⟩

/-- A response with status 500 and no error text, handled after a start-day
signal came in between: the turns stay empty and the two tasks stay. -/
theorem failed_reply_leaves_memory_and_tracker_witness :
    ((∃ status data, Outcome.response 500 { reply := none, error := none } =
          Outcome.response status data ∧ responseOk status = false ∧
          str "Error (500)" = (if data.error.getD [] ≠ [] then data.error.getD []
            else str "Error (" ++ natToString status ++ str ")")) ∨
        (Outcome.response 500 { reply := none, error := none } = Outcome.networkError ∧
          str "Error (500)" = str "Network error. Try again.")) ∧
    (doSendChatResume asciiLower startDayWhilePending sixHelloRequest
      (Outcome.response 500 { reply := none, error := none })).memory =
      startDayWhilePending.memory ∧
    (doSendChatResume asciiLower startDayWhilePending sixHelloRequest
      (Outcome.response 500 { reply := none, error := none })).dayTasks =
      startDayWhilePending.dayTasks ∧
    (doSendChatResume asciiLower startDayWhilePending sixHelloRequest
      (Outcome.response 500 { reply := none, error := none })).transcript =
      startDayWhilePending.transcript ++ [(str "assistant", str "Error (500)")] ∧
    (doSendChatResume asciiLower startDayWhilePending sixHelloRequest
      (Outcome.response 500 { reply := none, error := none })).busy = false :=
  have h := failed_reply_leaves_memory_and_tracker asciiLower startDayWhilePending
    sixHelloRequest (Outcome.response 500 { reply := none, error := none }) (str "Error (500)")
    (Or.inl ⟨500, { reply := none, error := none }, rfl, by decide, by decide⟩)
  ⟨Or.inl ⟨500, { reply := none, error := none }, rfl, by decide, by decide⟩,
    h.1, h.2.2.2.1, h.2.2.2.2.2.2.1, h.2.2.2.2.2.2.2.1⟩

/-! ## Properties of a run of confirmations -/

theorem dropWhile_head_not (p : CodeUnit → Bool) (s : JSString) (a : CodeUnit) (rest : JSString)
    (h : List.dropWhile p s = a :: rest) : p a = false := by
  induction s with
  | nil => simp at h
  | cons x xs ih =>
    rw [List.dropWhile_cons] at h
    split at h
    · exact ih h
    · rename_i hx
      simp only [List.cons.injEq] at h
      rw [← h.1]
      simpa using hx

theorem trim_trim (s : JSString) : trim (trim s) = trim s := by
  unfold trim
  have h1 : List.dropWhile isWhiteSpace
      (List.rdropWhile isWhiteSpace (List.dropWhile isWhiteSpace s)) =
      List.rdropWhile isWhiteSpace (List.dropWhile isWhiteSpace s) := by
    obtain ⟨t, ht⟩ := List.rdropWhile_prefix isWhiteSpace (List.dropWhile isWhiteSpace s)
    generalize List.rdropWhile isWhiteSpace (List.dropWhile isWhiteSpace s) = r at ht
    cases r with
    | nil => rfl
    | cons a r2 =>
      have ha := dropWhile_head_not isWhiteSpace s a (r2 ++ t) ht.symm
      rw [List.dropWhile_cons_of_neg (by simp [ha])]
  rw [h1, List.rdropWhile_idempotent]

theorem tracker_confirmed_fields (lower : JSString → JSString) (b : State) (msg : JSString)
    (h1 : b.tasksCompleted = false) (hc : isConfirmation (lower (trim msg)) = true) :
    ((b.dayTasks ≠ [] ∧ b.currentTaskIndex + 1 < b.dayTasks.length) →
      (tracker lower b msg).tasksCompleted = false ∧
      (tracker lower b msg).dayTasks = b.dayTasks ∧
      (tracker lower b msg).currentTaskIndex = b.currentTaskIndex + 1 ∧
      (tracker lower b msg).transcript = b.transcript) ∧
    ((b.dayTasks ≠ [] ∧ b.dayTasks.length ≤ b.currentTaskIndex + 1) →
      (tracker lower b msg).tasksCompleted = true ∧
      (tracker lower b msg).dayTasks = [] ∧
      (tracker lower b msg).currentTaskIndex = 0 ∧
      (tracker lower b msg).memory = [] ∧
      (tracker lower b msg).pinnedContext = [] ∧
      (tracker lower b msg).transcript = b.transcript ++ [completionLine]) ∧
    (b.dayTasks = [] → tracker lower b msg = b) := by
  refine ⟨?_, ?_, ?_⟩
  · rintro ⟨c2, c3⟩
    rw [tracker_of_confirmed lower b msg h1 c2 hc]
    unfold completionCheck
    rw [if_neg (by simp only; omega)]
    exact ⟨h1, rfl, rfl, rfl⟩
  · rintro ⟨c2, c3⟩
    rw [tracker_of_confirmed lower b msg h1 c2 hc]
    unfold completionCheck
    rw [if_pos (by simp only; omega)]
    exact ⟨rfl, rfl, rfl, rfl, rfl, rfl⟩
  · intro c2
    exact tracker_of_not_confirmed lower b msg (fun h => h.2.1 c2)

/-- A whole send answered by an ok response, in terms of the state in which the
tracker runs. -/
theorem doSendChat_ok_tracker (lower : JSString → JSString) (s : State) (o : Option JSString)
    (raw : Bool) (status : Nat) (data : ResponseData)
    (hmsg : trim (o.getD s.inputValue) ≠ []) (hb : s.busy = false)
    (hok : responseOk status = true) :
    ∃ b : State,
      doSendChat lower s o raw (Outcome.response status data) =
        setBusy { tracker lower b (trim (o.getD s.inputValue)) with chatController := none }
          false ∧
      b.tasksCompleted = completionPhrase (trim (data.reply.getD [])) ∧
      b.dayTasks = (if s.tasksCompleted then [] else s.dayTasks) ∧
      b.currentTaskIndex = (if s.tasksCompleted then 0 else s.currentTaskIndex) ∧
      b.transcript = s.transcript ++ [(str "user", trim (o.getD s.inputValue)),
        (str "assistant", orEllipsis (trim (data.reply.getD [])))] ∧
      b.sendDisabled = (s.sendDisabled || completionPhrase (trim (data.reply.getD []))) := by
  obtain ⟨rq, h2, hm, -, -, -, -, g1, g2, g3, -, -, g4, -⟩ :=
    doSendChatStart_issue s o raw hmsg hb
  have hs : doSendChatStart s o raw = ((doSendChatStart s o raw).1, some rq) := by
    rw [← h2]
  have hsd : (doSendChatStart s o raw).1.sendDisabled = s.sendDisabled := by
    unfold doSendChatStart
    simp only [hmsg, hb, Bool.false_eq_true, or_self, if_false]
    cases htc : s.tasksCompleted <;> cases hc : s.chatController <;>
      simp [htc, hc, append, resetInputBox, setBusy, makeThinkingBubble]
  obtain ⟨b1, b2, b3, -, b5, -, -, -, b9⟩ :=
    beforeTracker_fields (resumed (doSendChatStart s o raw).1 rq) (trim (o.getD s.inputValue)) data
  refine ⟨beforeTracker (resumed (doSendChatStart s o raw).1 rq) (trim (o.getD s.inputValue)) data,
    ?_, ?_, ?_, ?_, ?_, ?_⟩
  · unfold doSendChat
    rw [hs]
    simp only
    rw [doSendChatResume_ok lower _ rq status data hok, hm, handleSuccess_eq_tracker]
  · rw [b3]
    show ((doSendChatStart s o raw).1.tasksCompleted || _) = _
    rw [g1, Bool.false_or]
  · rw [b1]; exact g2
  · rw [b2]; exact g3
  · rw [b5]
    show (doSendChatStart s o raw).1.transcript ++ _ = _
    rw [g4, List.append_assoc]
    rfl
  · rw [b9]
    show ((doSendChatStart s o raw).1.sendDisabled || _) = _
    rw [hsd]

theorem finished_fields (x : State) :
    (setBusy { x with chatController := none } false).busy = false ∧
    (setBusy { x with chatController := none } false).tasksCompleted = x.tasksCompleted ∧
    (setBusy { x with chatController := none } false).dayTasks = x.dayTasks ∧
    (setBusy { x with chatController := none } false).currentTaskIndex = x.currentTaskIndex ∧
    (setBusy { x with chatController := none } false).memory = x.memory ∧
    (setBusy { x with chatController := none } false).pinnedContext = x.pinnedContext ∧
    (setBusy { x with chatController := none } false).transcript = x.transcript ∧
    (setBusy { x with chatController := none } false).inputDisabled = false ∧
    (setBusy { x with chatController := none } false).sendDisabled = x.sendDisabled := by
  simp [setBusy]

/-- What one confirmed, successful exchange does to a controller that is not
busy. -/
theorem confirm_step (lower : JSString → JSString) (t : State) (p : JSString × JSString)
    (hb : t.busy = false) (hm : trim p.1 ≠ [])
    (hc : isConfirmation (lower (trim p.1)) = true)
    (hr : completionPhrase (trim p.2) = false) :
    (doSendChat lower { t with inputValue := p.1 } none false (okReply p.2)).busy = false ∧
    ((t.tasksCompleted = false ∧ t.dayTasks ≠ [] ∧ t.currentTaskIndex + 1 < t.dayTasks.length) →
      (doSendChat lower { t with inputValue := p.1 } none false (okReply p.2)).tasksCompleted
        = false ∧
      (doSendChat lower { t with inputValue := p.1 } none false (okReply p.2)).dayTasks
        = t.dayTasks ∧
      (doSendChat lower { t with inputValue := p.1 } none false (okReply p.2)).currentTaskIndex
        = t.currentTaskIndex + 1 ∧
      (doSendChat lower { t with inputValue := p.1 } none false (okReply p.2)).transcript
        = t.transcript ++ exchangeLines [p]) ∧
    ((t.tasksCompleted = false ∧ t.dayTasks ≠ [] ∧ t.dayTasks.length ≤ t.currentTaskIndex + 1) →
      (doSendChat lower { t with inputValue := p.1 } none false (okReply p.2)).tasksCompleted
        = true ∧
      (doSendChat lower { t with inputValue := p.1 } none false (okReply p.2)).dayTasks = [] ∧
      (doSendChat lower { t with inputValue := p.1 } none false (okReply p.2)).currentTaskIndex
        = 0 ∧
      (doSendChat lower { t with inputValue := p.1 } none false (okReply p.2)).memory = [] ∧
      (doSendChat lower { t with inputValue := p.1 } none false (okReply p.2)).pinnedContext
        = [] ∧
      (doSendChat lower { t with inputValue := p.1 } none false (okReply p.2)).transcript
        = t.transcript ++ exchangeLines [p] ++ [completionLine]) ∧
    ((t.tasksCompleted = true ∨ t.dayTasks = []) →
      (doSendChat lower { t with inputValue := p.1 } none false (okReply p.2)).tasksCompleted
        = false ∧
      (doSendChat lower { t with inputValue := p.1 } none false (okReply p.2)).dayTasks = [] ∧
      (doSendChat lower { t with inputValue := p.1 } none false (okReply p.2)).transcript
        = t.transcript ++ exchangeLines [p]) := by
  obtain ⟨b, he, bt, bd, bi, btr, -⟩ := doSendChat_ok_tracker lower { t with inputValue := p.1 }
    none false 200 { reply := some p.2, error := none } hm hb (by decide)
  have he2 : doSendChat lower { t with inputValue := p.1 } none false (okReply p.2) =
      setBusy { tracker lower b (trim p.1) with chatController := none } false := he
  have bt2 : b.tasksCompleted = false := bt.trans hr
  have bd2 : b.dayTasks = (if t.tasksCompleted then [] else t.dayTasks) := bd
  have bi2 : b.currentTaskIndex = (if t.tasksCompleted then 0 else t.currentTaskIndex) := bi
  have btr2 : b.transcript = t.transcript ++ exchangeLines [p] := by
    rw [btr]
    simp [exchangeLines]
  have hc2 : isConfirmation (lower (trim (trim p.1))) = true := by rw [trim_trim]; exact hc
  obtain ⟨k1, k2, k3⟩ := tracker_confirmed_fields lower b (trim p.1) bt2 hc2
  obtain ⟨f1, f2, f3, f4, f5, f6, f7, -⟩ := finished_fields (tracker lower b (trim p.1))
  rw [he2, f2, f3, f4, f5, f6, f7]
  refine ⟨f1, ?_, ?_, ?_⟩
  · rintro ⟨c1, c2, c3⟩
    rw [c1] at bd2 bi2
    simp only [Bool.false_eq_true, if_false] at bd2 bi2
    obtain ⟨r1, r2, r3, r4⟩ := k1 ⟨by rw [bd2]; exact c2, by rw [bd2, bi2]; exact c3⟩
    exact ⟨r1, r2.trans bd2, by rw [r3, bi2], r4.trans btr2⟩
  · rintro ⟨c1, c2, c3⟩
    rw [c1] at bd2 bi2
    simp only [Bool.false_eq_true, if_false] at bd2 bi2
    obtain ⟨r1, r2, r3, r4, r5, r6⟩ := k2 ⟨by rw [bd2]; exact c2, by rw [bd2, bi2]; exact c3⟩
    exact ⟨r1, r2, r3, r4, r5, by rw [r6, btr2]⟩
  · intro c
    have hnil : b.dayTasks = [] := by
      rw [bd2]
      rcases c with c | c
      · rw [c]; rfl
      · rw [c]; split <;> rfl
    rw [k3 hnil]
    exact ⟨bt2, hnil, btr2⟩

theorem confirmRun_append (lower : JSString → JSString) (s : State)
    (xs ys : List (JSString × JSString)) :
    confirmRun lower s (xs ++ ys) = confirmRun lower (confirmRun lower s xs) ys := by
  induction xs generalizing s with
  | nil => rfl
  | cons x rest ih => exact ih _

theorem exchangeLines_append (xs ys : List (JSString × JSString)) :
    exchangeLines (xs ++ ys) = exchangeLines xs ++ exchangeLines ys := by
  simp [exchangeLines]

theorem completionLine_not_mem (pairs : List (JSString × JSString))
    (h : ∀ p ∈ pairs, completionPhrase (trim p.2) = false) :
    completionLine ∉ exchangeLines pairs := by
  intro hmem
  unfold exchangeLines at hmem
  rw [List.mem_flatMap] at hmem
  obtain ⟨p, hp, hl⟩ := hmem
  have hph := h p hp
  simp only [List.mem_cons, List.mem_singleton, List.not_mem_nil, or_false] at hl
  rcases hl with hl | hl
  · have h1 : str "assistant" = str "user" := congrArg Prod.fst hl
    exact absurd h1 (by decide)
  · have h2 : str "Good. Day tasks completed." = orEllipsis (trim p.2) := congrArg Prod.snd hl
    unfold orEllipsis at h2
    split at h2
    · rw [← h2] at hph
      exact absurd hph (by decide)
    · exact absurd h2 (by decide)

/-- The controller after the first `j` confirmations of a day with `n` tasks. -/
theorem confirmRun_phases (lower : JSString → JSString) (s : State)
    (pairs : List (JSString × JSString)) (n : Nat) (hn : 1 ≤ n)
    (htasks : s.dayTasks.length = n) (hidx : s.currentTaskIndex = 0)
    (htc : s.tasksCompleted = false) (hb : s.busy = false)
    (hconf : ∀ p ∈ pairs, trim p.1 ≠ [] ∧ isConfirmation (lower (trim p.1)) = true ∧
      completionPhrase (trim p.2) = false) :
    ∀ j, j ≤ pairs.length →
      (confirmRun lower s (pairs.take j)).busy = false ∧
      (j < n →
        (confirmRun lower s (pairs.take j)).tasksCompleted = false ∧
        (confirmRun lower s (pairs.take j)).dayTasks = s.dayTasks ∧
        (confirmRun lower s (pairs.take j)).currentTaskIndex = j ∧
        (confirmRun lower s (pairs.take j)).transcript =
          s.transcript ++ exchangeLines (pairs.take j)) ∧
      (n ≤ j →
        ((confirmRun lower s (pairs.take j)).tasksCompleted = true ∨
          (confirmRun lower s (pairs.take j)).dayTasks = []) ∧
        (confirmRun lower s (pairs.take j)).transcript =
          s.transcript ++ exchangeLines (pairs.take n) ++ [completionLine] ++
            exchangeLines ((pairs.take j).drop n)) ∧
      (j = n →
        (confirmRun lower s (pairs.take j)).tasksCompleted = true ∧
        (confirmRun lower s (pairs.take j)).currentTaskIndex = 0 ∧
        (confirmRun lower s (pairs.take j)).dayTasks = [] ∧
        (confirmRun lower s (pairs.take j)).memory = [] ∧
        (confirmRun lower s (pairs.take j)).pinnedContext = []) := by
  intro j
  induction j with
  | zero =>
    intro _
    rw [List.take_zero]
    refine ⟨hb, fun _ => ⟨htc, rfl, hidx, ?_⟩, fun h => ?_, fun h => ?_⟩
    · show s.transcript = s.transcript ++ []
      rw [List.append_nil]
    · omega
    · omega
  | succ j ih =>
    intro hj
    obtain ⟨ib, iA, iC, -⟩ := ih (by omega)
    have hjl : j < pairs.length := by omega
    have htake : pairs.take (j + 1) = pairs.take j ++ [pairs[j]] := by
      rw [List.take_succ, List.getElem?_eq_getElem hjl]
      rfl
    obtain ⟨hm, hc, hr⟩ := hconf pairs[j] (List.getElem_mem hjl)
    obtain ⟨sb, sA, sB, sC⟩ := confirm_step lower (confirmRun lower s (pairs.take j)) pairs[j]
      ib hm hc hr
    have hrun : confirmRun lower s (pairs.take (j + 1)) =
        doSendChat lower { confirmRun lower s (pairs.take j) with inputValue := pairs[j].1 }
          none false (okReply pairs[j].2) := by
      rw [htake, confirmRun_append]
      rfl
    rw [hrun]
    have hne : s.dayTasks ≠ [] := by
      intro h0
      rw [h0] at htasks
      simp at htasks
      omega
    refine ⟨sb, ?_, ?_, ?_⟩
    · intro hlt
      obtain ⟨a1, a2, a3, a4⟩ := iA (by omega)
      obtain ⟨r1, r2, r3, r4⟩ := sA ⟨a1, by rw [a2]; exact hne, by rw [a2, a3, htasks]; omega⟩
      refine ⟨r1, r2.trans a2, by rw [r3, a3], ?_⟩
      rw [r4, a4, htake, exchangeLines_append, List.append_assoc]
    · intro hle
      by_cases hjn : j < n
      · have hjeq : j + 1 = n := by omega
        obtain ⟨a1, a2, a3, a4⟩ := iA hjn
        obtain ⟨r1, r2, r3, r4, r5, r6⟩ :=
          sB ⟨a1, by rw [a2]; exact hne, by rw [a2, a3, htasks]; omega⟩
        refine ⟨Or.inl r1, ?_⟩
        rw [r6, a4, ← hjeq, htake]
        have hd : List.drop (j + 1) (pairs.take j ++ [pairs[j]]) = [] := by
          apply List.drop_eq_nil_of_le
          simp only [List.length_append, List.length_take, List.length_singleton]
          omega
        rw [hd, exchangeLines_append]
        simp [exchangeLines]
      · obtain ⟨c1, c2⟩ := iC (by omega)
        obtain ⟨r1, r2, r3⟩ := sC c1
        refine ⟨Or.inr r2, ?_⟩
        rw [r3, c2, htake]
        have hd : List.drop n (pairs.take j ++ [pairs[j]]) =
            List.drop n (pairs.take j) ++ [pairs[j]] := by
          apply List.drop_append_of_le_length
          simp only [List.length_take]
          omega
        rw [hd, exchangeLines_append]
        simp only [List.append_assoc]
    · intro hjeq
      obtain ⟨a1, a2, a3, a4⟩ := iA (by omega)
      obtain ⟨r1, r2, r3, r4, r5, r6⟩ :=
        sB ⟨a1, by rw [a2]; exact hne, by rw [a2, a3, htasks]; omega⟩
      exact ⟨r1, r3, r2, r4, r5⟩

/-- C6: for a day with `n ≥ 1` tasks, from a state with index 0, `tasksCompleted`
false and no request outstanding, in a run of confirmations that are sent and
answered successfully by replies without a completion phrase, the completion
line is added to the transcript at the `n`-th confirmation and at no other one:
after `j` confirmations the transcript holds it once more than at the start if
`n ≤ j` and no more than at the start otherwise. Before the `n`-th confirmation
the index counts the confirmations; right after it the transcript has gained
the exchange and exactly one completion line, `tasksCompleted` is true, the
index is 0 and the tasks, the turns and the pinned context are empty. -/
theorem completed_transition_fires_once_at_last_task (lower : JSString → JSString) (s : State)
    (pairs : List (JSString × JSString)) (n : Nat) (hn : 1 ≤ n)
    (htasks : s.dayTasks.length = n) (hidx : s.currentTaskIndex = 0)
    (htc : s.tasksCompleted = false) (hb : s.busy = false)
    (hconf : ∀ p ∈ pairs, trim p.1 ≠ [] ∧ isConfirmation (lower (trim p.1)) = true ∧
      completionPhrase (trim p.2) = false) :
    completionLine ∉ exchangeLines pairs ∧
    ∀ j, j ≤ pairs.length →
      (confirmRun lower s (pairs.take j)).transcript.count completionLine =
        s.transcript.count completionLine + (if n ≤ j then 1 else 0) ∧
      (j < n →
        (confirmRun lower s (pairs.take j)).transcript =
          s.transcript ++ exchangeLines (pairs.take j) ∧
        (confirmRun lower s (pairs.take j)).tasksCompleted = false ∧
        (confirmRun lower s (pairs.take j)).currentTaskIndex = j ∧
        (confirmRun lower s (pairs.take j)).dayTasks = s.dayTasks) ∧
      (j = n →
        (confirmRun lower s (pairs.take j)).transcript =
          s.transcript ++ exchangeLines (pairs.take n) ++ [completionLine] ∧
        (confirmRun lower s (pairs.take j)).tasksCompleted = true ∧
        (confirmRun lower s (pairs.take j)).currentTaskIndex = 0 ∧
        (confirmRun lower s (pairs.take j)).dayTasks = [] ∧
        (confirmRun lower s (pairs.take j)).memory = [] ∧
        (confirmRun lower s (pairs.take j)).pinnedContext = []) ∧
      (n < j →
        (confirmRun lower s (pairs.take j)).transcript =
          s.transcript ++ exchangeLines (pairs.take n) ++ [completionLine] ++
            exchangeLines ((pairs.take j).drop n)) := by
  have hnm : ∀ qs : List (JSString × JSString), (∀ p ∈ qs, p ∈ pairs) →
      List.count completionLine (exchangeLines qs) = 0 := by
    intro qs hqs
    apply List.count_eq_zero_of_not_mem
    exact completionLine_not_mem qs (fun p hp => (hconf p (hqs p hp)).2.2)
  refine ⟨completionLine_not_mem pairs (fun p hp => (hconf p hp).2.2), ?_⟩
  intro j hj
  obtain ⟨-, pA, pC, pB⟩ := confirmRun_phases lower s pairs n hn htasks hidx htc hb hconf j hj
  refine ⟨?_, ?_, ?_, ?_⟩
  · by_cases hjn : n ≤ j
    · rw [(pC hjn).2, if_pos hjn]
      simp only [List.count_append, List.count_singleton_self]
      rw [hnm _ (fun p hp => List.mem_of_mem_take hp),
        hnm _ (fun p hp => List.mem_of_mem_take (List.mem_of_mem_drop hp))]
    · rw [(pA (by omega)).2.2.2, if_neg hjn]
      simp only [List.count_append]
      rw [hnm _ (fun p hp => List.mem_of_mem_take hp)]
  · intro hlt
    obtain ⟨a1, a2, a3, a4⟩ := pA hlt
    exact ⟨a4, a1, a3, a2⟩
  · intro heq
    obtain ⟨b1, b2, b3, b4, b5⟩ := pB heq
    refine ⟨?_, b1, b2, b3, b4, b5⟩
    rw [(pC (by omega)).2]
    have hd : List.drop n (pairs.take j) = [] := by
      apply List.drop_eq_nil_of_le
      simp only [List.length_take]
      omega
    rw [hd]
    simp [exchangeLines]
  · intro hlt
    exact (pC (by omega)).2

/-- The day `Read ch.1`, `Do ex.1` and three confirmations `ok`. -/
theorem completed_transition_fires_once_at_last_task_witness :
    1 ≤ 2 ∧ twoTasks.dayTasks.length = 2 ∧ twoTasks.currentTaskIndex = 0 ∧
    twoTasks.tasksCompleted = false ∧ twoTasks.busy = false ∧
    (∀ p ∈ threeOks, trim p.1 ≠ [] ∧ isConfirmation (asciiLower (trim p.1)) = true ∧
      completionPhrase (trim p.2) = false) ∧
    ((confirmRun asciiLower twoTasks (threeOks.take 2)).transcript =
        twoTasks.transcript ++ exchangeLines (threeOks.take 2) ++ [completionLine] ∧
      (confirmRun asciiLower twoTasks (threeOks.take 2)).tasksCompleted = true ∧
      (confirmRun asciiLower twoTasks (threeOks.take 2)).currentTaskIndex = 0 ∧
      (confirmRun asciiLower twoTasks (threeOks.take 2)).dayTasks = [] ∧
      (confirmRun asciiLower twoTasks (threeOks.take 2)).memory = [] ∧
      (confirmRun asciiLower twoTasks (threeOks.take 2)).pinnedContext = []) ∧
    (confirmRun asciiLower twoTasks (threeOks.take 3)).transcript.count completionLine =
      twoTasks.transcript.count completionLine + (if 2 ≤ 3 then 1 else 0) :=
  have h := completed_transition_fires_once_at_last_task asciiLower twoTasks threeOks 2
    (by decide) rfl rfl rfl rfl (by decide)
  ⟨by decide, rfl, rfl, rfl, rfl, by decide, (h.2 2 (by decide)).2.2.1 rfl,
    (h.2 3 (by decide)).1⟩

/-! ## The lock after a completion phrase -/

theorem tracker_of_completed (lower : JSString → JSString) (t : State) (msg : JSString)
    (h : t.tasksCompleted = true) : tracker lower t msg = t :=
  tracker_of_not_confirmed lower t msg (fun hc => by rw [h] at hc; exact absurd hc.1 (by decide))

/-- C7, on the code: once `doSendChat` has handled an ok reply that holds a
completion phrase, `tasksCompleted` is true and the send control is disabled,
but the input field is enabled: `lockChatAfterCompletion` disables it and the
`setBusy(false)` of the `finally` block enables it again. -/
theorem completion_phrase_reply_leaves_input_enabled (lower : JSString → JSString) (s : State)
    (rq : Request) (status : Nat) (data : ResponseData) (hok : responseOk status = true)
    (hphrase : completionPhrase (trim (data.reply.getD [])) = true) :
    (doSendChatResume lower s rq (Outcome.response status data)).tasksCompleted = true ∧
    (doSendChatResume lower s rq (Outcome.response status data)).sendDisabled = true ∧
    (doSendChatResume lower s rq (Outcome.response status data)).inputDisabled = false := by
  obtain ⟨-, -, b3, -, -, -, -, -, b9⟩ := beforeTracker_fields (resumed s rq) rq.msg data
  rw [hphrase, Bool.or_true] at b3 b9
  rw [doSendChatResume_ok lower s rq status data hok, handleSuccess_eq_tracker,
    tracker_of_completed lower _ rq.msg b3]
  obtain ⟨-, f2, -, -, -, -, -, f8, f9⟩ :=
    finished_fields (beforeTracker (resumed s rq) rq.msg data)
  exact ⟨f2.trans b3, f9.trans b9, f8⟩

/-- The message `hello` answered by `Day 3 completed` on a fresh page, with the
index still 0. -/
theorem completion_phrase_reply_leaves_input_enabled_witness :
    responseOk 200 = true ∧
    completionPhrase (trim ((ResponseData.mk (some (str "Day 3 completed")) none).reply.getD []))
      = true ∧
    (doSendChat asciiLower emptyState (some (str "hello")) false
      (okReply (str "Day 3 completed"))).currentTaskIndex = 0 ∧
    (doSendChat asciiLower emptyState (some (str "hello")) false
      (okReply (str "Day 3 completed"))).tasksCompleted = true ∧
    (doSendChat asciiLower emptyState (some (str "hello")) false
      (okReply (str "Day 3 completed"))).sendDisabled = true ∧
    (doSendChat asciiLower emptyState (some (str "hello")) false
      (okReply (str "Day 3 completed"))).inputDisabled = false :=
  ⟨by decide, by decide, by decide,
    completion_phrase_reply_leaves_input_enabled asciiLower
      (doSendChatStart emptyState (some (str "hello")) false).1
      { token := 0, msg := str "hello", thinkingId := 1,
        message := buildPrompt emptyState (str "hello") }
      200 { reply := some (str "Day 3 completed"), error := none } (by decide) (by decide)⟩

/-! ## The task index stays within the task list -/

theorem doSendChatStart_index_le (s : State) (o : Option JSString) (raw : Bool)
    (h : s.currentTaskIndex ≤ s.dayTasks.length) :
    (doSendChatStart s o raw).1.currentTaskIndex ≤ (doSendChatStart s o raw).1.dayTasks.length := by
  by_cases hn : trim (o.getD s.inputValue) = [] ∨ s.busy = true
  · have he : doSendChatStart s o raw = (s, none) := by
      unfold doSendChatStart
      simp only [hn, if_true]
    rw [he]
    exact h
  · have hmsg : trim (o.getD s.inputValue) ≠ [] := fun h0 => hn (Or.inl h0)
    have hb : s.busy = false := by
      cases hbz : s.busy
      · rfl
      · exact absurd (Or.inr hbz) hn
    obtain ⟨rq, -, -, -, -, -, -, -, g2, g3, -⟩ := doSendChatStart_issue s o raw hmsg hb
    rw [g2, g3]
    split
    · exact Nat.le_refl 0
    · exact h

theorem tracker_index_le (lower : JSString → JSString) (t : State) (msg : JSString)
    (h : t.currentTaskIndex ≤ t.dayTasks.length) :
    (tracker lower t msg).currentTaskIndex ≤ (tracker lower t msg).dayTasks.length := by
  by_cases hc : t.tasksCompleted = false ∧ t.dayTasks ≠ [] ∧
      isConfirmation (lower (trim msg)) = true
  · obtain ⟨c1, c2, c3⟩ := hc
    obtain ⟨k1, k2, -⟩ := tracker_confirmed_fields lower t msg c1 c3
    by_cases hlt : t.currentTaskIndex + 1 < t.dayTasks.length
    · obtain ⟨-, r2, r3, -⟩ := k1 ⟨c2, hlt⟩
      rw [r2, r3]
      omega
    · obtain ⟨-, r2, r3, -⟩ := k2 ⟨c2, by omega⟩
      rw [r2, r3]
      exact Nat.le_refl 0
  · rw [tracker_of_not_confirmed lower t msg hc]
    exact h

theorem doSendChatResume_index_le (lower : JSString → JSString) (s : State) (rq : Request)
    (o : Outcome) (h : s.currentTaskIndex ≤ s.dayTasks.length) :
    (doSendChatResume lower s rq o).currentTaskIndex ≤
      (doSendChatResume lower s rq o).dayTasks.length := by
  cases o with
  | response status data =>
    cases hok : responseOk status
    · obtain ⟨-, -, f3, f4, -⟩ := doSendChatResume_fail_fields lower s rq _
        (Outcome.response status data) (Or.inl ⟨status, data, rfl, hok, rfl⟩)
      rw [f3, f4]
      exact h
    · obtain ⟨b1, b2, -⟩ := beforeTracker_fields (resumed s rq) rq.msg data
      rw [doSendChatResume_ok lower s rq status data hok, handleSuccess_eq_tracker]
      obtain ⟨-, -, f3, f4, -⟩ :=
        finished_fields (tracker lower (beforeTracker (resumed s rq) rq.msg data) rq.msg)
      rw [f3, f4]
      apply tracker_index_le
      rw [b1, b2]
      exact h
  | abortError =>
    obtain ⟨-, -, f3, f4, -⟩ := doSendChatResume_fail_fields lower s rq _
      Outcome.abortError (Or.inr (Or.inr ⟨rfl, rfl⟩))
    rw [f3, f4]
    exact h
  | networkError =>
    obtain ⟨-, -, f3, f4, -⟩ := doSendChatResume_fail_fields lower s rq _
      Outcome.networkError (Or.inr (Or.inl ⟨rfl, rfl⟩))
    rw [f3, f4]
    exact h

theorem doStop_index (s : State) :
    (doStop s).currentTaskIndex = s.currentTaskIndex ∧ (doStop s).dayTasks = s.dayTasks := by
  unfold doStop
  cases s.chatController <;> simp [setBusy]

theorem step_index_le (lower : JSString → JSString) (s t : State) (hst : Step lower s t)
    (h : s.currentTaskIndex ≤ s.dayTasks.length) :
    t.currentTaskIndex ≤ t.dayTasks.length := by
  cases hst with
  | typeText v => exact h
  | send o raw => exact doSendChatStart_index_le s o raw h
  | resolve rq o hp ha => exact doSendChatResume_index_le lower s rq o h
  | stop =>
    obtain ⟨e1, e2⟩ := doStop_index s
    rw [e1, e2]
    exact h
  | openPanel => exact h
  | closePanel =>
    obtain ⟨e1, e2⟩ := doStop_index { s with panelShown := false }
    show (doStop { s with panelShown := false }).currentTaskIndex ≤
      (doStop { s with panelShown := false }).dayTasks.length
    rw [e1, e2]
    exact h
  | startDay detail =>
    unfold startDay
    apply doSendChatStart_index_le
    exact Nat.zero_le _

/-- C8: in every state reachable from an initial state by the events of the
controller (typing, sends, resolutions of outstanding requests with any
outcome, stop, opening and closing the panel, start-day signals),
`currentTaskIndex` is a natural number with
`0 ≤ currentTaskIndex ≤ length dayTasks`. -/
theorem currentTaskIndex_within_dayTasks (lower : JSString → JSString) (s : State)
    (hr : Reachable lower s) :
    0 ≤ s.currentTaskIndex ∧ s.currentTaskIndex ≤ s.dayTasks.length := by
  refine ⟨Nat.zero_le _, ?_⟩
  induction hr with
  | init s hi =>
    obtain ⟨-, -, -, h4, h5, -⟩ := hi
    rw [h4, h5]
    exact Nat.le_refl 0
  | step s t _ hst ih => exact step_index_le lower s t hst ih

set_option maxRecDepth 8000 in
/-- The sample state is reachable: start-day signal, its answer, `ok`, its answer. -/
theorem afterFirstOk_reachable : Reachable asciiLower afterFirstOk := by
  have h0 : Reachable asciiLower emptyState :=
    Reachable.init emptyState ⟨rfl, rfl, rfl, rfl, rfl, rfl, rfl, rfl, rfl, rfl⟩
  have h1 := Reachable.step _ _ h0 (Step.startDay emptyState (some dayTwoDetail))
  have h2 := Reachable.step _ _ h1 (Step.resolve _ dayTwoRequest (okReply (str "Let us begin."))
    (by decide) (by intro h; cases h))
  have h3 := Reachable.step _ _ h2 (Step.send _ (some (str "ok")) false)
  exact Reachable.step _ _ h3 (Step.resolve _ okRequest (okReply (str "Next one."))
    (by decide) (by intro h; cases h))

/-- After the start of a day with two tasks and one confirmation the index is 1. -/
theorem currentTaskIndex_within_dayTasks_witness :
    Reachable asciiLower afterFirstOk ∧
    (0 ≤ afterFirstOk.currentTaskIndex ∧
      afterFirstOk.currentTaskIndex ≤ afterFirstOk.dayTasks.length) ∧
    afterFirstOk.currentTaskIndex = 1 ∧ afterFirstOk.dayTasks.length = 2 :=
  ⟨afterFirstOk_reachable,
    currentTaskIndex_within_dayTasks asciiLower afterFirstOk afterFirstOk_reachable,
    by decide, by decide⟩

/-! ## Cancellation and the busy guard -/

/-- C11, on the code: a request aborted while the fetch is awaited gets the
`Stopped.` notice and no turn is pushed. A request aborted while its body is
read after a status 200 arrived is handled as a successful empty reply: after
`hello` and Stop on a fresh page the transcript gains `…`, not `Stopped.`, and
the turns `hello` and `…` are pushed. -/
theorem cancel_while_reading_body_updates_memory :
    (∀ (lower : JSString → JSString) (s : State) (rq : Request),
      (doSendChatResume lower s rq (outcomeOf Wire.abortedWaiting)).memory = s.memory ∧
      (doSendChatResume lower s rq (outcomeOf Wire.abortedWaiting)).transcript =
        s.transcript ++ [(str "assistant", str "Stopped.")]) ∧
    (doSendChatStart emptyState (some (str "hello")) false).2 = some helloRequest ∧
    helloRequest ∈ helloStopped.pending ∧ helloRequest.token ∈ helloStopped.abortedTokens ∧
    helloStopped.memory = [] ∧
    (doSendChatResume asciiLower helloStopped helloRequest
      (outcomeOf (Wire.responded 200 BodyRead.abortedReading))).transcript =
        [(str "user", str "hello"), (str "assistant", str "…")] ∧
    (doSendChatResume asciiLower helloStopped helloRequest
      (outcomeOf (Wire.responded 200 BodyRead.abortedReading))).memory =
        [{ role := str "user", content := str "hello" },
         { role := str "assistant", content := str "…" }] := by
  refine ⟨?_, by decide, by decide, by decide, by decide, by decide, by decide⟩
  intro lower s rq
  obtain ⟨h1, -, -, -, -, -, h7, -⟩ := doSendChatResume_fail_fields lower s rq (str "Stopped.")
    Outcome.abortError (Or.inr (Or.inr ⟨rfl, rfl⟩))
  exact ⟨h1, h7⟩

/-- C12: when the controller is busy, or the message is empty after trimming,
`doSendChat` issues no request and returns the state it was called in: no field
of the controller changes, whatever the network would have answered. -/
theorem busy_or_blank_send_is_noop (lower : JSString → JSString) (s : State)
    (messageOverride : Option JSString) (raw : Bool) (o : Outcome)
    (h : s.busy = true ∨ trim (messageOverride.getD s.inputValue) = []) :
    doSendChatStart s messageOverride raw = (s, none) ∧
    doSendChat lower s messageOverride raw o = s := by
  have he : doSendChatStart s messageOverride raw = (s, none) := by
    unfold doSendChatStart
    have h2 : trim (messageOverride.getD s.inputValue) = [] ∨ s.busy = true := h.symm
    simp only [h2, if_true]
  refine ⟨he, ?_⟩
  unfold doSendChat
  rw [he]

/-- A second send while the first is outstanding, and a send of blanks. -/
theorem busy_or_blank_send_is_noop_witness :
    ((doSendChatStart emptyState (some (str "first")) false).1.busy = true ∨
      trim ((some (str "second")).getD
        (doSendChatStart emptyState (some (str "first")) false).1.inputValue) = []) ∧
    (emptyState.busy = true ∨ trim ((some (str " \n ")).getD emptyState.inputValue) = []) ∧
    (doSendChatStart (doSendChatStart emptyState (some (str "first")) false).1
        (some (str "second")) false =
      ((doSendChatStart emptyState (some (str "first")) false).1, none) ∧
      doSendChat asciiLower (doSendChatStart emptyState (some (str "first")) false).1
        (some (str "second")) false (okReply (str "hi")) =
        (doSendChatStart emptyState (some (str "first")) false).1) ∧
    doSendChat asciiLower emptyState (some (str " \n ")) false (okReply (str "hi")) =
      emptyState :=
  ⟨Or.inl (by decide), Or.inr (by decide),
    busy_or_blank_send_is_noop asciiLower (doSendChatStart emptyState (some (str "first")) false).1
      (some (str "second")) false (okReply (str "hi")) (Or.inl (by decide)),
    (busy_or_blank_send_is_noop asciiLower emptyState (some (str " \n ")) false
      (okReply (str "hi")) (Or.inr (by decide))).2⟩

/-! ## Superseded requests and the stored snapshot -/

/-- The superseded state is reachable: send, stop, send. -/
theorem superseded_reachable : Reachable asciiLower superseded := by
  have h0 : Reachable asciiLower emptyState :=
    Reachable.init emptyState ⟨rfl, rfl, rfl, rfl, rfl, rfl, rfl, rfl, rfl, rfl⟩
  have h1 := Reachable.step _ _ h0 (Step.send emptyState (some (str "first")) false)
  have h2 := Reachable.step _ _ h1 (Step.stop _)
  exact Reachable.step _ _ h2 (Step.send _ (some (str "second")) false)

/-- C13, as stated, fails: after `first` is sent, stopped and superseded by
`second`, the resolution of `first` (with the abort it was given) leaves the
controller not busy and with no live token, while `second` is still
outstanding. -/
theorem stale_resolution_clears_busy_and_token :
    Reachable asciiLower superseded ∧
    firstRequest ∈ superseded.pending ∧ secondRequest ∈ superseded.pending ∧
    firstRequest.token ∈ superseded.abortedTokens ∧
    superseded.busy = true ∧ superseded.chatController = some secondRequest.token ∧
    Step asciiLower superseded
      (doSendChatResume asciiLower superseded firstRequest Outcome.abortError) ∧
    (doSendChatResume asciiLower superseded firstRequest Outcome.abortError).busy = false ∧
    (doSendChatResume asciiLower superseded firstRequest Outcome.abortError).chatController
      = none ∧
    secondRequest ∈
      (doSendChatResume asciiLower superseded firstRequest Outcome.abortError).pending :=
  ⟨superseded_reachable, by decide, by decide, by decide, by decide, by decide,
    Step.resolve superseded firstRequest Outcome.abortError (by decide) (fun _ => by decide),
    by decide, by decide, by decide⟩

theorem tracker_pending (lower : JSString → JSString) (t : State) (msg : JSString) :
    (tracker lower t msg).pending = t.pending := by
  by_cases hc : t.tasksCompleted = false ∧ t.dayTasks ≠ [] ∧
      isConfirmation (lower (trim msg)) = true
  · rw [tracker_of_confirmed lower t msg hc.1 hc.2.1 hc.2.2]
    unfold completionCheck
    split <;> rfl
  · rw [tracker_of_not_confirmed lower t msg hc]

theorem doSendChatResume_pending (lower : JSString → JSString) (s : State) (rq : Request)
    (o : Outcome) : (doSendChatResume lower s rq o).pending = s.pending.erase rq := by
  have hfin : ∀ x : State, (setBusy { x with chatController := none } false).pending =
      x.pending := by
    intro x
    simp [setBusy]
  unfold doSendChatResume
  rw [hfin]
  cases o with
  | response status data =>
    simp only
    split
    · rfl
    · show (handleSuccess lower _ rq.msg data).pending = _
      rw [handleSuccess_eq_tracker, tracker_pending]
      unfold beforeTracker
      split <;> rfl
  | abortError => rfl
  | networkError => rfl

/-- C13, amended: when a request `a` has been superseded by a newer request `b`
whose token is live, the later resolution of `a` runs the handler of any
resolution, there being no check of the token: with any outcome it clears the
busy flag and the live token while `b` stays outstanding; with an abort, a
network error or a response that is not ok it leaves the turns, the pinned
context and the stored snapshot unchanged. -/
theorem stale_resolution_effect (lower : JSString → JSString) (s : State) (a b : Request)
    (o : Outcome) (_ha : a ∈ s.pending) (hbp : b ∈ s.pending) (hne : b ≠ a)
    (_hb : s.chatController = some b.token) (_hbusy : s.busy = true) :
    (doSendChatResume lower s a o).busy = false ∧
    (doSendChatResume lower s a o).chatController = none ∧
    b ∈ (doSendChatResume lower s a o).pending ∧
    ((o = Outcome.abortError ∨ o = Outcome.networkError ∨
        ∃ status data, o = Outcome.response status data ∧ responseOk status = false) →
      (doSendChatResume lower s a o).memory = s.memory ∧
      (doSendChatResume lower s a o).pinnedContext = s.pinnedContext ∧
      (doSendChatResume lower s a o).storage = s.storage) := by
  have hfin : ∀ x : State, (setBusy { x with chatController := none } false).busy = false ∧
      (setBusy { x with chatController := none } false).chatController = none := by
    intro x
    simp [setBusy]
  refine ⟨?_, ?_, ?_, ?_⟩
  · unfold doSendChatResume
    exact (hfin _).1
  · unfold doSendChatResume
    exact (hfin _).2
  · rw [doSendChatResume_pending]
    exact (List.mem_erase_of_ne hne).mpr hbp
  · intro ho
    rcases ho with rfl | rfl | ⟨status, data, rfl, hok⟩
    · obtain ⟨h1, h2, -, -, -, h6, -⟩ := doSendChatResume_fail_fields lower s a (str "Stopped.")
        Outcome.abortError (Or.inr (Or.inr ⟨rfl, rfl⟩))
      exact ⟨h1, h2, h6⟩
    · obtain ⟨h1, h2, -, -, -, h6, -⟩ := doSendChatResume_fail_fields lower s a
        (str "Network error. Try again.") Outcome.networkError (Or.inr (Or.inl ⟨rfl, rfl⟩))
      exact ⟨h1, h2, h6⟩
    · obtain ⟨h1, h2, -, -, -, h6, -⟩ := doSendChatResume_fail_fields lower s a _
        (Outcome.response status data) (Or.inl ⟨status, data, rfl, hok, rfl⟩)
      exact ⟨h1, h2, h6⟩

/-- The superseded request `first` resolved by a network error. -/
theorem stale_resolution_effect_witness :
    firstRequest ∈ superseded.pending ∧ secondRequest ∈ superseded.pending ∧
    secondRequest ≠ firstRequest ∧ superseded.chatController = some secondRequest.token ∧
    superseded.busy = true ∧
    (doSendChatResume asciiLower superseded firstRequest Outcome.networkError).busy = false ∧
    (doSendChatResume asciiLower superseded firstRequest Outcome.networkError).chatController
      = none ∧
    secondRequest ∈
      (doSendChatResume asciiLower superseded firstRequest Outcome.networkError).pending ∧
    (doSendChatResume asciiLower superseded firstRequest Outcome.networkError).memory
      = superseded.memory :=
  have h := stale_resolution_effect asciiLower superseded firstRequest secondRequest
    Outcome.networkError (by decide) (by decide) (by decide) (by decide) (by decide)
  ⟨by decide, by decide, by decide, by decide, by decide, h.1, h.2.1, h.2.2.1,
    (h.2.2.2 (Or.inr (Or.inl rfl))).1⟩

/-- C17, on the code: closing the panel, the Completed transition and the hard
reset of the start-day signal empty the turns and clear the stored snapshot,
and every push stores the turns. The fresh-session reset of `doSendChat` empties
the turns and leaves the stored snapshot: after `hello` was answered by
`Day 3 completed`, sending `again` leaves no turn in memory and two turns in
the store, also after the request has failed. -/
theorem fresh_session_reset_keeps_stored_snapshot :
    (∀ s : State, (closePanel s).memory = [] ∧ (closePanel s).storage = none) ∧
    (∀ s : State, (resetAfterCompletion s).memory = [] ∧
      (resetAfterCompletion s).storage = none) ∧
    (∀ s : State, (hardResetChatMemory s).memory = [] ∧
      (hardResetChatMemory s).storage = none) ∧
    (∀ (s : State) (role content : JSString),
      (pushMem s role content).storage = some (pushMem s role content).memory) ∧
    lockedByReply.tasksCompleted = true ∧ lockedByReply.inputDisabled = false ∧
    lockedByReply.busy = false ∧
    lockedByReply.storage = some lockedByReply.memory ∧
    lockedByReply.memory =
      [{ role := str "user", content := str "hello" },
       { role := str "assistant", content := str "Day 3 completed" }] ∧
    (doSendChatStart { lockedByReply with inputValue := str "again" } none false).1.memory
      = [] ∧
    (doSendChatStart { lockedByReply with inputValue := str "again" } none false).1.storage =
      some [{ role := str "user", content := str "hello" },
            { role := str "assistant", content := str "Day 3 completed" }] ∧
    (doSendChat asciiLower { lockedByReply with inputValue := str "again" } none false
      Outcome.networkError).memory = [] ∧
    (doSendChat asciiLower { lockedByReply with inputValue := str "again" } none false
      Outcome.networkError).storage =
      some [{ role := str "user", content := str "hello" },
            { role := str "assistant", content := str "Day 3 completed" }] := by
  refine ⟨?_, ?_, ?_, ?_, by decide, by decide, by decide, by decide, by decide, by decide,
    by decide, by decide, by decide⟩
  · intro s
    exact ⟨rfl, rfl⟩
  · intro s
    exact ⟨rfl, rfl⟩
  · intro s
    exact ⟨rfl, rfl⟩
  · intro s role content
    rfl

/-! ## Properties of the start-day signal -/

theorem dropWhile_keeps (p : CodeUnit → Bool) (a x' b : JSString) (c : CodeUnit)
    (hc : p c = false) :
    ∃ a2, List.dropWhile p (a ++ (c :: x') ++ b) = a2 ++ (c :: x') ++ b := by
  induction a with
  | nil =>
    refine ⟨[], ?_⟩
    simp only [List.nil_append, List.cons_append]
    rw [List.dropWhile_cons_of_neg (by simp [hc])]
  | cons y a ih =>
    by_cases hy : p y = true
    · obtain ⟨a2, h2⟩ := ih
      refine ⟨a2, ?_⟩
      simp only [List.cons_append] at h2 ⊢
      rw [List.dropWhile_cons_of_pos hy]
      exact h2
    · refine ⟨y :: a, ?_⟩
      simp only [List.cons_append]
      rw [List.dropWhile_cons_of_neg hy]

theorem rdropWhile_keeps (p : CodeUnit → Bool) (a x0 b : JSString) (d : CodeUnit)
    (hd : p d = false) :
    ∃ b2, List.rdropWhile p (a ++ (x0 ++ [d]) ++ b) = a ++ (x0 ++ [d]) ++ b2 := by
  obtain ⟨r, hr⟩ := dropWhile_keeps p b.reverse x0.reverse a.reverse d hd
  refine ⟨r.reverse, ?_⟩
  unfold List.rdropWhile
  have e : (a ++ (x0 ++ [d]) ++ b).reverse = b.reverse ++ (d :: x0.reverse) ++ a.reverse := by
    simp
  rw [e, hr]
  simp

theorem trim_shape (y : JSString) :
    trim y = [] ∨ ∃ (c d : CodeUnit) (x1 x0 : JSString), trim y = c :: x1 ∧
      trim y = x0 ++ [d] ∧ isWhiteSpace c = false ∧ isWhiteSpace d = false := by
  by_cases h0 : trim y = []
  · exact Or.inl h0
  · right
    have hlast : ¬ isWhiteSpace ((trim y).getLast h0) = true :=
      List.rdropWhile_last_not isWhiteSpace (List.dropWhile isWhiteSpace y) h0
    have hsplit := List.dropLast_append_getLast h0
    obtain ⟨t, ht⟩ := List.rdropWhile_prefix isWhiteSpace (List.dropWhile isWhiteSpace y)
    cases hty : trim y with
    | nil => exact absurd hty h0
    | cons c x1 =>
      have hpre : List.dropWhile isWhiteSpace y = c :: (x1 ++ t) := by
        rw [← ht]
        show trim y ++ t = _
        rw [hty]
        rfl
      have hc := dropWhile_head_not isWhiteSpace y c (x1 ++ t) hpre
      refine ⟨c, (trim y).getLast h0, x1, (trim y).dropLast, rfl, ?_, hc, by simpa using hlast⟩
      rw [← hty]
      exact hsplit.symm

theorem infix_trim (x s : JSString) (hx : x <:+: s)
    (hs : x = [] ∨ ∃ (c d : CodeUnit) (x1 x0 : JSString), x = c :: x1 ∧
      x = x0 ++ [d] ∧ isWhiteSpace c = false ∧ isWhiteSpace d = false) :
    x <:+: trim s := by
  rcases hs with h0 | ⟨c, d, x1, x0, h1, h2, hc, hd⟩
  · rw [h0]
    exact ⟨[], trim s, rfl⟩
  · obtain ⟨a, b, hab⟩ := hx
    obtain ⟨a2, ha2⟩ := dropWhile_keeps isWhiteSpace a x1 b c hc
    obtain ⟨b2, hb2⟩ := rdropWhile_keeps isWhiteSpace a2 x0 b d hd
    unfold trim
    rw [← hab, h1, ha2, ← h1, h2, hb2]
    exact ⟨a2, b2, rfl⟩

theorem trim_eq_self (c d : CodeUnit) (x1 x0 : JSString) (s : JSString) (h1 : s = c :: x1)
    (h2 : s = x0 ++ [d]) (hc : isWhiteSpace c = false) (hd : isWhiteSpace d = false) :
    trim s = s := by
  unfold trim
  have e1 : List.dropWhile isWhiteSpace s = s := by
    rw [h1, List.dropWhile_cons_of_neg (by simp [hc])]
  rw [e1, h2, List.rdropWhile_concat_neg _ _ _ (by simp [hd])]

theorem trim_cons_ne_nil (c : CodeUnit) (r : JSString) (hc : isWhiteSpace c = false) :
    trim (c :: r) ≠ [] := by
  unfold trim
  rw [List.dropWhile_cons_of_neg (by simp [hc])]
  intro h
  rw [List.rdropWhile_eq_nil_iff] at h
  have := h c (List.mem_cons_self c r)
  rw [hc] at this
  exact absurd this (by decide)

theorem mem_infix_join (sep x : JSString) (lines : List JSString) (h : x ∈ lines) :
    x <:+: join sep lines := by
  induction lines with
  | nil => simp at h
  | cons y rest ih =>
    cases rest with
    | nil =>
      simp only [List.mem_singleton] at h
      rw [h]
      exact List.infix_refl _
    | cons z rest2 =>
      rw [join_cons_cons sep y (z :: rest2) (by simp)]
      rcases List.mem_cons.mp h with h1 | h1
      · rw [h1]
        exact ⟨[], sep ++ join sep (z :: rest2), by simp⟩
      · exact (ih h1).trans ⟨y ++ sep, [], by simp⟩

theorem join_starts (sep h : JSString) (rest : List JSString) :
    ∃ tail, join sep (h :: rest) = h ++ tail := by
  cases rest with
  | nil => exact ⟨[], by simp [join]⟩
  | cons z r => exact ⟨sep ++ join sep (z :: r), by rw [join_cons_cons _ _ _ (by simp)]; simp⟩

theorem startDay_eq (s : State) (detail : Option Detail) :
    ∃ mid : State,
      startDay s detail = (doSendChatStart mid (some (buildStartDayMessage detail)) true).1 ∧
      mid.busy = s.busy ∧ mid.tasksCompleted = false ∧ mid.memory = [] ∧
      mid.pinnedContext = buildStartDayMessage detail ∧
      mid.dayTasks = (match findDay detail (detailDay detail) with
        | some e => e.tasks.getD []
        | none => []) ∧
      mid.currentTaskIndex = 0 ∧ mid.pending = s.pending ∧ mid.storage = none :=
  ⟨_, rfl, rfl, rfl, rfl, rfl, rfl, rfl, rfl, rfl⟩

theorem startDay_not_busy (s : State) (detail : Option Detail) (hb : s.busy = false)
    (hmsg : trim (buildStartDayMessage detail) ≠ []) :
    ∃ rq : Request,
      (startDay s detail).pending = s.pending ++ [rq] ∧
      rq.message = trim (buildStartDayMessage detail) ∧
      rq.msg = trim (buildStartDayMessage detail) ∧
      (startDay s detail).tasksCompleted = false ∧
      (startDay s detail).memory = [] ∧
      (startDay s detail).pinnedContext = buildStartDayMessage detail ∧
      (startDay s detail).dayTasks = (match findDay detail (detailDay detail) with
        | some e => e.tasks.getD []
        | none => []) ∧
      (startDay s detail).currentTaskIndex = 0 ∧
      (startDay s detail).busy = true := by
  obtain ⟨mid, he, m1, m2, m3, m4, m5, m6, m7, -⟩ := startDay_eq s detail
  obtain ⟨rq, -, g1, g2, g3, -, g5, g6, g7, g8, g9, g10, -⟩ :=
    doSendChatStart_issue mid (some (buildStartDayMessage detail)) true hmsg (m1.trans hb)
  rw [he]
  rw [m2] at g7 g8 g9 g10
  simp only [Bool.false_eq_true, if_false] at g7 g8 g9 g10
  refine ⟨rq, ?_, ?_, g1, g6, g9.trans m3, g10.trans m4, g7.trans m5, g8.trans m6, g5⟩
  · rw [g3, m7]
  · rw [g2]
    rfl

theorem buildStartDayMessage_found (detail : Option Detail) (e : DayEntry)
    (hday : detailDay detail ≠ 0) (he : findDay detail (detailDay detail) = some e) :
    ∃ (c : CodeUnit) (h : JSString) (rest : List JSString),
      buildStartDayMessage detail = join (str "\n") ((c :: h) :: rest) ∧
      isWhiteSpace c = false ∧
      (trim e.goal ≠ [] → str "Goal: " ++ trim e.goal ∈ (c :: h) :: rest) ∧
      ((e.tasks.getD []).length ≠ 0 →
        str "Tasks:\n" ++ join (str "\n") ((e.tasks.getD []).map (fun t => str "- " ++ trim t))
          ∈ (c :: h) :: rest) := by
  unfold buildStartDayMessage
  simp only [he, hday, if_false]
  by_cases hi : detailIntent detail = str "help_overview"
  · rw [if_pos hi]
    refine ⟨72, (str "HELP_OVERVIEW").tail, List.filter (fun l => decide (l ≠ []))
      [ str "Day: " ++ intToString (detailDay detail),
        if trim e.goal ≠ [] then str "Goal: " ++ trim e.goal else str "",
        if (e.tasks.getD []).length ≠ 0 then str "Tasks:\n" ++
          join (str "\n") ((e.tasks.getD []).map (fun t => str "- " ++ trim t)) else str "",
        str "",
        str "INSTRUCTION:",
        str "Explain ALL tasks together in ONE coherent answer.",
        str "Give: overview of how they connect + steps for each + common pitfalls + quick checklist.",
        str "Keep it concise and practical. Do not end with a question." ], ?_, by decide, ?_, ?_⟩
    · rw [List.filter_cons_of_pos (by decide)]
      rfl
    · intro hg
      apply List.mem_cons_of_mem
      rw [List.mem_filter]
      refine ⟨?_, by simp only [decide_eq_true_eq, ne_eq, List.append_eq_nil, not_and]; intro h; exact absurd h (by decide)⟩
      rw [if_pos hg]
      simp
    · intro ht
      apply List.mem_cons_of_mem
      rw [List.mem_filter]
      refine ⟨?_, by simp only [decide_eq_true_eq, ne_eq, List.append_eq_nil, not_and]; intro h; exact absurd h (by decide)⟩
      rw [if_pos ht]
      simp
  · rw [if_neg hi]
    refine ⟨83, (str "START_DAY").tail, List.filter (fun l => decide (l ≠ []))
      [ str "Day: " ++ intToString (detailDay detail),
        if trim e.goal ≠ [] then str "Goal: " ++ trim e.goal else str "",
        if (e.tasks.getD []).length ≠ 0 then str "Tasks:\n" ++
          join (str "\n") ((e.tasks.getD []).map (fun t => str "- " ++ trim t)) else str "" ],
      ?_, by decide, ?_, ?_⟩
    · rw [List.filter_cons_of_pos (by decide)]
      rfl
    · intro hg
      apply List.mem_cons_of_mem
      rw [List.mem_filter]
      refine ⟨?_, by simp only [decide_eq_true_eq, ne_eq, List.append_eq_nil, not_and]; intro h; exact absurd h (by decide)⟩
      rw [if_pos hg]
      simp
    · intro ht
      apply List.mem_cons_of_mem
      rw [List.mem_filter]
      refine ⟨?_, by simp only [decide_eq_true_eq, ne_eq, List.append_eq_nil, not_and]; intro h; exact absurd h (by decide)⟩
      rw [if_pos ht]
      simp

/-- C14, as stated, fails: a start-day signal handled while a request is
outstanding issues no request (the busy guard of `doSendChat`); a signal for
day 0 with an entry for day 0 sends the fallback `Start Day .`; and when the
last task is blank the message sent is the synthesized message without its
trailing blank, because `doSendChat` trims its argument. -/
theorem startDay_while_busy_issues_no_request :
    superseded.busy = true ∧
    findDay (some dayTwoDetail) (detailDay (some dayTwoDetail)) =
      some { day := 2, goal := str "Basics", tasks := some [str "Read ch.1", str "Do ex.1"] } ∧
    (startDay superseded (some dayTwoDetail)).pending = superseded.pending ∧
    findDay (some dayZeroDetail) (detailDay (some dayZeroDetail)) =
      some { day := 0, goal := str "Setup", tasks := some [str "Install"] } ∧
    (startDay emptyState (some dayZeroDetail)).pending.map Request.message =
      [str "Start Day ."] ∧
    (startDay emptyState (some blankTaskDetail)).pinnedContext =
      str "START_DAY\nDay: 2\nGoal: Basics\nTasks:\n- Read ch.1\n- " ∧
    (startDay emptyState (some blankTaskDetail)).pending.map Request.message =
      [str "START_DAY\nDay: 2\nGoal: Basics\nTasks:\n- Read ch.1\n-"] := by
  decide

/-- C14, amended: for a controller that is not busy and a start-day signal for a
day other than 0 whose plan has an entry for that day, handling the signal sets
`dayTasks` to the task list of the entry (empty when it has none),
`currentTaskIndex` to 0 and `tasksCompleted` to false, empties the turns, sets
the pinned context to the synthesized message and issues exactly one request;
its message is the synthesized message trimmed, not composed, and contains the
trimmed goal and every trimmed task of the entry. -/
theorem startDay_with_entry (s : State) (detail : Option Detail) (e : DayEntry)
    (hb : s.busy = false) (hday : detailDay detail ≠ 0)
    (he : findDay detail (detailDay detail) = some e) :
    (startDay s detail).dayTasks = e.tasks.getD [] ∧
    (startDay s detail).currentTaskIndex = 0 ∧
    (startDay s detail).tasksCompleted = false ∧
    (startDay s detail).memory = [] ∧
    (startDay s detail).pinnedContext = buildStartDayMessage detail ∧
    ∃ rq : Request,
      (startDay s detail).pending = s.pending ++ [rq] ∧
      rq.message = trim (buildStartDayMessage detail) ∧
      trim e.goal <:+: rq.message ∧
      ∀ t ∈ e.tasks.getD [], trim t <:+: rq.message := by
  obtain ⟨c, h, rest, hm, hc, hgoal, htasks⟩ := buildStartDayMessage_found detail e hday he
  obtain ⟨tail, htail⟩ := join_starts (str "\n") (c :: h) rest
  have hne : trim (buildStartDayMessage detail) ≠ [] := by
    rw [hm, htail]
    exact trim_cons_ne_nil c (h ++ tail) hc
  obtain ⟨rq, p1, p2, -, p4, p5, p6, p7, p8, -⟩ := startDay_not_busy s detail hb hne
  rw [he] at p7
  refine ⟨p7, p8, p4, p5, p6, rq, p1, p2, ?_, ?_⟩
  · rw [p2]
    apply infix_trim _ _ _ (trim_shape e.goal)
    by_cases hg : trim e.goal = []
    · rw [hg]
      exact ⟨[], buildStartDayMessage detail, rfl⟩
    · rw [hm]
      have h1 : trim e.goal <:+: str "Goal: " ++ trim e.goal := ⟨str "Goal: ", [], by simp⟩
      exact h1.trans (mem_infix_join _ _ _ (hgoal hg))
  · intro t ht
    rw [p2]
    apply infix_trim _ _ _ (trim_shape t)
    have hlen : (e.tasks.getD []).length ≠ 0 := by
      intro h0
      rw [List.length_eq_zero.mp h0] at ht
      simp at ht
    rw [hm]
    have h1 : trim t <:+: str "- " ++ trim t := ⟨str "- ", [], by simp⟩
    have h2 : str "- " ++ trim t <:+:
        join (str "\n") ((e.tasks.getD []).map (fun t => str "- " ++ trim t)) :=
      mem_infix_join _ _ _ (List.mem_map.mpr ⟨t, ht, rfl⟩)
    have h3 : join (str "\n") ((e.tasks.getD []).map (fun t => str "- " ++ trim t)) <:+:
        str "Tasks:\n" ++
          join (str "\n") ((e.tasks.getD []).map (fun t => str "- " ++ trim t)) :=
      ⟨str "Tasks:\n", [], by simp⟩
    exact ((h1.trans h2).trans h3).trans (mem_infix_join _ _ _ (htasks hlen))

/-- Day 2 of a plan with the tasks `Read ch.1` and `Do ex.1`. -/
theorem startDay_with_entry_witness :
    twoTasks.busy = false ∧ detailDay (some dayTwoDetail) ≠ 0 ∧
    findDay (some dayTwoDetail) (detailDay (some dayTwoDetail)) =
      some { day := 2, goal := str "Basics", tasks := some [str "Read ch.1", str "Do ex.1"] } ∧
    (startDay twoTasks (some dayTwoDetail)).dayTasks = [str "Read ch.1", str "Do ex.1"] ∧
    (startDay twoTasks (some dayTwoDetail)).pinnedContext =
      str "START_DAY\nDay: 2\nGoal: Basics\nTasks:\n- Read ch.1\n- Do ex.1" ∧
    (startDay twoTasks (some dayTwoDetail)).pending.map Request.message =
      [str "START_DAY\nDay: 2\nGoal: Basics\nTasks:\n- Read ch.1\n- Do ex.1"] :=
  have h := startDay_with_entry twoTasks (some dayTwoDetail)
    { day := 2, goal := str "Basics", tasks := some [str "Read ch.1", str "Do ex.1"] }
    rfl (by decide) (by decide)
  ⟨rfl, by decide, by decide, h.1, h.2.2.2.2.1.trans (by decide), by decide⟩

theorem buildStartDayMessage_missing (detail : Option Detail) (hday : detailDay detail ≠ 0)
    (hn : findDay detail (detailDay detail) = none) :
    buildStartDayMessage detail =
      str "Start Day " ++ intToString (detailDay detail) ++ str "." := by
  unfold buildStartDayMessage
  simp only [hn, hday, ne_eq, not_false_eq_true, if_true]

theorem trim_fallback (x : JSString) :
    trim (str "Start Day " ++ x ++ str ".") = str "Start Day " ++ x ++ str "." :=
  trim_eq_self 83 46 ((str "Start Day ").tail ++ x ++ str ".") (str "Start Day " ++ x) _
    rfl rfl (by decide) (by decide)

theorem findThrows_of_objects (day : Int) (l : List (Option DayEntry))
    (h : ∀ e ∈ l, ∃ x : DayEntry, e = some x ∧ x.day ≠ day) :
    findThrows day l = false ∧ (l.filterMap id).find? (fun x => x.day == day) = none := by
  induction l with
  | nil => exact ⟨rfl, rfl⟩
  | cons e rest ih =>
    obtain ⟨x, rfl, hx⟩ := h e (List.mem_cons_self _ _)
    have ih2 := ih (fun e2 he2 => h e2 (List.mem_cons_of_mem _ he2))
    have hne : (x.day == day) = false := by simpa using hx
    constructor
    · unfold findThrows
      rw [hne]
      simpa using ih2.1
    · rw [List.filterMap_cons_some (show id (some x) = some x from rfl), List.find?_cons, hne]
      exact ih2.2

theorem signal_without_entry (signal : Option Signal)
    (h : ∀ sig l, signal = some sig → sig.days = some l →
      ∀ e ∈ l, ∃ x : DayEntry, e = some x ∧ x.day ≠ sig.day) :
    tryThrows signal = false ∧
    findDay (signalDetail signal) (detailDay (signalDetail signal)) = none := by
  cases signal with
  | none => exact ⟨rfl, rfl⟩
  | some sig =>
    cases hd : sig.days with
    | none =>
      constructor
      · simp [tryThrows, hd]
      · simp [signalDetail, findDay, hd]
    | some l =>
      obtain ⟨h1, h2⟩ := findThrows_of_objects sig.day l (h sig l rfl hd)
      constructor
      · simp [tryThrows, hd, h1]
      · simp only [signalDetail, Option.map_some', findDay, detailDay, hd]
        exact h2

/-- The `catch` block, whatever the state it starts in and whatever the intent
of the signal, ends with an error and with the pinned context `Start day.`. -/
theorem startDayCatch_raises (s : State) :
    (startDayCatch s).raised = true ∧
    (startDayCatch s).state.pinnedContext = str "Start day." := by
  refine ⟨rfl, ?_⟩
  unfold startDayCatch doSendChatStart
  cases hb : s.busy <;> cases hc : s.chatController <;>
    simp [hb, hc, openPanel, hardResetChatMemory, clearMemory, append, resetInputBox, setBusy,
      makeThinkingBubble]
  all_goals (split <;> rfl)

/-- A `null` entry in the plan: the lookup throws, the `catch` block sends
`Start day.`, and its last statement throws in turn. -/
theorem startDayListener_null_entry :
    tryThrows (some nullEntrySignal) = true ∧
    (startDayListener emptyState (some nullEntrySignal)).raised = true ∧
    (startDayListener emptyState (some nullEntrySignal)).state.pending.map Request.message =
      [str "Start day."] ∧
    (startDayListener emptyState (some nullEntrySignal)).state.pinnedContext =
      str "Start day." := by
  decide

/-- C15, as stated, fails. For day 0 and no plan the message sent is
`Start Day .`, without a number. A signal for day 3 without a plan that is
handled while a request is outstanding sends nothing: the only request
outstanding afterwards is the earlier one. For day 3 with the overview intent
and no plan the message `Start Day 3.` is sent and the pinned context
afterwards is that message, not empty. -/
theorem startDay_fallback_day_zero_busy_and_overview :
    tryThrows (some { noPlanSignal with day := 0 }) = false ∧
    findDay (signalDetail (some { noPlanSignal with day := 0 })) 0 = none ∧
    (startDayListener emptyState (some { noPlanSignal with day := 0 })).raised = false ∧
    (startDayListener emptyState (some { noPlanSignal with day := 0 })).state.pending.map
      Request.message = [str "Start Day ."] ∧
    str "Start Day ." ≠ str "Start Day " ++ intToString 0 ++ str "." ∧
    (doSendChatStart emptyState (some (str "hello")) false).1.busy = true ∧
    (startDayListener (doSendChatStart emptyState (some (str "hello")) false).1
      (some noPlanSignal)).raised = false ∧
    (startDayListener (doSendChatStart emptyState (some (str "hello")) false).1
      (some noPlanSignal)).state.pending = [helloRequest] ∧
    helloRequest.message ≠ str "Start Day 3." ∧
    detailIntent (signalDetail (some noPlanSignal)) = str "help_overview" ∧
    findDay (signalDetail (some noPlanSignal)) 3 = none ∧
    (startDayListener emptyState (some noPlanSignal)).raised = false ∧
    (startDayListener emptyState (some noPlanSignal)).state.pending.map Request.message =
      [str "Start Day 3."] ∧
    (startDayListener emptyState (some noPlanSignal)).state.pinnedContext = str "Start Day 3." ∧
    (startDayListener emptyState (some noPlanSignal)).state.pinnedContext ≠ [] := by
  decide

/-- C15, amended: for a controller that is not busy and a start-day signal for a
day `n` other than 0 whose plan is missing, or whose plan has entries that are
all objects with a day other than `n`, the listener runs to its end without an
error, issues exactly one request, whose message is exactly `Start Day <n>.`,
and leaves no day tasks and no turns. -/
theorem startDayListener_without_entry (s : State) (signal : Option Signal)
    (hb : s.busy = false) (hday : detailDay (signalDetail signal) ≠ 0)
    (hn : ∀ sig l, signal = some sig → sig.days = some l →
      ∀ e ∈ l, ∃ x : DayEntry, e = some x ∧ x.day ≠ sig.day) :
    (startDayListener s signal).raised = false ∧
    (∃ rq : Request,
      (startDayListener s signal).state.pending = s.pending ++ [rq] ∧
      rq.message =
        str "Start Day " ++ intToString (detailDay (signalDetail signal)) ++ str ".") ∧
    (startDayListener s signal).state.dayTasks = [] ∧
    (startDayListener s signal).state.memory = [] := by
  obtain ⟨ht, hf⟩ := signal_without_entry signal hn
  have hl : startDayListener s signal =
      { state := startDay s (signalDetail signal), raised := false } := by
    unfold startDayListener
    rw [ht]
    rfl
  have hm := buildStartDayMessage_missing (signalDetail signal) hday hf
  have htr : trim (buildStartDayMessage (signalDetail signal)) =
      buildStartDayMessage (signalDetail signal) := by
    rw [hm]
    exact trim_fallback _
  have hne : trim (buildStartDayMessage (signalDetail signal)) ≠ [] := by
    rw [htr, hm]
    exact List.cons_ne_nil 83 _
  obtain ⟨rq, p1, p2, -, -, p5, -, p7, -⟩ := startDay_not_busy s (signalDetail signal) hb hne
  rw [hf] at p7
  rw [htr, hm] at p2
  rw [hl]
  exact ⟨rfl, ⟨rq, p1, p2⟩, p7, p5⟩

/-- Day 3 of a plan that has the days 1 and 2 only, on a fresh page. -/
theorem startDayListener_without_entry_witness :
    emptyState.busy = false ∧ detailDay (signalDetail (some dayThreeSignal)) ≠ 0 ∧
    (∀ sig l, some dayThreeSignal = some sig → sig.days = some l →
      ∀ e ∈ l, ∃ x : DayEntry, e = some x ∧ x.day ≠ sig.day) ∧
    (startDayListener emptyState (some dayThreeSignal)).raised = false ∧
    (startDayListener emptyState (some dayThreeSignal)).state.pending.map Request.message =
      [str "Start Day 3."] ∧
    (startDayListener emptyState (some dayThreeSignal)).state.dayTasks = [] ∧
    (startDayListener emptyState (some dayThreeSignal)).state.memory = [] :=
  have hn : ∀ sig l, some dayThreeSignal = some sig → sig.days = some l →
      ∀ e ∈ l, ∃ x : DayEntry, e = some x ∧ x.day ≠ sig.day := by
    intro sig l h1 h2 e he
    cases h1
    cases h2
    simp only [List.mem_cons, List.mem_singleton, List.not_mem_nil, or_false] at he
    rcases he with rfl | rfl
    · exact ⟨_, rfl, by decide⟩
    · exact ⟨_, rfl, by decide⟩
  have h := startDayListener_without_entry emptyState (some dayThreeSignal) rfl (by decide) hn
  ⟨rfl, by decide, hn, h.1, by decide, h.2.2.1, h.2.2.2⟩

/-! ## Restoring the session memory -/

/-- C16, on the code: a missing entry, an empty entry, an entry that cannot be
parsed and an entry that parses to anything but an array leave the memory
empty, but an array is taken as it is, whatever its elements: the entry
`[null]`, whose element is no turn record, leaves the memory holding `null`. -/
theorem loadMemory_keeps_array_of_any_elements :
    (∀ parsed : Option Json, loadMemory [] none parsed = []) ∧
    (∀ parsed : Option Json, loadMemory [] (some []) parsed = []) ∧
    (∀ raw : JSString, loadMemory [] (some raw) none = []) ∧
    (∀ (raw : JSString) (j : Json), (∀ items, j ≠ Json.array items) →
      loadMemory [] (some raw) (some j) = []) ∧
    (∀ (raw : JSString) (items : List Json), raw ≠ [] →
      loadMemory [] (some raw) (some (Json.array items)) = items) ∧
    isTurnRecord Json.null = false ∧
    loadMemory [] (some (str "[null]")) (some (Json.array [Json.null])) = [Json.null] ∧
    loadMemory [] (some (str "[null]")) (some (Json.array [Json.null])) ≠ [] := by
  refine ⟨fun _ => rfl, fun _ => rfl, ?_, ?_, ?_, rfl, rfl, List.cons_ne_nil _ _⟩
  · intro raw
    unfold loadMemory
    by_cases h : raw ≠ [] <;> simp [h]
  · intro raw j hj
    unfold loadMemory
    by_cases h : raw ≠ []
    · simp only [h, ne_eq, not_false_eq_true, if_true]
      cases j with
      | array items => exact absurd rfl (hj items)
      | null => rfl
      | bool b => rfl
      | number n => rfl
      | string s => rfl
      | object f => rfl
    · simp [h]
  · intro raw items h
    unfold loadMemory
    simp [h]

/-! ## The pager of the leaderboard -/

theorem filter_eq_range (n k : Nat) :
    (List.range n).filter (fun i => decide (i = k)) = if k < n then [k] else [] := by
  induction n with
  | zero => simp
  | succ n ih =>
    rw [List.range_succ, List.filter_append, ih]
    by_cases h1 : k < n
    · have h2 : ¬ n = k := by omega
      simp [h1, h2, Nat.lt_succ_of_lt h1]
    · by_cases h2 : n = k
      · simp [h1, h2]
      · have h3 : ¬ k < n + 1 := by omega
        simp [h1, h2, h3]

theorem windowItems_filter (a b c : Int) :
    (windowItems a b c).filter (fun it => !it.dots) = windowItems a b c := by
  unfold windowItems
  rw [List.filter_eq_self]
  intro it hit
  rw [List.mem_map] at hit
  obtain ⟨i, -, rfl⟩ := hit
  rfl

theorem windowItems_pages (a b c : Int) :
    (windowItems a b c).map PagerItem.page =
      (List.range (b + 1 - a).toNat).map (fun (i : Nat) => a + (i : Int)) := by
  unfold windowItems
  rw [List.map_map]
  rfl

theorem windowItems_active (a b c : Int) :
    ((windowItems a b c).filter PagerItem.active).map PagerItem.page =
      if a ≤ c ∧ c ≤ b then [c] else [] := by
  unfold windowItems
  rw [List.filter_map, List.map_map]
  have hf : (PagerItem.active ∘ fun (i : Nat) =>
      ({ label := intToString (a + (i : Int)), page := a + (i : Int), disabled := false,
         active := decide (a + (i : Int) = c), dots := false } : PagerItem)) =
      fun i => decide (i = (c - a).toNat ∧ a ≤ c) := by
    funext i
    simp only [Function.comp]
    apply decide_eq_decide.mpr
    omega
  rw [hf]
  by_cases hac : a ≤ c
  · have hf2 : (fun (i : Nat) => decide (i = (c - a).toNat ∧ a ≤ c)) =
        fun i => decide (i = (c - a).toNat) := by
      funext i
      simp [hac]
    rw [hf2, filter_eq_range]
    by_cases hcb : c ≤ b
    · rw [if_pos (by omega), if_pos ⟨hac, hcb⟩]
      simp only [List.map_cons, List.map_nil, Function.comp]
      congr 1
      show a + ((c - a).toNat : Int) = c
      omega
    · rw [if_neg (by omega), if_neg (fun h => hcb h.2)]
      rfl
  · have hf2 : (fun (i : Nat) => decide (i = (c - a).toNat ∧ a ≤ c)) = fun _ => false := by
      funext i
      simp [hac]
    rw [hf2, if_neg (fun h => hac h.1)]
    simp

theorem windowItems_sorted (a b c : Int) :
    ((windowItems a b c).map PagerItem.page).Pairwise (fun x y => x < y) := by
  rw [windowItems_pages, List.pairwise_map]
  apply List.Pairwise.imp _ (List.pairwise_lt_range _)
  intro i j hij
  omega

theorem windowItems_bounds (a b c : Int) :
    ∀ p ∈ (windowItems a b c).map PagerItem.page, a ≤ p ∧ p ≤ b := by
  intro p hp
  rw [windowItems_pages, List.mem_map] at hp
  obtain ⟨i, hi, rfl⟩ := hp
  rw [List.mem_range] at hi
  omega

theorem pageEntries_snoc (first final : PagerItem) (body : List PagerItem) :
    pageEntries (first :: (body ++ [final])) = body.filter (fun it => !it.dots) := by
  unfold pageEntries
  rw [List.drop_one, List.tail_cons, List.dropLast_concat]

theorem pageEntries_setPager (cur total : Int) (h3 : 3 ≤ total) :
    pageEntries (setPager cur total) =
      ({ label := str "1", page := 1, disabled := false,
         active := decide (clampPage (if cur ≠ 0 then cur else 1) 1 total = 1),
         dots := false } : PagerItem) ::
      (windowItems
          (clampPage (clampPage (if cur ≠ 0 then cur else 1) 1 total - 2) 2 (total - 1))
          (clampPage (clampPage (if cur ≠ 0 then cur else 1) 1 total + 2) 2 (total - 1))
          (clampPage (if cur ≠ 0 then cur else 1) 1 total) ++
        [{ label := intToString total, page := total, disabled := false,
           active := decide (clampPage (if cur ≠ 0 then cur else 1) 1 total = total),
           dots := false }]) := by
  have hlast : max 1 (if total ≠ 0 then total else 1) = total := by
    rw [if_pos (by omega)]
    omega
  unfold setPager
  simp only [hlast]
  generalize clampPage (if cur ≠ 0 then cur else 1) 1 total = c
  generalize clampPage (c - 2) 2 (total - 1) = a
  generalize clampPage (c + 2) 2 (total - 1) = b
  rw [if_pos (by omega), if_pos (by omega)]
  by_cases h1 : a > 2 <;> by_cases h2 : b < total - 1 <;>
    simp only [h1, h2, if_true, if_false, List.append_assoc, List.singleton_append,
      List.cons_append, List.nil_append]
  · rw [show ∀ (x y z w : PagerItem) (W : List PagerItem),
        x :: y :: z :: (W ++ [z, w, (⟨str "›", clampPage (c + 1) 1 total, decide (c = total),
          false, false⟩ : PagerItem)]) =
        x :: ((y :: z :: (W ++ [z, w])) ++ [(⟨str "›", clampPage (c + 1) 1 total,
          decide (c = total), false, false⟩ : PagerItem)]) from fun _ _ _ _ _ => by simp,
      pageEntries_snoc]
    simp [List.filter_cons, List.filter_append, windowItems_filter, dotsItem]
  · rw [show ∀ (x y z w : PagerItem) (W : List PagerItem),
        x :: y :: z :: (W ++ [w, (⟨str "›", clampPage (c + 1) 1 total, decide (c = total),
          false, false⟩ : PagerItem)]) =
        x :: ((y :: z :: (W ++ [w])) ++ [(⟨str "›", clampPage (c + 1) 1 total,
          decide (c = total), false, false⟩ : PagerItem)]) from fun _ _ _ _ _ => by simp,
      pageEntries_snoc]
    simp [List.filter_cons, List.filter_append, windowItems_filter, dotsItem]
  · rw [show ∀ (x y z w : PagerItem) (W : List PagerItem),
        x :: y :: (W ++ [z, w, (⟨str "›", clampPage (c + 1) 1 total, decide (c = total),
          false, false⟩ : PagerItem)]) =
        x :: ((y :: (W ++ [z, w])) ++ [(⟨str "›", clampPage (c + 1) 1 total,
          decide (c = total), false, false⟩ : PagerItem)]) from fun _ _ _ _ _ => by simp,
      pageEntries_snoc]
    simp [List.filter_cons, List.filter_append, windowItems_filter, dotsItem]
  · rw [show ∀ (x y w : PagerItem) (W : List PagerItem),
        x :: y :: (W ++ [w, (⟨str "›", clampPage (c + 1) 1 total, decide (c = total),
          false, false⟩ : PagerItem)]) =
        x :: ((y :: (W ++ [w])) ++ [(⟨str "›", clampPage (c + 1) 1 total,
          decide (c = total), false, false⟩ : PagerItem)]) from fun _ _ _ _ => by simp,
      pageEntries_snoc]
    simp [List.filter_cons, List.filter_append, windowItems_filter, dotsItem]

theorem setPager_single_page (cur : Int) :
    pageEntries (setPager cur 1) =
      [{ label := str "1", page := 1, disabled := false, active := true, dots := false }] := by
  have hc : clampPage (if cur ≠ 0 then cur else 1) 1 1 = 1 := by
    unfold clampPage
    omega
  have hlast : max (1 : Int) (if (1 : Int) ≠ 0 then 1 else 1) = 1 := by decide
  unfold setPager
  simp only [hlast, hc]
  rw [if_neg (by decide)]
  rfl

theorem setPager_pages_ok (cur total : Int) (h1 : 1 ≤ total) (h2 : total ≠ 2) :
    ((pageEntries (setPager cur total)).map PagerItem.page).Pairwise (fun x y => x < y) ∧
    ((pageEntries (setPager cur total)).map PagerItem.page).head? = some 1 ∧
    ((pageEntries (setPager cur total)).map PagerItem.page).getLast? = some total ∧
    ((pageEntries (setPager cur total)).filter PagerItem.active).map PagerItem.page =
      [clampPage (if cur ≠ 0 then cur else 1) 1 total] := by
  by_cases h3 : 3 ≤ total
  · rw [pageEntries_setPager cur total h3]
    have hc : 1 ≤ clampPage (if cur ≠ 0 then cur else 1) 1 total ∧
        clampPage (if cur ≠ 0 then cur else 1) 1 total ≤ total := by
      unfold clampPage
      omega
    generalize clampPage (if cur ≠ 0 then cur else 1) 1 total = c at hc ⊢
    have ha : 2 ≤ clampPage (c - 2) 2 (total - 1) ∧ clampPage (c - 2) 2 (total - 1) ≤ total - 1 ∧
        (2 ≤ c → clampPage (c - 2) 2 (total - 1) ≤ c) := by
      unfold clampPage
      omega
    have hb : clampPage (c + 2) 2 (total - 1) ≤ total - 1 ∧
        (c ≤ total - 1 → c ≤ clampPage (c + 2) 2 (total - 1)) := by
      unfold clampPage
      omega
    generalize clampPage (c - 2) 2 (total - 1) = a at ha ⊢
    generalize clampPage (c + 2) 2 (total - 1) = b at hb ⊢
    have hbd := windowItems_bounds a b c
    refine ⟨?_, ?_, ?_, ?_⟩
    · simp only [List.map_cons, List.map_append, List.map_nil]
      rw [List.pairwise_cons, List.pairwise_append]
      refine ⟨?_, windowItems_sorted a b c, List.pairwise_singleton _ _, ?_⟩
      · intro p hp
        rcases List.mem_append.mp hp with hp | hp
        · have := hbd p hp
          omega
        · simp only [List.mem_singleton] at hp
          omega
      · intro x hx y hy
        simp only [List.mem_singleton] at hy
        have := hbd x hx
        omega
    · rfl
    · simp only [List.map_cons, List.map_append, List.map_nil]
      rw [← List.cons_append, List.getLast?_concat]
    · have hw := windowItems_active a b c
      have e : ∀ (x y : PagerItem) (W : List PagerItem),
          List.filter PagerItem.active (x :: (W ++ [y])) =
            (if x.active = true then [x] else []) ++
              (W.filter PagerItem.active ++ (if y.active = true then [y] else [])) := by
        intro x y W
        by_cases hx : x.active = true <;> by_cases hy : y.active = true <;>
          simp [List.filter_cons, List.filter_append, hx, hy]
      rw [e, List.map_append, List.map_append, hw]
      simp only [decide_eq_true_eq]
      by_cases c1 : c = 1
      · rw [if_pos c1, if_neg (by omega), if_neg (by omega)]
        simp [c1]
      · by_cases c2 : c = total
        · rw [if_neg c1, if_neg (by omega), if_pos c2]
          simp [c2]
        · rw [if_neg c1, if_pos ⟨ha.2.2 (by omega), hb.2 (by omega)⟩, if_neg c2]
          simp
  · have ht : total = 1 := by omega
    rw [ht, setPager_single_page]
    have hc : clampPage (if cur ≠ 0 then cur else 1) 1 1 = 1 := by
      unfold clampPage
      omega
    rw [hc]
    exact ⟨List.pairwise_singleton _ _, rfl, rfl, rfl⟩

/-- C19, on the code: with exactly two pages the window loop already emits page 2
(the clamp `clamp(x, 2, last - 1)` returns 2 when `last - 1` is 1) and the last
page is then added once more, so page 2 is listed twice and, when it is the
current page, marked active twice. For every other total of at least one page
the page numbers are strictly increasing from 1 to the last page and exactly
one entry is active, the current page clamped into `[1, last]`. -/
theorem setPager_two_pages_lists_last_page_twice :
    (pageEntries (setPager 1 2)).map PagerItem.page = [1, 2, 2] ∧
    (pageEntries (setPager 2 2)).map PagerItem.page = [1, 2, 2] ∧
    (pageEntries (setPager 2 2)).map PagerItem.active = [false, true, true] ∧
    (pageEntries (setPager 5 9)).map PagerItem.page = [1, 3, 4, 5, 6, 7, 9] ∧
    ∀ cur total : Int, 1 ≤ total → total ≠ 2 →
      ((pageEntries (setPager cur total)).map PagerItem.page).Pairwise (fun x y => x < y) ∧
      ((pageEntries (setPager cur total)).map PagerItem.page).head? = some 1 ∧
      ((pageEntries (setPager cur total)).map PagerItem.page).getLast? = some total ∧
      ((pageEntries (setPager cur total)).filter PagerItem.active).map PagerItem.page =
        [clampPage (if cur ≠ 0 then cur else 1) 1 total] :=
  ⟨by decide, by decide, by decide, by decide, setPager_pages_ok⟩

/-! ## The rendering of assistant text -/

theorem boldScan_outside_ne (c : CodeUnit) (rest : JSString) (h : c ≠ 42) :
    boldScan Scan.outside (c :: rest) = c :: boldScan Scan.outside rest := by
  simp [boldScan, h]

theorem boldScan_inside_ne (c : CodeUnit) (rest : JSString) (h : c ≠ 42) :
    boldScan Scan.inside (c :: rest) = c :: boldScan Scan.inside rest := by
  simp [boldScan, h]

theorem boldScan_outside_star (rest : JSString) :
    boldScan Scan.outside (42 :: rest) = 42 :: boldScan Scan.outside rest ∨
    ∃ x xs, rest = 42 :: x :: xs ∧
      boldScan Scan.outside (42 :: rest) = str "<strong>" ++ x :: boldScan Scan.inside xs := by
  by_cases ho : opens rest = true
  · right
    match rest, ho with
    | c2 :: x :: xs, ho =>
      have h1 : c2 = 42 := by
        simp only [opens, Bool.and_eq_true, beq_iff_eq] at ho
        exact ho.1.1
      subst h1
      exact ⟨x, xs, rfl, by simp [boldScan, ho]⟩
    | [], ho => simp [opens] at ho
    | [_], ho => simp [opens] at ho
  · left
    simp [boldScan, ho]

theorem boldScan_inside_star (rest : JSString) :
    boldScan Scan.inside (42 :: rest) = 42 :: boldScan Scan.inside rest ∨
    ∃ after, rest = 42 :: after ∧
      boldScan Scan.inside (42 :: rest) = str "</strong>" ++ boldScan Scan.outside after := by
  cases rest with
  | nil => left; simp [boldScan]
  | cons c2 after =>
    by_cases h : c2 = 42
    · right
      subst h
      exact ⟨after, rfl, by simp [boldScan]⟩
    · left
      simp [boldScan, h]

theorem escapeHtml_eq (s : JSString) : escapeHtml s = s.flatMap escapeChar := by
  induction s with
  | nil => rfl
  | cons x rest ih =>
    have hstep : escapeHtml (x :: rest) = escapeHtml [x] ++ escapeHtml rest := by
      simp [escapeHtml, replaceChar, List.flatMap_append]
    rw [hstep, ih, List.flatMap_cons]
    congr 1
    unfold escapeChar
    by_cases h1 : x = 38
    · subst h1; decide
    · by_cases h2 : x = 60
      · subst h2; decide
      · by_cases h3 : x = 62
        · subst h3; decide
        · by_cases h4 : x = 34
          · subst h4; decide
          · by_cases h5 : x = 39
            · subst h5; decide
            · simp [escapeHtml, replaceChar, h1, h2, h3, h4, h5]

theorem escapeChar_cases (z : CodeUnit) :
    (isPlain z = true ∧ escapeChar z = [z]) ∨ (z ≠ 42 ∧ escapeChar z ∈ entities) := by
  unfold escapeChar
  by_cases h1 : z = 38
  · subst h1; exact Or.inr (by decide)
  · by_cases h2 : z = 60
    · subst h2; exact Or.inr (by decide)
    · by_cases h3 : z = 62
      · subst h3; exact Or.inr (by decide)
      · by_cases h4 : z = 34
        · subst h4; exact Or.inr (by decide)
        · by_cases h5 : z = 39
          · subst h5; exact Or.inr (by decide)
          · left
            simp [isPlain, h1, h2, h3, h4, h5]

theorem boldScan_entity (e r : JSString) (he : e ∈ entities) :
    boldScan Scan.outside (e ++ r) = e ++ boldScan Scan.outside r ∧
    boldScan Scan.inside (e ++ r) = e ++ boldScan Scan.inside r ∧
    boldScan Scan.inside (e.tail ++ r) = e.tail ++ boldScan Scan.inside r ∧
    e.head? = some 38 := by
  simp only [entities, List.mem_cons, List.mem_singleton, List.not_mem_nil, or_false] at he
  rcases he with rfl | rfl | rfl | rfl | rfl <;>
    refine ⟨?_, ?_, ?_, by decide⟩ <;>
    simp [str, encodeChar, boldScan_outside_ne, boldScan_inside_ne]

theorem flatMap_escape_star (t r : JSString) (h : t.flatMap escapeChar = 42 :: r) :
    ∃ t2, t = 42 :: t2 ∧ r = t2.flatMap escapeChar := by
  cases t with
  | nil => simp at h
  | cons y t2 =>
    rw [List.flatMap_cons] at h
    rcases escapeChar_cases y with ⟨-, hy⟩ | ⟨-, hy⟩
    · rw [hy] at h
      simp only [List.singleton_append, List.cons.injEq] at h
      exact ⟨t2, by rw [h.1], h.2.symm⟩
    · obtain ⟨-, -, -, hh⟩ := boldScan_entity (escapeChar y) [] hy
      have h2 := congrArg List.head? h
      rw [List.head?_append_of_ne_nil _ (by intro h0; rw [h0] at hh; simp at hh), hh] at h2
      simp at h2

theorem safe_first (z x : CodeUnit) (w xs : JSString) (h : escapeChar z ++ w = x :: xs)
    (hw : Safe (boldScan Scan.inside w)) : Safe (x :: boldScan Scan.inside xs) := by
  rcases escapeChar_cases z with ⟨hp, hz⟩ | ⟨-, hz⟩
  · rw [hz] at h
    simp only [List.singleton_append, List.cons.injEq] at h
    rw [← h.1, ← h.2]
    exact Safe.plain z _ hp hw
  · obtain ⟨-, -, h3, hh⟩ := boldScan_entity (escapeChar z) w hz
    generalize escapeChar z = e at h hz h3 hh
    cases e with
    | nil => simp at hh
    | cons c e2 =>
      simp only [List.cons_append, List.cons.injEq] at h
      simp only [List.tail_cons] at h3
      rw [← h.1, ← h.2, h3]
      exact Safe.entity (c :: e2) _ hz hw

theorem boldScan_safe (n : Nat) : ∀ t : JSString, t.length ≤ n →
    Safe (boldScan Scan.outside (t.flatMap escapeChar)) ∧
    Safe (boldScan Scan.inside (t.flatMap escapeChar)) := by
  induction n with
  | zero =>
    intro t ht
    have : t = [] := List.length_eq_zero.mp (by omega)
    subst this
    exact ⟨Safe.nil, Safe.nil⟩
  | succ n ih =>
    intro t ht
    cases t with
    | nil => exact ⟨Safe.nil, Safe.nil⟩
    | cons z t1 =>
      have ih1 := ih t1 (by simp at ht; omega)
      rw [List.flatMap_cons]
      rcases escapeChar_cases z with ⟨hp, hz⟩ | ⟨-, hz⟩
      · rw [hz, List.singleton_append]
        by_cases h42 : z = 42
        · subst h42
          constructor
          · rcases boldScan_outside_star (t1.flatMap escapeChar) with h | ⟨x, xs, hr, h⟩
            · rw [h]
              exact Safe.plain 42 _ hp ih1.1
            · rw [h]
              obtain ⟨t2, ht2, hr2⟩ := flatMap_escape_star t1 _ hr
              cases t2 with
              | nil => simp at hr2
              | cons z2 t3 =>
                rw [List.flatMap_cons] at hr2
                have ih3 := ih t3 (by rw [ht2] at ht; simp at ht; omega)
                exact Safe.tag (str "<strong>") _ (by decide)
                  (safe_first z2 x _ xs hr2.symm ih3.2)
          · rcases boldScan_inside_star (t1.flatMap escapeChar) with h | ⟨after, hr, h⟩
            · rw [h]
              exact Safe.plain 42 _ hp ih1.2
            · rw [h]
              obtain ⟨t2, ht2, hr2⟩ := flatMap_escape_star t1 _ hr
              rw [hr2]
              have ih2 := ih t2 (by rw [ht2] at ht; simp at ht; omega)
              exact Safe.tag (str "</strong>") _ (by decide) ih2.1
        · rw [boldScan_outside_ne z _ h42, boldScan_inside_ne z _ h42]
          exact ⟨Safe.plain z _ hp ih1.1, Safe.plain z _ hp ih1.2⟩
      · obtain ⟨h1, h2, -, -⟩ := boldScan_entity (escapeChar z) (t1.flatMap escapeChar) hz
        rw [h1, h2]
        exact ⟨Safe.entity _ _ hz ih1.1, Safe.entity _ _ hz ih1.2⟩

theorem replaceChar_append (c : CodeUnit) (r a b : JSString) :
    replaceChar c r (a ++ b) = replaceChar c r a ++ replaceChar c r b := by
  unfold replaceChar
  rw [List.flatMap_append]

theorem replaceChar_cons (c : CodeUnit) (r : JSString) (x : CodeUnit) (b : JSString) :
    replaceChar c r (x :: b) = (if x = c then r else [x]) ++ replaceChar c r b := by
  unfold replaceChar
  rw [List.flatMap_cons]

theorem newline_safe (s : JSString) (h : Safe s) : Safe (replaceChar 10 (str "<br>") s) := by
  induction h with
  | nil => exact Safe.nil
  | plain c r hc _ ih =>
    rw [replaceChar_cons]
    by_cases h10 : c = 10
    · rw [if_pos h10]
      exact Safe.tag _ _ (by decide) ih
    · rw [if_neg h10]
      exact Safe.plain c _ hc ih
  | entity e r he _ ih =>
    rw [replaceChar_append]
    have hfix : replaceChar 10 (str "<br>") e = e := by
      simp only [entities, List.mem_cons, List.mem_singleton, List.not_mem_nil, or_false] at he
      rcases he with rfl | rfl | rfl | rfl | rfl <;> decide
    rw [hfix]
    exact Safe.entity e _ he ih
  | tag t r ht _ ih =>
    rw [replaceChar_append]
    have hfix : replaceChar 10 (str "<br>") t = t := by
      simp only [insertedTags, List.mem_cons, List.mem_singleton, List.not_mem_nil,
        or_false] at ht
      rcases ht with rfl | rfl | rfl <;> decide
    rw [hfix]
    exact Safe.tag t _ ht ih

theorem renderMiniMarkdown_safe (text : JSString) : Safe (renderMiniMarkdown text) := by
  unfold renderMiniMarkdown
  rw [escapeHtml_eq]
  exact newline_safe _ (boldScan_safe _ _ (Nat.le_refl _)).1

theorem safe_tokens (s : JSString) (h : Safe s) :
    ∃ toks : List JSString, s = toks.flatten ∧
      ∀ t ∈ toks, (∃ c, t = [c] ∧ isPlain c = true) ∨ t ∈ entities ∨ t ∈ insertedTags := by
  induction h with
  | nil => exact ⟨[], rfl, by simp⟩
  | plain c r hc _ ih =>
    obtain ⟨toks, h1, h2⟩ := ih
    refine ⟨[c] :: toks, by rw [h1]; rfl, ?_⟩
    intro t ht
    rcases List.mem_cons.mp ht with rfl | ht
    · exact Or.inl ⟨c, rfl, hc⟩
    · exact h2 t ht
  | entity e r he _ ih =>
    obtain ⟨toks, h1, h2⟩ := ih
    refine ⟨e :: toks, by rw [h1]; rfl, ?_⟩
    intro t ht
    rcases List.mem_cons.mp ht with rfl | ht
    · exact Or.inr (Or.inl he)
    · exact h2 t ht
  | tag t0 r ht0 _ ih =>
    obtain ⟨toks, h1, h2⟩ := ih
    refine ⟨t0 :: toks, by rw [h1]; rfl, ?_⟩
    intro t ht
    rcases List.mem_cons.mp ht with rfl | ht
    · exact Or.inr (Or.inr ht0)
    · exact h2 t ht

theorem safe_never (k : CodeUnit) (hk : isPlain k = false)
    (hT : ∀ T ∈ entities ++ insertedTags, k ∉ T) (s : JSString) (h : Safe s) : k ∉ s := by
  induction h with
  | nil => simp
  | plain c r hc _ ih =>
    intro hm
    rcases List.mem_cons.mp hm with rfl | hm
    · rw [hc] at hk
      exact absurd hk (by decide)
    · exact ih hm
  | entity e r he _ ih =>
    intro hm
    rcases List.mem_append.mp hm with hm | hm
    · exact hT e (List.mem_append_left _ he) hm
    · exact ih hm
  | tag t r ht _ ih =>
    intro hm
    rcases List.mem_append.mp hm with hm | hm
    · exact hT t (List.mem_append_right _ ht) hm
    · exact ih hm

theorem token_split (T r pre post : JSString) (k : CodeUnit)
    (h : T ++ r = pre ++ k :: post) :
    (∃ a, pre = T ++ a ∧ r = a ++ k :: post) ∨
    (∃ c, T = pre ++ k :: c ∧ post = c ++ r) := by
  rcases List.append_eq_append_iff.mp h with ⟨a, h1, h2⟩ | ⟨c, h1, h2⟩
  · exact Or.inl ⟨a, h1, h2⟩
  · cases c with
    | nil =>
      left
      refine ⟨[], by rw [h1]; simp, ?_⟩
      rw [List.nil_append] at h2
      rw [← h2]
      rfl
    | cons x c2 =>
      right
      simp only [List.cons_append, List.cons.injEq] at h2
      exact ⟨c2, by rw [h1, h2.1], h2.2⟩

theorem safe_first_only (k : CodeUnit) (F : List JSString) (hk : isPlain k = false)
    (hT : ∀ T ∈ entities ++ insertedTags, (k ∈ T → T ∈ F) ∧ k ∉ T.tail)
    (s : JSString) (h : Safe s) :
    ∀ pre post, s = pre ++ k :: post → ∃ t ∈ F, t <+: k :: post := by
  have token : ∀ (T r : JSString), T ∈ entities ++ insertedTags →
      (∀ pre post, r = pre ++ k :: post → ∃ t ∈ F, t <+: k :: post) →
      ∀ pre post, T ++ r = pre ++ k :: post → ∃ t ∈ F, t <+: k :: post := by
    intro T r hmem ih pre post hs
    rcases token_split T r pre post k hs with ⟨a, -, h2⟩ | ⟨c, h1, h2⟩
    · exact ih a post h2
    · obtain ⟨hF, htail⟩ := hT T hmem
      cases pre with
      | nil =>
        rw [List.nil_append] at h1
        refine ⟨T, hF (by rw [h1]; exact List.mem_cons_self _ _), ?_⟩
        rw [h1, h2]
        exact ⟨r, by simp⟩
      | cons p pre2 =>
        exfalso
        apply htail
        rw [h1]
        simp
  induction h with
  | nil =>
    intro pre post hs
    simp at hs
  | plain c r hc _ ih =>
    intro pre post hs
    cases pre with
    | nil =>
      simp only [List.nil_append, List.cons.injEq] at hs
      rw [hs.1, hk] at hc
      exact absurd hc (by decide)
    | cons p pre2 =>
      simp only [List.cons_append, List.cons.injEq] at hs
      exact ih pre2 post hs.2
  | entity e r he _ ih => exact token e r (List.mem_append_left _ he) ih
  | tag t r ht _ ih => exact token t r (List.mem_append_right _ ht) ih

theorem safe_last_only (k : CodeUnit) (F : List JSString) (hk : isPlain k = false)
    (hT : ∀ T ∈ entities ++ insertedTags, (k ∈ T → T ∈ F) ∧ k ∉ T.dropLast)
    (s : JSString) (h : Safe s) :
    ∀ pre post, s = pre ++ k :: post → ∃ t ∈ F, t <:+ pre ++ [k] := by
  have token : ∀ (T r : JSString), T ∈ entities ++ insertedTags →
      (∀ pre post, r = pre ++ k :: post → ∃ t ∈ F, t <:+ pre ++ [k]) →
      ∀ pre post, T ++ r = pre ++ k :: post → ∃ t ∈ F, t <:+ pre ++ [k] := by
    intro T r hmem ih pre post hs
    rcases token_split T r pre post k hs with ⟨a, h1, h2⟩ | ⟨c, h1, -⟩
    · obtain ⟨t, ht, hsuf⟩ := ih a post h2
      refine ⟨t, ht, ?_⟩
      rw [h1, List.append_assoc]
      exact hsuf.trans (List.suffix_append _ _)
    · obtain ⟨hF, hdl⟩ := hT T hmem
      cases c with
      | nil =>
        refine ⟨T, hF (by rw [h1]; simp), ?_⟩
        rw [h1]
      | cons x c2 =>
        exfalso
        apply hdl
        rw [h1, show pre ++ k :: x :: c2 = (pre ++ [k]) ++ (x :: c2) by simp,
          List.dropLast_append_of_ne_nil _ (List.cons_ne_nil _ _)]
        simp
  induction h with
  | nil =>
    intro pre post hs
    simp at hs
  | plain c r hc _ ih =>
    intro pre post hs
    cases pre with
    | nil =>
      simp only [List.nil_append, List.cons.injEq] at hs
      rw [hs.1, hk] at hc
      exact absurd hc (by decide)
    | cons p pre2 =>
      simp only [List.cons_append, List.cons.injEq] at hs
      obtain ⟨t, ht, hsuf⟩ := ih pre2 post hs.2
      exact ⟨t, ht, hsuf.trans (List.suffix_cons _ _)⟩
  | entity e r he _ ih => exact token e r (List.mem_append_left _ he) ih
  | tag t r ht _ ih => exact token t r (List.mem_append_right _ ht) ih

/-- C18: in the HTML produced by `renderMiniMarkdown` every `<` is the first
character of one of the tags `<strong>`, `</strong>`, `<br>` standing at that
place, every `>` is the last character of one of them, every `&` starts one of
the five entities, and `"` and `'` do not occur at all: the output is a
sequence of plain characters, entities and inserted tags. The escaping maps
each character of the text to its entity (`&`, `<`, `>`, `"`, `'`) or to
itself. -/
theorem renderMiniMarkdown_output_is_escaped (text : JSString) :
    (∀ pre post, renderMiniMarkdown text = pre ++ 60 :: post →
      ∃ t ∈ insertedTags, t <+: 60 :: post) ∧
    (∀ pre post, renderMiniMarkdown text = pre ++ 62 :: post →
      ∃ t ∈ insertedTags, t <:+ pre ++ [62]) ∧
    (∀ pre post, renderMiniMarkdown text = pre ++ 38 :: post →
      ∃ e ∈ entities, e <+: 38 :: post) ∧
    34 ∉ renderMiniMarkdown text ∧ 39 ∉ renderMiniMarkdown text ∧
    (∃ toks : List JSString, renderMiniMarkdown text = toks.flatten ∧
      ∀ t ∈ toks, (∃ c, t = [c] ∧ isPlain c = true) ∨ t ∈ entities ∨ t ∈ insertedTags) ∧
    escapeHtml text = text.flatMap escapeChar ∧
    escapeChar 38 = str "&amp;" ∧ escapeChar 60 = str "&lt;" ∧ escapeChar 62 = str "&gt;" ∧
    escapeChar 34 = str "&quot;" ∧ escapeChar 39 = str "&#039;" := by
  have hs := renderMiniMarkdown_safe text
  exact ⟨safe_first_only 60 insertedTags (by decide) (by decide) _ hs,
    safe_last_only 62 insertedTags (by decide) (by decide) _ hs,
    safe_first_only 38 entities (by decide) (by decide) _ hs,
    safe_never 34 (by decide) (by decide) _ hs,
    safe_never 39 (by decide) (by decide) _ hs,
    safe_tokens _ hs, escapeHtml_eq text, by decide, by decide, by decide, by decide,
    by decide⟩

end Mentra
